import Mathlib

/-!
# Interrupt-driven serial transaction engines of the MSP430 demos

A shallow embedding of the register read/write engines of

* `gauge_I2C_display/gauge_lcd_main.c` (namespace `Gauge`): the eUSCI_B0 I2C
  master (`I2C_Master_ReadReg`, `I2C_Master_WriteReg`, `USCI_B0_ISR`), the
  display SPI writer (`SPI_Master_WriteReg`, `USCI_A1_ISR`) and `Timer_A`;
* `msp430fr243x_eusci_spi_standard_master.c` (namespace `SpiStd`): the standard
  SPI master (`SPI_Master_WriteReg`, `SPI_Master_ReadReg`, `USCI_A1_ISR`);
* `Display/ls013_codeSnippets_correct.c` (namespace `Display`): the SPI writer
  of the display driver (`SPI_Master_WriteReg`, `USCI_A1_ISR`) and
  `display_update`.  `gauge_lcd_main.c` holds the same text of these three
  functions;
* `SmartStartUp/SmartStartUp_main.c` (namespace `SmartStartUp`): the loop of
  `main` with its start-up state machine.

The namespace `Gauge` also holds `initializeConfig` of `gauge_lcd_main.c`, as
a sequence of transaction calls served from one stream of interrupts;
`SmartStartUp_main.c` has the same function without the `EnHib` write.

Conventions of the embedding.

* The C globals become the fields of a `State` record; every C function
  becomes a function on `State`.
* `uint8_t` counters and cursors are natural numbers; `x++` is
  `(x + 1) % 256` and `x--` is `(x + 255) % 256`.  Data bytes are only copied
  by the engine and are kept as natural numbers.
* A buffer is a map from index to byte.  Indices at or above
  `MAX_BUFFER_SIZE` stand for the memory behind the C array, so that an
  out-of-range access is visible instead of being dropped.
* What a handler does to the outside world is recorded as a list of events
  `Ev` returned next to the new state: a byte written to a transmit register,
  a start or stop request, a buffer access, and the clearing of `CPUOFF` on
  exit (the wake-up of the suspended caller).
* The hardware is the environment: it delivers interrupts (`Irq`), each with
  the value of the interrupt vector register and of the receive register (a
  byte).  The interrupt flag registers `UCB0IFG` and `UCA1IFG` are therefore
  not part of the state, and clearing pending flags while arming has no
  counterpart.  Busy-wait loops on hardware flags (`while (UCB0CTLW0 & UCTXSTT)`,
  `while (!(UCA1IFG & UCTXIFG))`) are taken to fall through.
* A blocking call (`__bis_SR_register(LPM0_bits + GIE)` followed by
  `return MasterMode`) consumes interrupts until one of the handlers leaves
  `CPUOFF` clear; it yields `none` when the interrupts run out before that.
-/

namespace Gauge

/-- Capacity of `ReceiveBuffer` and `TransmitBuffer` (`#define MAX_BUFFER_SIZE 128`). -/
def MAX_BUFFER_SIZE : Nat := 128

/-- Address of the MAX17260 gauge (`#define SLAVE_ADDR 0x36`). -/
def SLAVE_ADDR : Nat := 0x36

/-- Filler byte sent to clock in a reply (`#define DUMMY 0xFF`). -/
def DUMMY : Nat := 0xFF

/-- The enumeration `I2C_Mode` of the software state machine. -/
inductive I2C_Mode where
  | IDLE_MODE
  | NACK_MODE
  | TX_REG_ADDRESS_MODE
  | RX_REG_ADDRESS_MODE
  | TX_DATA_MODE
  | RX_DATA_MODE
  | SWITCH_TO_RX_MODE
  | SWITHC_TO_TX_MODE
  | TIMEOUT_MODE
  deriving DecidableEq, Repr

/-- Values of the eUSCI_B0 interrupt vector register `UCB0IV`, one per `case`
label of `USCI_B0_ISR`, and the three values above `USCI_I2C_UCTXIFG0` that
fall into its `default`. -/
inductive I2CVector where
  | USCI_NONE
  | USCI_I2C_UCALIFG
  | USCI_I2C_UCNACKIFG
  | USCI_I2C_UCSTTIFG
  | USCI_I2C_UCSTPIFG
  | USCI_I2C_UCRXIFG3
  | USCI_I2C_UCTXIFG3
  | USCI_I2C_UCRXIFG2
  | USCI_I2C_UCTXIFG2
  | USCI_I2C_UCRXIFG1
  | USCI_I2C_UCTXIFG1
  | USCI_I2C_UCRXIFG0
  | USCI_I2C_UCTXIFG0
  | USCI_I2C_UCBCNTIFG
  | USCI_I2C_UCCLTOIFG
  | USCI_I2C_UCBIT9IFG
  deriving DecidableEq, Repr

/-- Values of the eUSCI_A1 interrupt vector register `UCA1IV`. -/
inductive SPIVector where
  | USCI_NONE
  | USCI_SPI_UCRXIFG
  | USCI_SPI_UCTXIFG
  deriving DecidableEq, Repr

/-- Observable effects of one piece of code. -/
inductive Ev where
  /-- `UCB0TXBUF = b` -/
  | txbuf (b : Nat)
  /-- `UCA1TXBUF = b` (through `SendUCA1Data`) -/
  | uca1tx (b : Nat)
  /-- `UCB0CTLW0 |= UCTXSTT` -/
  | start
  /-- `UCB0CTLW0 |= UCTXSTP` -/
  | stop
  /-- a read of `TransmitBuffer[i]` -/
  | readTB (i : Nat)
  /-- the store `ReceiveBuffer[i] = v` -/
  | writeRB (i : Nat) (v : Nat)
  /-- `__bic_SR_register_on_exit` of a mask that contains `CPUOFF` -/
  | wake
  deriving DecidableEq, Repr

/-- The globals of `gauge_lcd_main.c` used by the transaction engines, the
interrupt-enable bits of `UCB0IE`, the `UCTR` bit of `UCB0CTLW0`, the
low-power bits of the status register and the timer compare register. -/
structure State where
  MasterMode : I2C_Mode
  TransmitRegAddr : Nat
  ReceiveBuffer : Nat → Nat
  RXByteCtr : Nat
  ReceiveIndex : Nat
  TransmitBuffer : Nat → Nat
  TXByteCtr : Nat
  TransmitIndex : Nat
  UCB0I2CSA : Nat
  UCRXIE : Bool
  UCTXIE : Bool
  UCNACKIE : Bool
  UCTR : Bool
  CPUOFF : Bool
  SCG0 : Bool
  SCG1 : Bool
  GIE : Bool
  TA0CCR0 : Nat

/-- The state after the C start-up code and `initI2C`: the initialisers of the
globals (`MasterMode = IDLE_MODE`, zeroed buffers and counters) and
`UCB0IE |= UCRXIE | UCNACKIE`. -/
def State.init : State where
  MasterMode := .IDLE_MODE
  TransmitRegAddr := 0
  ReceiveBuffer := fun _ => 0
  RXByteCtr := 0
  ReceiveIndex := 0
  TransmitBuffer := fun _ => 0
  TXByteCtr := 0
  TransmitIndex := 0
  UCB0I2CSA := SLAVE_ADDR
  UCRXIE := true
  UCTXIE := false
  UCNACKIE := true
  UCTR := false
  CPUOFF := false
  SCG0 := false
  SCG1 := false
  GIE := false
  TA0CCR0 := 0

/-- The assignment `buf[i] = v`. -/
def setByte (buf : Nat → Nat) (i v : Nat) : Nat → Nat :=
  fun j => if j = i then v else buf j

/-- The loop of `CopyArray`: `fuel` bounds the number of iterations left,
`copyIndex` is the `uint8_t` loop variable. -/
def CopyArray_loop (source : Nat → Nat) (count : Nat) :
    Nat → Nat → (Nat → Nat) → (Nat → Nat)
  | 0, _, dest => dest
  | fuel + 1, copyIndex, dest =>
    if copyIndex < count then
      CopyArray_loop source count fuel ((copyIndex + 1) % 256)
        (setByte dest copyIndex (source copyIndex))
    else dest

/-- `CopyArray(source, dest, count)`: `dest[copyIndex] = source[copyIndex]` for
`copyIndex = 0, ..., count - 1`.  A `uint8_t` count is below 256, so 256
iterations always reach the loop exit. -/
def CopyArray (source dest : Nat → Nat) (count : Nat) : Nat → Nat :=
  CopyArray_loop source count 256 0 dest

/-- `I2C_Master_ReadReg` up to and including `__bis_SR_register(LPM0_bits + GIE)`:
the armed state and the start request. -/
def I2C_Master_ReadReg_arm (s : State) (dev_addr reg_addr count : Nat) :
    State × List Ev :=
  ({ s with
      MasterMode := .TX_REG_ADDRESS_MODE
      TransmitRegAddr := reg_addr
      RXByteCtr := count
      TXByteCtr := 0
      ReceiveIndex := 0
      TransmitIndex := 0
      UCB0I2CSA := dev_addr
      UCRXIE := false
      UCTXIE := true
      UCTR := true
      CPUOFF := true
      GIE := true },
   [Ev.start])

/-- `I2C_Master_WriteReg` up to and including `__bis_SR_register(LPM0_bits + GIE)`. -/
def I2C_Master_WriteReg_arm (s : State) (dev_addr reg_addr : Nat)
    (reg_data : Nat → Nat) (count : Nat) : State × List Ev :=
  ({ s with
      MasterMode := .TX_REG_ADDRESS_MODE
      TransmitRegAddr := reg_addr
      TransmitBuffer := CopyArray reg_data s.TransmitBuffer count
      TXByteCtr := count
      RXByteCtr := 0
      ReceiveIndex := 0
      TransmitIndex := 0
      UCB0I2CSA := dev_addr
      UCRXIE := false
      UCTXIE := true
      UCTR := true
      CPUOFF := true
      GIE := true },
   [Ev.start])

/-- `SPI_Master_WriteReg` of the display path up to and including
`__bis_SR_register(CPUOFF + GIE)`: it starts in `TX_DATA_MODE` and sends
`TransmitBuffer[0]` itself. -/
def SPI_Master_WriteReg_arm (s : State) (reg_addr : Nat)
    (reg_data : Nat → Nat) (count : Nat) : State × List Ev :=
  let tb := CopyArray reg_data s.TransmitBuffer count
  ({ s with
      MasterMode := .TX_DATA_MODE
      TransmitRegAddr := reg_addr
      TransmitBuffer := tb
      TXByteCtr := (count + 255) % 256
      RXByteCtr := 0
      ReceiveIndex := 0
      TransmitIndex := (0 + 1) % 256
      CPUOFF := true
      GIE := true },
   [Ev.readTB 0, Ev.uca1tx (tb 0)])

/-- The eUSCI_B0 interrupt service routine `USCI_B0_ISR`. -/
def USCI_B0_ISR (UCB0IV : I2CVector) (UCB0RXBUF : Nat) (s : State) :
    State × List Ev :=
  match UCB0IV with
  | .USCI_I2C_UCRXIFG0 =>
    let rx_val := UCB0RXBUF
    let r : State × List Ev :=
      if s.RXByteCtr ≠ 0 then
        ({ s with
            ReceiveBuffer := setByte s.ReceiveBuffer s.ReceiveIndex rx_val
            ReceiveIndex := (s.ReceiveIndex + 1) % 256
            RXByteCtr := (s.RXByteCtr + 255) % 256 },
         [Ev.writeRB s.ReceiveIndex rx_val])
      else (s, [])
    if r.1.RXByteCtr = 1 then
      (r.1, r.2 ++ [Ev.stop])
    else if r.1.RXByteCtr = 0 then
      ({ r.1 with UCRXIE := false, MasterMode := .IDLE_MODE, CPUOFF := false },
       r.2 ++ [Ev.wake])
    else r
  | .USCI_I2C_UCTXIFG0 =>
    match s.MasterMode with
    | .TX_REG_ADDRESS_MODE =>
      ({ s with
          MasterMode :=
            if s.RXByteCtr ≠ 0 then .SWITCH_TO_RX_MODE else .TX_DATA_MODE },
       [Ev.txbuf s.TransmitRegAddr])
    | .SWITCH_TO_RX_MODE =>
      ({ s with
          UCRXIE := true
          UCTXIE := false
          UCTR := false
          MasterMode := .RX_DATA_MODE },
       Ev.start :: (if s.RXByteCtr = 1 then [Ev.stop] else []))
    | .TX_DATA_MODE =>
      if s.TXByteCtr ≠ 0 then
        ({ s with
            TransmitIndex := (s.TransmitIndex + 1) % 256
            TXByteCtr := (s.TXByteCtr + 255) % 256 },
         [Ev.readTB s.TransmitIndex, Ev.txbuf (s.TransmitBuffer s.TransmitIndex)])
      else
        ({ s with MasterMode := .IDLE_MODE, UCTXIE := false, CPUOFF := false },
         [Ev.stop, Ev.wake])
    | _ => (s, [])
  | _ => (s, [])

/-- The Timer A0 interrupt service routine `Timer_A`: `TA0CCR0 += 32678` on a
16-bit register, then `__bic_SR_register_on_exit(LPM3_bits)`.  `LPM3_bits` is
`SCG1 + SCG0 + CPUOFF`; `main` relies on it to leave the sleep it enters with
`__bis_SR_register(LPM3_bits + GIE)`. -/
def Timer_A (s : State) : State × List Ev :=
  ({ s with
      TA0CCR0 := (s.TA0CCR0 + 32678) % 65536
      CPUOFF := false
      SCG0 := false
      SCG1 := false },
   [Ev.wake])

/-- The eUSCI_A1 (SPI) interrupt service routine `USCI_A1_ISR` of
`gauge_lcd_main.c`. -/
def USCI_A1_ISR (UCA1IV : SPIVector) (UCA1RXBUF : Nat) (s : State) :
    State × List Ev :=
  match UCA1IV with
  | .USCI_SPI_UCRXIFG =>
    let uca1_rx_val := UCA1RXBUF
    match s.MasterMode with
    | .TX_REG_ADDRESS_MODE =>
      if s.RXByteCtr ≠ 0 then
        ({ s with MasterMode := .RX_DATA_MODE }, [Ev.uca1tx DUMMY])
      else
        ({ s with
            MasterMode := .TX_DATA_MODE
            TransmitIndex := (s.TransmitIndex + 1) % 256
            TXByteCtr := (s.TXByteCtr + 255) % 256 },
         [Ev.readTB s.TransmitIndex, Ev.uca1tx (s.TransmitBuffer s.TransmitIndex)])
    | .TX_DATA_MODE =>
      if s.TXByteCtr ≠ 0 then
        ({ s with
            TransmitIndex := (s.TransmitIndex + 1) % 256
            TXByteCtr := (s.TXByteCtr + 255) % 256 },
         [Ev.readTB s.TransmitIndex, Ev.uca1tx (s.TransmitBuffer s.TransmitIndex)])
      else
        ({ s with MasterMode := .IDLE_MODE, CPUOFF := false }, [Ev.wake])
    | .RX_DATA_MODE =>
      let r : State × List Ev :=
        if s.RXByteCtr ≠ 0 then
          ({ s with
              ReceiveBuffer := setByte s.ReceiveBuffer s.ReceiveIndex uca1_rx_val
              ReceiveIndex := (s.ReceiveIndex + 1) % 256
              RXByteCtr := (s.RXByteCtr + 255) % 256 },
           [Ev.writeRB s.ReceiveIndex uca1_rx_val])
        else (s, [])
      if r.1.RXByteCtr = 0 then
        ({ r.1 with MasterMode := .IDLE_MODE, CPUOFF := false }, r.2 ++ [Ev.wake])
      else
        (r.1, r.2 ++ [Ev.uca1tx DUMMY])
    | _ => (s, [])
  | _ => (s, [])

/-- An interrupt delivered by the hardware: which handler runs, with the
value of the interrupt vector register and of the receive register. -/
inductive Irq where
  | usci_b0 (UCB0IV : I2CVector) (UCB0RXBUF : Nat)
  | usci_a1 (UCA1IV : SPIVector) (UCA1RXBUF : Nat)
  | timer0_a0
  deriving DecidableEq, Repr

/-- A TX-ready interrupt of eUSCI_B0 (vector `USCI_I2C_UCTXIFG0`). -/
def Irq.tx : Irq := .usci_b0 .USCI_I2C_UCTXIFG0 0

/-- An RX interrupt of eUSCI_B0 (vector `USCI_I2C_UCRXIFG0`) with `UCB0RXBUF = b`. -/
def Irq.rx (b : Nat) : Irq := .usci_b0 .USCI_I2C_UCRXIFG0 b

/-- The no-acknowledge interrupt of eUSCI_B0 (vector `USCI_I2C_UCNACKIFG`). -/
def Irq.nack : Irq := .usci_b0 .USCI_I2C_UCNACKIFG 0

/-- The handler that serves an interrupt. -/
def isr : Irq → State → State × List Ev
  | .usci_b0 iv rx, s => USCI_B0_ISR iv rx s
  | .usci_a1 iv rx, s => USCI_A1_ISR iv rx s
  | .timer0_a0, s => Timer_A s

/-- The handler steps of a sequence of interrupts: for each interrupt the
state it leaves and the events of that step. -/
def trace : State → List Irq → List (State × List Ev)
  | _, [] => []
  | s, i :: rest => isr i s :: trace (isr i s).1 rest

/-- The state after a sequence of interrupts and all events of the steps. -/
def run : State → List Irq → State × List Ev
  | s, [] => (s, [])
  | s, i :: rest => ((run (isr i s).1 rest).1, (isr i s).2 ++ (run (isr i s).1 rest).2)

/-- The suspended caller: handlers run until one exits with `CPUOFF` clear.
The result is the state the caller resumes in and the events up to then;
`none` when the interrupts run out while the caller still sleeps. -/
def lpm_wait : State → List Irq → Option (State × List Ev)
  | _, [] => none
  | s, i :: rest =>
    if (isr i s).1.CPUOFF then
      (lpm_wait (isr i s).1 rest).map (fun q => (q.1, (isr i s).2 ++ q.2))
    else some (isr i s)

/-- The complete call `I2C_Master_WriteReg(dev_addr, reg_addr, reg_data, count)`
under the interrupts `irqs`: the returned `MasterMode`, the state at the
return and the events of the call. -/
def I2C_Master_WriteReg (s : State) (dev_addr reg_addr : Nat)
    (reg_data : Nat → Nat) (count : Nat) (irqs : List Irq) :
    Option (I2C_Mode × State × List Ev) :=
  let a := I2C_Master_WriteReg_arm s dev_addr reg_addr reg_data count
  (lpm_wait a.1 irqs).map (fun q => (q.1.MasterMode, q.1, a.2 ++ q.2))

/-- The complete call `I2C_Master_ReadReg(dev_addr, reg_addr, count)` under the
interrupts `irqs`. -/
def I2C_Master_ReadReg (s : State) (dev_addr reg_addr count : Nat)
    (irqs : List Irq) : Option (I2C_Mode × State × List Ev) :=
  let a := I2C_Master_ReadReg_arm s dev_addr reg_addr count
  (lpm_wait a.1 irqs).map (fun q => (q.1.MasterMode, q.1, a.2 ++ q.2))

/-- The complete call `SPI_Master_WriteReg(reg_addr, reg_data, count)` of the
display path under the interrupts `irqs`. -/
def SPI_Master_WriteReg (s : State) (reg_addr : Nat)
    (reg_data : Nat → Nat) (count : Nat) (irqs : List Irq) :
    Option (I2C_Mode × State × List Ev) :=
  let a := SPI_Master_WriteReg_arm s reg_addr reg_data count
  (lpm_wait a.1 irqs).map (fun q => (q.1.MasterMode, q.1, a.2 ++ q.2))

/-- The bytes written to `UCB0TXBUF`, in order. -/
def txBytes : List Ev → List Nat
  | [] => []
  | Ev.txbuf b :: rest => b :: txBytes rest
  | _ :: rest => txBytes rest

/-- The values stored into `ReceiveBuffer`, in order. -/
def rxStored : List Ev → List Nat
  | [] => []
  | Ev.writeRB _ v :: rest => v :: rxStored rest
  | _ :: rest => rxStored rest

/-- An interrupt is enabled in a state: an eUSCI_B0 RX interrupt needs `UCRXIE`
and a TX interrupt needs `UCTXIE`. -/
def Irq.enabled (s : State) : Irq → Bool
  | .usci_b0 .USCI_I2C_UCRXIFG0 _ => s.UCRXIE
  | .usci_b0 .USCI_I2C_UCTXIFG0 _ => s.UCTXIE
  | _ => true

/-- Every interrupt of the sequence is enabled in the state it arrives in. -/
def enabledRun : State → List Irq → Bool
  | _, [] => true
  | s, i :: rest => i.enabled s && enabledRun (isr i s).1 rest

/-- The payload `{0x90, 0x00}` (`Write1`). -/
def Write1 : Nat → Nat := fun i => [0x90, 0x00].getD i 0

/-- The events of `k` data steps of a write that starts at cursor `i`. -/
def dataEvents (buf : Nat → Nat) : Nat → Nat → List Ev
  | _, 0 => []
  | i, k + 1 => Ev.readTB i :: Ev.txbuf (buf i) :: dataEvents buf (i + 1) k

/-- The buffer after storing the bytes `bs` from cursor `i` on. -/
def writeBytes : (Nat → Nat) → Nat → List Nat → (Nat → Nat)
  | buf, _, [] => buf
  | buf, i, b :: rest => writeBytes (setByte buf i b) (i + 1) rest

/-- The events of the receive steps that store the bytes `bs` from cursor `i`
on: each step stores one byte; the step that leaves one byte to come requests
the stop and the step that stores the last byte wakes the caller. -/
def rxEvents : Nat → List Nat → List Ev
  | _, [] => []
  | i, b :: rest =>
    Ev.writeRB i b ::
      ((if rest.length = 1 then [Ev.stop] else if rest.length = 0 then [Ev.wake] else []) ++
        rxEvents (i + 1) rest)

/-- The interrupts of eUSCI_B0 given by the successive values of `UCB0IV` and
`UCB0RXBUF`. -/
def Irq.ofB0 (ivs : List (I2CVector × Nat)) : List Irq :=
  ivs.map (fun v => Irq.usci_b0 v.1 v.2)

/-- The receive buffer holds the bytes stored so far, in the order of their
arrival. -/
def Stored (s : State) (evs : List Ev) : Prop :=
  (rxStored evs).length = s.ReceiveIndex ∧
    ∀ i, i < s.ReceiveIndex → s.ReceiveBuffer i = (rxStored evs).getD i 0

/-- The phases of a write of `count` bytes of `tb` to register `reg`, with
the events `evs` produced so far: address phase, data phase, done. -/
def WriteInv (reg count : Nat) (tb : Nat → Nat) (s : State) (evs : List Ev) : Prop :=
  s.TransmitBuffer = tb ∧ s.TransmitRegAddr = reg ∧ s.RXByteCtr = 0 ∧ s.UCRXIE = false ∧
  ((s.MasterMode = .TX_REG_ADDRESS_MODE ∧ s.UCTXIE = true ∧ s.TXByteCtr = count ∧
      s.TransmitIndex = 0 ∧ txBytes evs = [])
   ∨ (s.MasterMode = .TX_DATA_MODE ∧ s.UCTXIE = true ∧ s.TransmitIndex + s.TXByteCtr = count ∧
      txBytes evs = reg :: (List.range s.TransmitIndex).map tb)
   ∨ (s.MasterMode = .IDLE_MODE ∧ s.UCTXIE = false ∧ s.TXByteCtr = 0 ∧
      s.TransmitIndex = count ∧ txBytes evs = reg :: (List.range count).map tb))

/-- The phases of a read of `count` bytes, with the events `evs` produced so
far: address phase, switch to receive, the data phase of an empty read,
receive phase, done. -/
def ReadInv (count : Nat) (s : State) (evs : List Ev) : Prop :=
  s.TXByteCtr = 0 ∧
  ((s.MasterMode = .TX_REG_ADDRESS_MODE ∧ s.UCRXIE = false ∧ s.UCTXIE = true ∧
      s.RXByteCtr = count ∧ s.ReceiveIndex = 0 ∧ rxStored evs = [])
   ∨ (s.MasterMode = .SWITCH_TO_RX_MODE ∧ s.UCRXIE = false ∧ s.UCTXIE = true ∧
      s.RXByteCtr = count ∧ count ≠ 0 ∧ s.ReceiveIndex = 0 ∧ rxStored evs = [])
   ∨ (s.MasterMode = .TX_DATA_MODE ∧ s.UCRXIE = false ∧ s.UCTXIE = true ∧
      s.RXByteCtr = 0 ∧ count = 0 ∧ s.ReceiveIndex = 0 ∧ rxStored evs = [])
   ∨ (s.MasterMode = .RX_DATA_MODE ∧ s.UCRXIE = true ∧ s.UCTXIE = false ∧
      s.RXByteCtr ≠ 0 ∧ s.ReceiveIndex + s.RXByteCtr = count ∧ Stored s evs)
   ∨ (s.MasterMode = .IDLE_MODE ∧ s.UCRXIE = false ∧ s.UCTXIE = false ∧
      s.RXByteCtr = 0 ∧ s.ReceiveIndex = count ∧ Stored s evs))


/-- Two engine states agree on everything `USCI_B0_ISR` reads during a
transaction whose transmit cursor stays below `cT`: the mode, the register
byte, the counters and cursors, `CPUOFF`, and `TransmitBuffer` below `cT`. -/
def SameEngine (cT : Nat) (s t : State) : Prop :=
  s.MasterMode = t.MasterMode ∧ s.TransmitRegAddr = t.TransmitRegAddr ∧
  s.RXByteCtr = t.RXByteCtr ∧ s.ReceiveIndex = t.ReceiveIndex ∧
  s.TXByteCtr = t.TXByteCtr ∧ s.TransmitIndex = t.TransmitIndex ∧
  s.CPUOFF = t.CPUOFF ∧ (∀ i, i < cT → s.TransmitBuffer i = t.TransmitBuffer i) ∧
  s.TransmitIndex + s.TXByteCtr = cT


/-- What a step leaves of the phase and of the two remaining-byte counters:
`MasterMode`, `TXByteCtr`, `RXByteCtr`. -/
def phaseOf (p : State × List Ev) : I2C_Mode × Nat × Nat :=
  (p.1.MasterMode, p.1.TXByteCtr, p.1.RXByteCtr)


/-- The values of `I2C_Mode` that the code assigns to `MasterMode`. -/
def I2C_Mode.assigned : I2C_Mode → Bool
  | .IDLE_MODE => true
  | .TX_REG_ADDRESS_MODE => true
  | .TX_DATA_MODE => true
  | .RX_DATA_MODE => true
  | .SWITCH_TO_RX_MODE => true
  | _ => false


/-- The payload `{0xB0, 0x04}` (`DesignCap`). -/
def DesignCap : Nat → Nat := fun i => [0xB0, 0x04].getD i 0

/-- The payload `{0x80, 0x00}` (`IchgTerm`). -/
def IchgTerm : Nat → Nat := fun i => [0x80, 0x00].getD i 0

/-- The payload `{0x00, 0x96}` (`VEmpty`). -/
def VEmpty : Nat → Nat := fun i => [0x00, 0x96].getD i 0

/-- The payload `{0x00, 0x00}` (`Write2`). -/
def Write2 : Nat → Nat := fun i => [0x00, 0x00].getD i 0

/-- The payload `{0x00, 0x80}` (`Write3`). -/
def Write3 : Nat → Nat := fun i => [0x00, 0x80].getD i 0

/-- The payload `{0x07, 0x80}` (`EnHib`). -/
def EnHib : Nat → Nat := fun i => [0x07, 0x80].getD i 0

/-- The suspended caller of a call that is followed by further calls: as
`lpm_wait`, and the interrupts that have not arrived at the wake-up are handed
back for the code that follows. -/
def lpm_resume : State → List Irq → Option (State × List Ev × List Irq)
  | _, [] => none
  | s, i :: rest =>
    if (isr i s).1.CPUOFF then
      (lpm_resume (isr i s).1 rest).map (fun q => (q.1, (isr i s).2 ++ q.2.1, q.2.2))
    else some ((isr i s).1, (isr i s).2, rest)

/-- A transaction call as it is issued by the application code, with the
bytes of the array handed to a write. -/
inductive Call where
  | ReadReg (dev_addr reg_addr count : Nat)
  | WriteReg (dev_addr reg_addr : Nat) (reg_data : List Nat)
  deriving DecidableEq, Repr

/-- The application-level state of `gauge_lcd_main.c`: the engine state, the
global arrays that `initializeConfig` uses, the calls issued so far and the
interrupts still to come. -/
structure Prog where
  s : State
  HibCFG : Nat → Nat
  ModelCFG : Nat → Nat
  FSTAT : Nat → Nat
  Status : Nat → Nat
  Test : Nat → Nat
  calls : List Call
  irqs : List Irq

/-- The start of `main`: the initialisers of the globals, nothing issued yet,
`irqs` to come. -/
def Prog.init (irqs : List Irq) : Prog where
  s := State.init
  HibCFG := fun _ => 0
  ModelCFG := fun _ => 0
  FSTAT := fun _ => 0
  Status := fun _ => 0
  Test := fun _ => 0
  calls := []
  irqs := irqs

/-- The statement `I2C_Master_ReadReg(dev_addr, reg_addr, count);` in the
application code: the call is logged and consumes the interrupts up to its
wake-up. -/
def Prog.I2C_Master_ReadReg (p : Prog) (dev_addr reg_addr count : Nat) : Option Prog :=
  let a := I2C_Master_ReadReg_arm p.s dev_addr reg_addr count
  (lpm_resume a.1 p.irqs).map (fun q =>
    { p with
        s := q.1
        calls := p.calls ++ [Call.ReadReg dev_addr reg_addr count]
        irqs := q.2.2 })

/-- The statement `I2C_Master_WriteReg(dev_addr, reg_addr, reg_data, count);` in
the application code. -/
def Prog.I2C_Master_WriteReg (p : Prog) (dev_addr reg_addr : Nat) (reg_data : Nat → Nat)
    (count : Nat) : Option Prog :=
  let a := I2C_Master_WriteReg_arm p.s dev_addr reg_addr reg_data count
  (lpm_resume a.1 p.irqs).map (fun q =>
    { p with
        s := q.1
        calls := p.calls ++ [Call.WriteReg dev_addr reg_addr ((List.range count).map reg_data)]
        irqs := q.2.2 })

/-- The loop `while(FSTAT[0] & 0x01)` of `initializeConfig`; `fuel` bounds the
iterations left. -/
def initializeConfig_FSTAT : Nat → Prog → Option Prog
  | 0, _ => none
  | fuel + 1, p =>
    if p.FSTAT 0 &&& 0x01 ≠ 0 then
      (p.I2C_Master_ReadReg SLAVE_ADDR 0x3D 2).bind (fun p =>
        initializeConfig_FSTAT fuel { p with FSTAT := CopyArray p.s.ReceiveBuffer p.FSTAT 2 })
    else some p

/-- The loop `while (ModelCFG[1] & 0x80)` of `initializeConfig`; `fuel` bounds
the iterations left. -/
def initializeConfig_ModelCFG : Nat → Prog → Option Prog
  | 0, _ => none
  | fuel + 1, p =>
    if p.ModelCFG 1 &&& 0x80 ≠ 0 then
      (p.I2C_Master_ReadReg SLAVE_ADDR 0xDB 2).bind (fun p =>
        initializeConfig_ModelCFG fuel
          { p with ModelCFG := CopyArray p.s.ReceiveBuffer p.ModelCFG 2 })
    else some p

/-- The interrupts of a read of the bytes `bs`: two TX-ready interrupts, then
one RX interrupt per byte. -/
def readIrqs (bs : List Nat) : List Irq :=
  Irq.tx :: Irq.tx :: bs.map Irq.rx

/-- The interrupts of a write of `count` bytes: `count + 2` TX-ready
interrupts. -/
def writeIrqs (count : Nat) : List Irq :=
  List.replicate (count + 2) Irq.tx

/-- The interrupts of the thirteen transactions of one pass of
`initializeConfig` in which the three reads return the bytes `hib`, `test` and
`status`. -/
def configIrqs (hib test status : List Nat) : List Irq :=
  readIrqs hib ++ (writeIrqs 2 ++ (writeIrqs 2 ++ (writeIrqs 2 ++ (writeIrqs 2 ++
    (readIrqs test ++ (writeIrqs 2 ++ (writeIrqs 2 ++ (writeIrqs 2 ++ (writeIrqs 2 ++
      (writeIrqs 2 ++ (readIrqs status ++ writeIrqs 2)))))))))))

/-- The function `initializeConfig` of `gauge_lcd_main.c`, one line per
statement; the state is global, so each statement acts on the state the
previous one has left.  Every iteration of one of its loops consumes at least
one interrupt, so the number of interrupts to come bounds the iterations.  The
result is `none` when the interrupts run out inside a call. -/
def initializeConfig (p : Prog) : Option Prog :=
  (some { p with FSTAT := setByte p.FSTAT 0 0 })
  |>.bind (fun p => initializeConfig_FSTAT (p.irqs.length + 1) p)
  |>.bind (fun p => p.I2C_Master_ReadReg SLAVE_ADDR 0xDB 2)
  |>.map (fun p => { p with HibCFG := CopyArray p.s.ReceiveBuffer p.HibCFG 2 })
  |>.bind (fun p => p.I2C_Master_WriteReg SLAVE_ADDR 0x60 Write1 2)
  |>.bind (fun p => p.I2C_Master_WriteReg SLAVE_ADDR 0xBA Write2 2)
  |>.bind (fun p => p.I2C_Master_WriteReg SLAVE_ADDR 0x60 Write2 2)
  |>.bind (fun p => p.I2C_Master_WriteReg SLAVE_ADDR 0x18 DesignCap 2)
  |>.bind (fun p => p.I2C_Master_ReadReg SLAVE_ADDR 0x18 2)
  |>.map (fun p => { p with Test := CopyArray p.s.ReceiveBuffer p.Test 2 })
  |>.bind (fun p => p.I2C_Master_WriteReg SLAVE_ADDR 0x1E IchgTerm 2)
  |>.bind (fun p => p.I2C_Master_WriteReg SLAVE_ADDR 0x3A VEmpty 2)
  |>.bind (fun p => p.I2C_Master_WriteReg SLAVE_ADDR 0xDB Write3 2)
  |>.map (fun p => { p with ModelCFG := setByte p.ModelCFG 1 0 })
  |>.bind (fun p => initializeConfig_ModelCFG (p.irqs.length + 1) p)
  |>.bind (fun p => p.I2C_Master_WriteReg SLAVE_ADDR 0xBA p.HibCFG 2)
  |>.bind (fun p => p.I2C_Master_WriteReg SLAVE_ADDR 0xBA EnHib 2)
  |>.bind (fun p => p.I2C_Master_ReadReg SLAVE_ADDR 0x00 2)
  |>.map (fun p => { p with Status := CopyArray p.s.ReceiveBuffer p.Status 2 })
  |>.map (fun p => { p with Status := setByte p.Status 1 (p.Status 1 &&& 0xFF) })
  |>.map (fun p => { p with Status := setByte p.Status 0 (p.Status 0 &&& 0xFD) })
  |>.bind (fun p => p.I2C_Master_WriteReg SLAVE_ADDR 0x00 p.Status 2)

/-- The application state `q` on the way from `p`: the calls `cs` have been
issued since `p`, the interrupts `rest` are still to come and `HibCFG` holds
the bytes `a, b`. -/
def Issued (p : Prog) (cs : List Call) (rest : List Irq) (a b : Nat) (q : Prog) : Prop :=
  q.irqs = rest ∧ q.calls = p.calls ++ cs ∧ q.HibCFG 0 = a ∧ q.HibCFG 1 = b


/-- The gauge seen as a register file: `d reg i` is byte `i` of register `reg`
(byte 0 is the low byte). -/
def Device.read (d : Nat → Nat → Nat) (reg_addr count : Nat) : List Nat :=
  (List.range count).map (d reg_addr)

/-- The register file after a write of the bytes `data` to register `reg`. -/
def Device.write (d : Nat → Nat → Nat) (reg_addr : Nat) (data : List Nat) : Nat → Nat → Nat :=
  fun r i => if r = reg_addr ∧ i < data.length then data.getD i 0 else d r i

/-- The interrupts with which the register file `d` serves a sequence of
calls: every read is answered with the bytes of the register it addresses, at
the time of the read; every write is acknowledged byte by byte and stored. -/
def serve : (Nat → Nat → Nat) → List Call → List Irq
  | _, [] => []
  | d, Call.ReadReg _ reg_addr count :: cs =>
    readIrqs (Device.read d reg_addr count) ++ serve d cs
  | d, Call.WriteReg _ reg_addr data :: cs =>
    writeIrqs data.length ++ serve (Device.write d reg_addr data) cs

end Gauge

namespace SpiStd

/-- Capacity of the buffers of the standard SPI master (`#define MAX_BUFFER_SIZE 20`). -/
def MAX_BUFFER_SIZE : Nat := 20

/-- Filler byte sent to clock in a reply (`#define DUMMY 0xFF`). -/
def DUMMY : Nat := 0xFF

/-- The enumeration `SPI_Mode` of the software state machine. -/
inductive SPI_Mode where
  | IDLE_MODE
  | TX_REG_ADDRESS_MODE
  | RX_REG_ADDRESS_MODE
  | TX_DATA_MODE
  | RX_DATA_MODE
  | TIMEOUT_MODE
  deriving DecidableEq, Repr

/-- Values of the eUSCI_A1 interrupt vector register `UCA1IV`. -/
inductive SPIVector where
  | USCI_NONE
  | USCI_SPI_UCRXIFG
  | USCI_SPI_UCTXIFG
  deriving DecidableEq, Repr

/-- Observable effects of one piece of code of the standard SPI master. -/
inductive Ev where
  /-- `UCA1TXBUF = b` (through `SendUCA1Data`) -/
  | uca1tx (b : Nat)
  /-- a read of `TransmitBuffer[i]` -/
  | readTB (i : Nat)
  /-- the store `ReceiveBuffer[i] = v` -/
  | writeRB (i : Nat) (v : Nat)
  /-- `__bic_SR_register_on_exit(CPUOFF)` -/
  | wake
  deriving DecidableEq, Repr

/-- The globals of `msp430fr243x_eusci_spi_standard_master.c` used by the
engine, the level of the chip-select pin (`SLAVE_CS_OUT & SLAVE_CS_PIN`) and
the `CPUOFF` and `GIE` bits of the status register. -/
structure State where
  MasterMode : SPI_Mode
  TransmitRegAddr : Nat
  ReceiveBuffer : Nat → Nat
  RXByteCtr : Nat
  ReceiveIndex : Nat
  TransmitBuffer : Nat → Nat
  TXByteCtr : Nat
  TransmitIndex : Nat
  SLAVE_CS : Bool
  CPUOFF : Bool
  GIE : Bool

/-- The state after the C start-up code and `initGPIO`: the initialisers of
the globals and `SLAVE_CS_OUT |= SLAVE_CS_PIN`. -/
def State.init : State where
  MasterMode := .IDLE_MODE
  TransmitRegAddr := 0
  ReceiveBuffer := fun _ => 0
  RXByteCtr := 0
  ReceiveIndex := 0
  TransmitBuffer := fun _ => 0
  TXByteCtr := 0
  TransmitIndex := 0
  SLAVE_CS := true
  CPUOFF := false
  GIE := false

/-- The assignment `buf[i] = v`. -/
def setByte (buf : Nat → Nat) (i v : Nat) : Nat → Nat :=
  fun j => if j = i then v else buf j

/-- The loop of `CopyArray`: `fuel` bounds the number of iterations left,
`copyIndex` is the `uint8_t` loop variable. -/
def CopyArray_loop (source : Nat → Nat) (count : Nat) :
    Nat → Nat → (Nat → Nat) → (Nat → Nat)
  | 0, _, dest => dest
  | fuel + 1, copyIndex, dest =>
    if copyIndex < count then
      CopyArray_loop source count fuel ((copyIndex + 1) % 256)
        (setByte dest copyIndex (source copyIndex))
    else dest

/-- `CopyArray(source, dest, count)` of the standard SPI master. -/
def CopyArray (source dest : Nat → Nat) (count : Nat) : Nat → Nat :=
  CopyArray_loop source count 256 0 dest

/-- `SPI_Master_WriteReg` up to and including `__bis_SR_register(CPUOFF + GIE)`:
chip select is driven low and the register byte is sent. -/
def SPI_Master_WriteReg_arm (s : State) (reg_addr : Nat) (reg_data : Nat → Nat)
    (count : Nat) : State × List Ev :=
  ({ s with
      MasterMode := .TX_REG_ADDRESS_MODE
      TransmitRegAddr := reg_addr
      TransmitBuffer := CopyArray reg_data s.TransmitBuffer count
      TXByteCtr := count
      RXByteCtr := 0
      ReceiveIndex := 0
      TransmitIndex := 0
      SLAVE_CS := false
      CPUOFF := true
      GIE := true },
   [Ev.uca1tx reg_addr])

/-- `SPI_Master_ReadReg` up to and including `__bis_SR_register(CPUOFF + GIE)`. -/
def SPI_Master_ReadReg_arm (s : State) (reg_addr count : Nat) : State × List Ev :=
  ({ s with
      MasterMode := .TX_REG_ADDRESS_MODE
      TransmitRegAddr := reg_addr
      RXByteCtr := count
      TXByteCtr := 0
      ReceiveIndex := 0
      TransmitIndex := 0
      SLAVE_CS := false
      CPUOFF := true
      GIE := true },
   [Ev.uca1tx reg_addr])

/-- The eUSCI_A1 interrupt service routine `USCI_A1_ISR` of the standard SPI
master. -/
def USCI_A1_ISR (UCA1IV : SPIVector) (UCA1RXBUF : Nat) (s : State) :
    State × List Ev :=
  match UCA1IV with
  | .USCI_SPI_UCRXIFG =>
    let uca1_rx_val := UCA1RXBUF
    match s.MasterMode with
    | .TX_REG_ADDRESS_MODE =>
      if s.RXByteCtr ≠ 0 then
        ({ s with MasterMode := .RX_DATA_MODE }, [Ev.uca1tx DUMMY])
      else
        ({ s with
            MasterMode := .TX_DATA_MODE
            TransmitIndex := (s.TransmitIndex + 1) % 256
            TXByteCtr := (s.TXByteCtr + 255) % 256 },
         [Ev.readTB s.TransmitIndex, Ev.uca1tx (s.TransmitBuffer s.TransmitIndex)])
    | .TX_DATA_MODE =>
      if s.TXByteCtr ≠ 0 then
        ({ s with
            TransmitIndex := (s.TransmitIndex + 1) % 256
            TXByteCtr := (s.TXByteCtr + 255) % 256 },
         [Ev.readTB s.TransmitIndex, Ev.uca1tx (s.TransmitBuffer s.TransmitIndex)])
      else
        ({ s with MasterMode := .IDLE_MODE, CPUOFF := false }, [Ev.wake])
    | .RX_DATA_MODE =>
      let r : State × List Ev :=
        if s.RXByteCtr ≠ 0 then
          ({ s with
              ReceiveBuffer := setByte s.ReceiveBuffer s.ReceiveIndex uca1_rx_val
              ReceiveIndex := (s.ReceiveIndex + 1) % 256
              RXByteCtr := (s.RXByteCtr + 255) % 256 },
           [Ev.writeRB s.ReceiveIndex uca1_rx_val])
        else (s, [])
      if r.1.RXByteCtr = 0 then
        ({ r.1 with MasterMode := .IDLE_MODE, CPUOFF := false }, r.2 ++ [Ev.wake])
      else
        (r.1, r.2 ++ [Ev.uca1tx DUMMY])
    | _ => (s, [])
  | _ => (s, [])

/-- The state after a sequence of eUSCI_A1 interrupts, each given by the
values of `UCA1IV` and `UCA1RXBUF`, and all events of the steps. -/
def run : State → List (SPIVector × Nat) → State × List Ev
  | s, [] => (s, [])
  | s, i :: rest =>
    ((run (USCI_A1_ISR i.1 i.2 s).1 rest).1,
     (USCI_A1_ISR i.1 i.2 s).2 ++ (run (USCI_A1_ISR i.1 i.2 s).1 rest).2)

/-- The suspended caller: handlers run until one exits with `CPUOFF` clear;
`none` when the interrupts run out while the caller still sleeps. -/
def lpm_wait : State → List (SPIVector × Nat) → Option (State × List Ev)
  | _, [] => none
  | s, i :: rest =>
    if (USCI_A1_ISR i.1 i.2 s).1.CPUOFF then
      (lpm_wait (USCI_A1_ISR i.1 i.2 s).1 rest).map
        (fun q => (q.1, (USCI_A1_ISR i.1 i.2 s).2 ++ q.2))
    else some (USCI_A1_ISR i.1 i.2 s)

/-- The complete call `SPI_Master_WriteReg(reg_addr, reg_data, count)` under the
interrupts `irqs`: after the wake-up chip select is driven high and
`MasterMode` is returned. -/
def SPI_Master_WriteReg (s : State) (reg_addr : Nat) (reg_data : Nat → Nat)
    (count : Nat) (irqs : List (SPIVector × Nat)) : Option (SPI_Mode × State × List Ev) :=
  let a := SPI_Master_WriteReg_arm s reg_addr reg_data count
  (lpm_wait a.1 irqs).map
    (fun q => (q.1.MasterMode, { q.1 with SLAVE_CS := true }, a.2 ++ q.2))

/-- The complete call `SPI_Master_ReadReg(reg_addr, count)` under the
interrupts `irqs`. -/
def SPI_Master_ReadReg (s : State) (reg_addr count : Nat)
    (irqs : List (SPIVector × Nat)) : Option (SPI_Mode × State × List Ev) :=
  let a := SPI_Master_ReadReg_arm s reg_addr count
  (lpm_wait a.1 irqs).map
    (fun q => (q.1.MasterMode, { q.1 with SLAVE_CS := true }, a.2 ++ q.2))

/-- The bytes written to `UCA1TXBUF`, in order. -/
def txBytes : List Ev → List Nat
  | [] => []
  | Ev.uca1tx b :: rest => b :: txBytes rest
  | _ :: rest => txBytes rest

/-- The example payload `MasterType0 = {0x11}`. -/
def MasterType0 : Nat → Nat := fun i => [0x11].getD i 0


/-- RX interrupts of eUSCI_A1 (vector `USCI_SPI_UCRXIFG`) that carry the values
`vs` in `UCA1RXBUF`. -/
def rxIrqs (vs : List Nat) : List (SPIVector × Nat) :=
  vs.map (fun v => (SPIVector.USCI_SPI_UCRXIFG, v))

/-- The events of `k` payload steps of a write that starts at cursor `i`. -/
def dataEvents (buf : Nat → Nat) : Nat → Nat → List Ev
  | _, 0 => []
  | i, k + 1 => Ev.readTB i :: Ev.uca1tx (buf i) :: dataEvents buf (i + 1) k

/-- The buffer after storing the bytes `bs` from cursor `i` on. -/
def writeBytes : (Nat → Nat) → Nat → List Nat → (Nat → Nat)
  | buf, _, [] => buf
  | buf, i, b :: rest => writeBytes (setByte buf i b) (i + 1) rest

/-- The events of the receive steps that store the bytes `bs` from cursor `i`
on: each step stores one byte and sends `DUMMY` to clock in the next one; the
step that stores the last byte wakes the caller instead. -/
def rxEvents : Nat → List Nat → List Ev
  | _, [] => []
  | i, b :: rest =>
    Ev.writeRB i b :: ((if rest.length = 0 then [Ev.wake] else [Ev.uca1tx DUMMY]) ++
      rxEvents (i + 1) rest)

end SpiStd

namespace Display

/-- Capacity of the buffers of the display driver (`#define MAX_BUFFER_SIZE 128`
in `ls013_codeSnippets_correct.c`). -/
def MAX_BUFFER_SIZE : Nat := 128

/-- Filler byte sent to clock in a reply (`#define DUMMY 0xFF`). -/
def DUMMY : Nat := 0xFF

/-- The enumeration `SPI_Mode` of the display driver. -/
inductive SPI_Mode where
  | IDLE_MODE
  | TX_REG_ADDRESS_MODE
  | RX_REG_ADDRESS_MODE
  | TX_DATA_MODE
  | RX_DATA_MODE
  | TIMEOUT_MODE
  deriving DecidableEq, Repr

/-- Values of the eUSCI_A1 interrupt vector register `UCA1IV`. -/
inductive SPIVector where
  | USCI_NONE
  | USCI_SPI_UCRXIFG
  | USCI_SPI_UCTXIFG
  deriving DecidableEq, Repr

/-- Observable effects of one piece of code of the display driver. -/
inductive Ev where
  /-- `UCA1TXBUF = b` (through `SendUCA1Data`) -/
  | uca1tx (b : Nat)
  /-- a read of `TransmitBuffer[i]` -/
  | readTB (i : Nat)
  /-- the store `ReceiveBuffer[i] = v` -/
  | writeRB (i : Nat) (v : Nat)
  /-- `__bic_SR_register_on_exit(CPUOFF)` -/
  | wake
  deriving DecidableEq, Repr

/-- The globals of `ls013_codeSnippets_correct.c` used by the SPI engine and by
`display_update`, the level of the chip-select pin
(`SLAVE_CS_OUT & SLAVE_CS_PIN`) and the `CPUOFF` and `GIE` bits of the status
register. -/
structure State where
  MasterMode : SPI_Mode
  TransmitRegAddr : Nat
  ReceiveBuffer : Nat → Nat
  RXByteCtr : Nat
  ReceiveIndex : Nat
  TransmitBuffer : Nat → Nat
  TXByteCtr : Nat
  TransmitIndex : Nat
  display_com : Nat
  display_com_mask : Nat
  SLAVE_CS : Bool
  CPUOFF : Bool
  GIE : Bool

/-- The state after the C start-up code and `initGPIO`: the initialisers of
the globals (`display_com` has none and starts as zero,
`display_com_mask = 0x40`) and `SLAVE_CS_OUT &= ~SLAVE_CS_PIN`. -/
def State.init : State where
  MasterMode := .IDLE_MODE
  TransmitRegAddr := 0
  ReceiveBuffer := fun _ => 0
  RXByteCtr := 0
  ReceiveIndex := 0
  TransmitBuffer := fun _ => 0
  TXByteCtr := 0
  TransmitIndex := 0
  display_com := 0
  display_com_mask := 0x40
  SLAVE_CS := false
  CPUOFF := false
  GIE := false

/-- The assignment `buf[i] = v`. -/
def setByte (buf : Nat → Nat) (i v : Nat) : Nat → Nat :=
  fun j => if j = i then v else buf j

/-- The loop of `CopyArray`: `fuel` bounds the number of iterations left,
`copyIndex` is the `uint8_t` loop variable. -/
def CopyArray_loop (source : Nat → Nat) (count : Nat) :
    Nat → Nat → (Nat → Nat) → (Nat → Nat)
  | 0, _, dest => dest
  | fuel + 1, copyIndex, dest =>
    if copyIndex < count then
      CopyArray_loop source count fuel ((copyIndex + 1) % 256)
        (setByte dest copyIndex (source copyIndex))
    else dest

/-- `CopyArray(source, dest, count)` of the display driver. -/
def CopyArray (source dest : Nat → Nat) (count : Nat) : Nat → Nat :=
  CopyArray_loop source count 256 0 dest

/-- `SPI_Master_WriteReg` of the display driver up to and including
`__bis_SR_register(CPUOFF + GIE)`: it starts in `TX_DATA_MODE` and sends
`TransmitBuffer[0]` itself; the chip-select lines of the function are
commented out. -/
def SPI_Master_WriteReg_arm (s : State) (reg_addr : Nat)
    (reg_data : Nat → Nat) (count : Nat) : State × List Ev :=
  let tb := CopyArray reg_data s.TransmitBuffer count
  ({ s with
      MasterMode := .TX_DATA_MODE
      TransmitRegAddr := reg_addr
      TransmitBuffer := tb
      TXByteCtr := (count + 255) % 256
      RXByteCtr := 0
      ReceiveIndex := 0
      TransmitIndex := (0 + 1) % 256
      CPUOFF := true
      GIE := true },
   [Ev.readTB 0, Ev.uca1tx (tb 0)])

/-- The eUSCI_A1 interrupt service routine `USCI_A1_ISR` of the display
driver. -/
def USCI_A1_ISR (UCA1IV : SPIVector) (UCA1RXBUF : Nat) (s : State) :
    State × List Ev :=
  match UCA1IV with
  | .USCI_SPI_UCRXIFG =>
    let uca1_rx_val := UCA1RXBUF
    match s.MasterMode with
    | .TX_REG_ADDRESS_MODE =>
      if s.RXByteCtr ≠ 0 then
        ({ s with MasterMode := .RX_DATA_MODE }, [Ev.uca1tx DUMMY])
      else
        ({ s with
            MasterMode := .TX_DATA_MODE
            TransmitIndex := (s.TransmitIndex + 1) % 256
            TXByteCtr := (s.TXByteCtr + 255) % 256 },
         [Ev.readTB s.TransmitIndex, Ev.uca1tx (s.TransmitBuffer s.TransmitIndex)])
    | .TX_DATA_MODE =>
      if s.TXByteCtr ≠ 0 then
        ({ s with
            TransmitIndex := (s.TransmitIndex + 1) % 256
            TXByteCtr := (s.TXByteCtr + 255) % 256 },
         [Ev.readTB s.TransmitIndex, Ev.uca1tx (s.TransmitBuffer s.TransmitIndex)])
      else
        ({ s with MasterMode := .IDLE_MODE, CPUOFF := false }, [Ev.wake])
    | .RX_DATA_MODE =>
      let r : State × List Ev :=
        if s.RXByteCtr ≠ 0 then
          ({ s with
              ReceiveBuffer := setByte s.ReceiveBuffer s.ReceiveIndex uca1_rx_val
              ReceiveIndex := (s.ReceiveIndex + 1) % 256
              RXByteCtr := (s.RXByteCtr + 255) % 256 },
           [Ev.writeRB s.ReceiveIndex uca1_rx_val])
        else (s, [])
      if r.1.RXByteCtr = 0 then
        ({ r.1 with MasterMode := .IDLE_MODE, CPUOFF := false }, r.2 ++ [Ev.wake])
      else
        (r.1, r.2 ++ [Ev.uca1tx DUMMY])
    | _ => (s, [])
  | _ => (s, [])

/-- The state after a sequence of eUSCI_A1 interrupts, each given by the
values of `UCA1IV` and `UCA1RXBUF`, and all events of the steps. -/
def run : State → List (SPIVector × Nat) → State × List Ev
  | s, [] => (s, [])
  | s, i :: rest =>
    ((run (USCI_A1_ISR i.1 i.2 s).1 rest).1,
     (USCI_A1_ISR i.1 i.2 s).2 ++ (run (USCI_A1_ISR i.1 i.2 s).1 rest).2)

/-- The suspended caller: handlers run until one exits with `CPUOFF` clear.
The result is the state the caller resumes in, the events up to then and the
interrupts that have not arrived yet; `none` when the interrupts run out while
the caller still sleeps. -/
def lpm_wait : State → List (SPIVector × Nat) →
    Option (State × List Ev × List (SPIVector × Nat))
  | _, [] => none
  | s, i :: rest =>
    if (USCI_A1_ISR i.1 i.2 s).1.CPUOFF then
      (lpm_wait (USCI_A1_ISR i.1 i.2 s).1 rest).map
        (fun q => (q.1, (USCI_A1_ISR i.1 i.2 s).2 ++ q.2.1, q.2.2))
    else some ((USCI_A1_ISR i.1 i.2 s).1, (USCI_A1_ISR i.1 i.2 s).2, rest)

/-- The complete call `SPI_Master_WriteReg(reg_addr, reg_data, count)` of the
display driver under the interrupts `irqs`: the returned `MasterMode`, the
state at the return, the events of the call and the interrupts left. -/
def SPI_Master_WriteReg (s : State) (reg_addr : Nat) (reg_data : Nat → Nat)
    (count : Nat) (irqs : List (SPIVector × Nat)) :
    Option (SPI_Mode × State × List Ev × List (SPIVector × Nat)) :=
  let a := SPI_Master_WriteReg_arm s reg_addr reg_data count
  (lpm_wait a.1 irqs).map (fun q => (q.1.MasterMode, q.1, a.2 ++ q.2.1, q.2.2))

/-- The bytes written to `UCA1TXBUF`, in order. -/
def txBytes : List Ev → List Nat
  | [] => []
  | Ev.uca1tx b :: rest => b :: txBytes rest
  | _ :: rest => txBytes rest

/-- RX interrupts of eUSCI_A1 (vector `USCI_SPI_UCRXIFG`) that carry the values
`vs` in `UCA1RXBUF`. -/
def rxIrqs (vs : List Nat) : List (SPIVector × Nat) :=
  vs.map (fun v => (SPIVector.USCI_SPI_UCRXIFG, v))

/-- The events of `k` payload steps of a write that starts at cursor `i`. -/
def dataEvents (buf : Nat → Nat) : Nat → Nat → List Ev
  | _, 0 => []
  | i, k + 1 => Ev.readTB i :: Ev.uca1tx (buf i) :: dataEvents buf (i + 1) k

/-- The loop `for(k = 0; k<8; ++k)` of `display_update` that swaps the bit
direction of the line number: `fuel` bounds the iterations left,
`currentline` and `spi_Byte_temp` are the `uint8_t` locals. -/
def swap_loop : Nat → Nat → Nat → Nat → Nat
  | 0, _, _, spi_Byte_temp => spi_Byte_temp
  | fuel + 1, k, currentline, spi_Byte_temp =>
    if k < 8 then
      swap_loop fuel (k + 1) ((currentline >>> 1) % 256)
        ((spi_Byte_temp ||| ((currentline &&& 0x01) <<< (7 - k))) % 256)
    else spi_Byte_temp

/-- The address byte of a line: `spi_Byte_temp` after the loop, started with
`spi_Byte_temp = 0`. -/
def swap_bits (currentline : Nat) : Nat :=
  swap_loop 8 0 currentline 0

/-- The call `memcpy(dest + doff, src + soff, n)`. -/
def memcpy (dest : Nat → Nat) (doff : Nat) (src : Nat → Nat) (soff n : Nat) : Nat → Nat :=
  fun j => if doff ≤ j ∧ j < doff + n then src (soff + (j - doff)) else dest j

/-- The local array `line[18]` of iteration `i` of `display_update` at the call
of `SPI_Master_WriteReg`: all eighteen elements are assigned in the loop body,
so the contents the array starts with (here zero) are never read. -/
def display_line (image_binary : Nat → Nat) (i : Nat) : Nat → Nat :=
  let bytes_per_line := 16
  let currentline := (i + 1) % 256
  let spi_Byte_temp := swap_bits currentline
  let line := setByte (fun _ => 0) 0 spi_Byte_temp
  let line := memcpy line 1 image_binary (i * bytes_per_line) bytes_per_line
  setByte line (bytes_per_line + 1) 0x00

/-- The loop `for (; i < 128; ++i)` of `display_update`: one
`SPI_Master_WriteReg(0, line, 18)` per line.  The result lists the events of
each call; `fuel` bounds the iterations left. -/
def display_update_loop (image_binary : Nat → Nat) :
    Nat → Nat → State → List (SPIVector × Nat) →
    Option (State × List (List Ev) × List (SPIVector × Nat))
  | 0, _, _, _ => none
  | fuel + 1, i, s, irqs =>
    if i < 128 then
      match SPI_Master_WriteReg s 0 (display_line image_binary i) (16 + 2) irqs with
      | none => none
      | some (_, s1, evs, rest) =>
        (display_update_loop image_binary fuel ((i + 1) % 65536) s1 rest).map
          (fun r => (r.1, evs :: r.2.1, r.2.2))
    else some (s, [], irqs)

/-- The function `display_update(image_binary)` under the interrupts `irqs`:
the state at the return, the events of each `SPI_Master_WriteReg` call in
order, and the interrupts left.  `NVM_READ_CMD` is a local array of one
element; an index beyond it addresses the memory behind the array. -/
def display_update (s : State) (image_binary : Nat → Nat)
    (irqs : List (SPIVector × Nat)) :
    Option (State × List (List Ev) × List (SPIVector × Nat)) :=
  let s0 := { s with SLAVE_CS := true }
  let NVM_READ_CMD : Nat → Nat := setByte (fun _ => 0) 0 ((0x80 ||| s0.display_com) % 256)
  let NVM_READ_CMD_SIZE := 1
  match SPI_Master_WriteReg s0 0 NVM_READ_CMD NVM_READ_CMD_SIZE irqs with
  | none => none
  | some (_, s1, ev1, r1) =>
    let s2 := { s1 with display_com := (s1.display_com ^^^ s1.display_com_mask) % 256 }
    match display_update_loop image_binary 129 0 s2 r1 with
    | none => none
    | some (s3, calls, r2) =>
      let NVM_READ_CMD := setByte NVM_READ_CMD 1 0x00
      let NVM_READ_CMD_SIZE := 1
      match SPI_Master_WriteReg s3 0 NVM_READ_CMD NVM_READ_CMD_SIZE r2 with
      | none => none
      | some (_, s4, ev2, r3) =>
        some ({ s4 with SLAVE_CS := false }, ev1 :: calls ++ [ev2], r3)

end Display

namespace SmartStartUp

/-- The enumeration `Mode` of the start-up state machine. -/
inductive Mode where
  | CHARGING
  | BOOTING
  deriving DecidableEq, Repr

/-- The constant `thresholdCAP`. -/
def thresholdCAP : Nat := 1000

/-- The constant `thresholdCAP_hysteresis`. -/
def thresholdCAP_hysteresis : Nat := 900

/-- The function `concatenate(d1, d2)`: `((uint16_t)d1 << 8) | d2`. -/
def concatenate (d1 d2 : Nat) : Nat :=
  (((d1 % 256) <<< 8) ||| (d2 % 256)) % 65536

/-- The function `convertCAP(data)`: `50*data` in 16 bits. -/
def convertCAP (data : Nat) : Nat :=
  (50 * data) % 65536

/-- The function `convertSOC(data)`: `data>>8`. -/
def convertSOC (data : Nat) : Nat :=
  (data % 65536) >>> 8

/-- The globals of `SmartStartUp_main.c` that the loop of `main` uses, the
output register `P3OUT` and the compare registers and interrupt enables of the
two timers. -/
structure State where
  MainMode : Mode
  P3OUT : Nat
  resultCAP : Nat
  resultSOC : Nat
  Status : Nat → Nat
  StatusPOR : Nat → Nat
  RepCAP : Nat → Nat
  RepSOC : Nat → Nat
  TA0CCR0 : Nat
  TA0CCIE : Bool
  TA1CCR0 : Nat
  TA1CCIE : Bool

/-- The state when `main` enters its loop: the initialisers of the globals
(`MainMode = CHARGING`) and `P3OUT = 0x00` of `initGPIO`. -/
def State.init : State where
  MainMode := .CHARGING
  P3OUT := 0x00
  resultCAP := 0
  resultSOC := 0
  Status := fun _ => 0
  StatusPOR := fun _ => 0
  RepCAP := fun _ => 0
  RepSOC := fun _ => 0
  TA0CCR0 := 0
  TA0CCIE := false
  TA1CCR0 := 0
  TA1CCIE := false

/-- What the gauge answers in one iteration: the contents of `Status`, `RepCAP`
and `RepSOC` after the statement pairs
`I2C_Master_ReadReg(...); CopyArray(ReceiveBuffer, X, 2);` for the registers
`0x00`, `0x05` and `0x06`. -/
structure Answers where
  Status : Nat → Nat
  RepCAP : Nat → Nat
  RepSOC : Nat → Nat

/-- The assignment `buf[i] = v`. -/
def setByte (buf : Nat → Nat) (i v : Nat) : Nat → Nat :=
  fun j => if j = i then v else buf j

/-- The part `// Gauge Measurement` of the loop body of `main`: capacity and
state of charge are read only when the POR bit of `Status` is clear. -/
def main_gauge_measurement (s : State) (a : Answers) : State :=
  let s := { s with Status := a.Status }
  let s := { s with StatusPOR := setByte s.StatusPOR 0 (s.Status 0 &&& 0x02) }
  if s.StatusPOR 0 = 0x00 then
    let s := { s with RepCAP := a.RepCAP }
    let s := { s with resultCAP := convertCAP (concatenate (s.RepCAP 1) (s.RepCAP 0)) }
    let s := { s with RepSOC := a.RepSOC }
    { s with resultSOC := convertSOC (concatenate (s.RepSOC 1) (s.RepSOC 0)) }
  else s

/-- The statement `switch(MainMode)` of the loop body of `main`.  In the
branches that do not change `MainMode` the timer is armed and the processor
sleeps in LPM3 until the timer interrupt ends the sleep. -/
def main_switch (s : State) : State :=
  match s.MainMode with
  | .CHARGING =>
    if s.resultCAP > thresholdCAP then
      { s with MainMode := .BOOTING, P3OUT := (s.P3OUT ||| 0x04) % 256 }
    else
      { s with TA1CCIE := true, TA1CCR0 := 65535 }
  | .BOOTING =>
    if s.resultCAP < thresholdCAP_hysteresis then
      { s with MainMode := .CHARGING, P3OUT := (s.P3OUT &&& 0xFB) % 256 }
    else
      { s with TA0CCIE := true, TA0CCR0 := 32678 }

/-- One iteration of the loop `while(1)` of `main`. -/
def main_loop_body (s : State) (a : Answers) : State :=
  main_switch (main_gauge_measurement s a)

/-- The loop of `main` over the iterations in which the gauge gives the
answers `as`. -/
def main_loop (s : State) (as : List Answers) : State :=
  as.foldl main_loop_body s

end SmartStartUp

namespace Gauge

/-! ## Properties of the I2C engine of `gauge_lcd_main.c` -/

theorem setByte_same (buf : Nat → Nat) (i v : Nat) : setByte buf i v i = v := by
  simp [setByte]

theorem setByte_other (buf : Nat → Nat) (i v j : Nat) (h : j ≠ i) :
    setByte buf i v j = buf j := by
  simp [setByte, h]

theorem CopyArray_loop_get (source : Nat → Nat) (count : Nat) (hc : count < 256) :
    ∀ (fuel copyIndex : Nat) (dest : Nat → Nat) (j : Nat),
      copyIndex ≤ count → count ≤ copyIndex + fuel →
      CopyArray_loop source count fuel copyIndex dest j =
        if copyIndex ≤ j ∧ j < count then source j else dest j := by
  intro fuel
  induction fuel with
  | zero =>
    intro copyIndex dest j h1 h2
    have : ¬ (copyIndex ≤ j ∧ j < count) := by omega
    simp [CopyArray_loop, this]
  | succ fuel ih =>
    intro copyIndex dest j h1 h2
    unfold CopyArray_loop
    by_cases hlt : copyIndex < count
    · have hmod : (copyIndex + 1) % 256 = copyIndex + 1 := Nat.mod_eq_of_lt (by omega)
      rw [if_pos hlt, hmod, ih (copyIndex + 1) _ j (by omega) (by omega)]
      by_cases hj : j = copyIndex
      · subst hj
        have : ¬ (j + 1 ≤ j ∧ j < count) := by omega
        simp [this, hlt, setByte_same]
      · rw [setByte_other _ _ _ _ hj]
        by_cases h3 : copyIndex ≤ j ∧ j < count
        · have : copyIndex + 1 ≤ j ∧ j < count := by omega
          simp [this, h3]
        · have : ¬ (copyIndex + 1 ≤ j ∧ j < count) := by omega
          simp [this, h3]
    · have : ¬ (copyIndex ≤ j ∧ j < count) := by omega
      simp [hlt, this]

theorem CopyArray_get (source dest : Nat → Nat) (count : Nat) (hc : count < 256) (j : Nat) :
    CopyArray source dest count j = if j < count then source j else dest j := by
  unfold CopyArray
  rw [CopyArray_loop_get source count hc 256 0 dest j (by omega) (by omega)]
  simp

theorem isr_tx (s : State) : isr Irq.tx s = USCI_B0_ISR .USCI_I2C_UCTXIFG0 0 s := rfl

theorem isr_rx (b : Nat) (s : State) : isr (Irq.rx b) s = USCI_B0_ISR .USCI_I2C_UCRXIFG0 b s := rfl

theorem run_nil (s : State) : run s [] = (s, []) := rfl

theorem run_cons (s : State) (i : Irq) (rest : List Irq) :
    run s (i :: rest) = ((run (isr i s).1 rest).1, (isr i s).2 ++ (run (isr i s).1 rest).2) := rfl

theorem run_append (irqs rest : List Irq) : ∀ s : State,
    run s (irqs ++ rest) =
      ((run (run s irqs).1 rest).1, (run s irqs).2 ++ (run (run s irqs).1 rest).2) := by
  induction irqs with
  | nil => intro s; simp [run_nil]
  | cons i irqs ih => intro s; simp [run_cons, ih, List.append_assoc]

theorem run_tx_data (k : Nat) : ∀ s : State,
    s.MasterMode = .TX_DATA_MODE → s.TXByteCtr = k → s.TransmitIndex + k < 256 →
    run s (List.replicate k Irq.tx) =
      ({ s with TransmitIndex := s.TransmitIndex + k, TXByteCtr := 0 },
       dataEvents s.TransmitBuffer s.TransmitIndex k) := by
  induction k with
  | zero =>
    intro s _ hc _
    cases s
    simp_all [run_nil, dataEvents]
  | succ k ih =>
    intro s hm hc hi
    have h1 : (s.TransmitIndex + 1) % 256 = s.TransmitIndex + 1 := Nat.mod_eq_of_lt (by omega)
    have h2 : (k + 1 + 255) % 256 = k := by omega
    have hstep : isr Irq.tx s =
        ({ s with TransmitIndex := s.TransmitIndex + 1, TXByteCtr := k },
         [Ev.readTB s.TransmitIndex, Ev.txbuf (s.TransmitBuffer s.TransmitIndex)]) := by
      simp [isr_tx, USCI_B0_ISR, hm, hc, h1, h2]
    rw [List.replicate_succ, run_cons, hstep]
    simp only []
    rw [ih ({ s with TransmitIndex := s.TransmitIndex + 1, TXByteCtr := k }) hm rfl (by simp; omega)]
    simp [dataEvents, Nat.add_assoc, Nat.add_comm 1 k]

theorem txBytes_append (l1 l2 : List Ev) : txBytes (l1 ++ l2) = txBytes l1 ++ txBytes l2 := by
  induction l1 with
  | nil => rfl
  | cons e l1 ih => cases e <;> simp [txBytes, ih]

theorem txBytes_dataEvents (buf : Nat → Nat) (k : Nat) : ∀ i : Nat,
    txBytes (dataEvents buf i k) = (List.range k).map (fun n => buf (i + n)) := by
  induction k with
  | zero => intro i; rfl
  | succ k ih =>
    intro i
    rw [List.range_succ_eq_map]
    simp [dataEvents, txBytes, ih, Function.comp_def, Nat.add_assoc, Nat.add_comm 1]

theorem rx_idle (b : Nat) (s : State) (h : s.RXByteCtr = 0) :
    USCI_B0_ISR .USCI_I2C_UCRXIFG0 b s =
      ({ s with UCRXIE := false, MasterMode := .IDLE_MODE, CPUOFF := false }, [Ev.wake]) := by
  simp [USCI_B0_ISR, h]

theorem rx_store (b : Nat) (s : State) (h : s.RXByteCtr ≠ 0) :
    USCI_B0_ISR .USCI_I2C_UCRXIFG0 b s =
      (if (s.RXByteCtr + 255) % 256 = 1 then
        ({ s with
            ReceiveBuffer := setByte s.ReceiveBuffer s.ReceiveIndex b
            ReceiveIndex := (s.ReceiveIndex + 1) % 256
            RXByteCtr := (s.RXByteCtr + 255) % 256 },
         [Ev.writeRB s.ReceiveIndex b, Ev.stop])
      else if (s.RXByteCtr + 255) % 256 = 0 then
        ({ s with
            ReceiveBuffer := setByte s.ReceiveBuffer s.ReceiveIndex b
            ReceiveIndex := (s.ReceiveIndex + 1) % 256
            RXByteCtr := (s.RXByteCtr + 255) % 256
            UCRXIE := false
            MasterMode := .IDLE_MODE
            CPUOFF := false },
         [Ev.writeRB s.ReceiveIndex b, Ev.wake])
      else
        ({ s with
            ReceiveBuffer := setByte s.ReceiveBuffer s.ReceiveIndex b
            ReceiveIndex := (s.ReceiveIndex + 1) % 256
            RXByteCtr := (s.RXByteCtr + 255) % 256 },
         [Ev.writeRB s.ReceiveIndex b])) := by
  simp only [USCI_B0_ISR, if_pos h]
  by_cases h1 : (s.RXByteCtr + 255) % 256 = 1
  · simp [h1]
  · by_cases h0 : (s.RXByteCtr + 255) % 256 = 0
    · simp [h0]
    · simp [h1, h0]

theorem a1_rx_data (b : Nat) (s : State) (hm : s.MasterMode = .RX_DATA_MODE) :
    USCI_A1_ISR .USCI_SPI_UCRXIFG b s =
      (if s.RXByteCtr = 0 then
        ({ s with MasterMode := .IDLE_MODE, CPUOFF := false }, [Ev.wake])
      else if (s.RXByteCtr + 255) % 256 = 0 then
        ({ s with
            ReceiveBuffer := setByte s.ReceiveBuffer s.ReceiveIndex b
            ReceiveIndex := (s.ReceiveIndex + 1) % 256
            RXByteCtr := (s.RXByteCtr + 255) % 256
            MasterMode := .IDLE_MODE
            CPUOFF := false },
         [Ev.writeRB s.ReceiveIndex b, Ev.wake])
      else
        ({ s with
            ReceiveBuffer := setByte s.ReceiveBuffer s.ReceiveIndex b
            ReceiveIndex := (s.ReceiveIndex + 1) % 256
            RXByteCtr := (s.RXByteCtr + 255) % 256 },
         [Ev.writeRB s.ReceiveIndex b, Ev.uca1tx DUMMY])) := by
  simp only [USCI_A1_ISR, hm]
  by_cases h0 : s.RXByteCtr = 0
  · simp [h0]
  · by_cases h1 : (s.RXByteCtr + 255) % 256 = 0
    · simp [h0, h1]
    · simp [h0, h1]

/-- A `USCI_B0_ISR` step that clears `CPUOFF` leaves the engine idle. -/
theorem USCI_B0_ISR_wake (iv : I2CVector) (rx : Nat) (s : State)
    (h : Ev.wake ∈ (USCI_B0_ISR iv rx s).2) :
    (USCI_B0_ISR iv rx s).1.MasterMode = .IDLE_MODE ∧
      (USCI_B0_ISR iv rx s).1.CPUOFF = false := by
  cases iv
  case USCI_I2C_UCRXIFG0 =>
    by_cases h0 : s.RXByteCtr = 0
    · simp [rx_idle, h0]
    · rw [rx_store _ _ h0] at h ⊢
      split_ifs at h ⊢ <;> simp_all
  case USCI_I2C_UCTXIFG0 =>
    unfold USCI_B0_ISR at h ⊢
    cases hm : s.MasterMode <;> simp [hm] at h ⊢
    split_ifs at h ⊢ <;> simp_all
  all_goals simp [USCI_B0_ISR] at h

theorem USCI_A1_ISR_wake (iv : SPIVector) (rx : Nat) (s : State)
    (h : Ev.wake ∈ (USCI_A1_ISR iv rx s).2) :
    (USCI_A1_ISR iv rx s).1.MasterMode = .IDLE_MODE ∧
      (USCI_A1_ISR iv rx s).1.CPUOFF = false := by
  cases iv
  case USCI_SPI_UCRXIFG =>
    cases hm : s.MasterMode
    case RX_DATA_MODE =>
      rw [a1_rx_data _ _ hm] at h ⊢
      split_ifs at h ⊢ <;> simp_all
    all_goals
      simp only [USCI_A1_ISR, hm] at h ⊢
      first
        | (simp at h; done)
        | (split_ifs at h ⊢ <;> simp_all)
  all_goals simp [USCI_A1_ISR] at h

theorem USCI_B0_ISR_no_wake (iv : I2CVector) (rx : Nat) (s : State)
    (h : Ev.wake ∉ (USCI_B0_ISR iv rx s).2) :
    (USCI_B0_ISR iv rx s).1.CPUOFF = s.CPUOFF := by
  cases iv
  case USCI_I2C_UCRXIFG0 =>
    by_cases h0 : s.RXByteCtr = 0
    · simp [rx_idle, h0] at h
    · rw [rx_store _ _ h0] at h ⊢
      split_ifs at h ⊢ <;> simp_all
  case USCI_I2C_UCTXIFG0 =>
    unfold USCI_B0_ISR at h ⊢
    cases hm : s.MasterMode <;> simp [hm] at h ⊢
    split_ifs at h ⊢ <;> simp_all
  all_goals simp [USCI_B0_ISR]

theorem USCI_A1_ISR_no_wake (iv : SPIVector) (rx : Nat) (s : State)
    (h : Ev.wake ∉ (USCI_A1_ISR iv rx s).2) :
    (USCI_A1_ISR iv rx s).1.CPUOFF = s.CPUOFF := by
  cases iv
  case USCI_SPI_UCRXIFG =>
    cases hm : s.MasterMode
    case RX_DATA_MODE =>
      rw [a1_rx_data _ _ hm] at h ⊢
      split_ifs at h ⊢ <;> simp_all
    all_goals
      simp only [USCI_A1_ISR, hm] at h ⊢
      first
        | done
        | (split_ifs at h ⊢ <;> simp_all)
  all_goals simp [USCI_A1_ISR]

theorem isr_wake (i : Irq) (s : State) (h : Ev.wake ∈ (isr i s).2) :
    (isr i s).1.CPUOFF = false := by
  cases i with
  | usci_b0 iv rx => exact (USCI_B0_ISR_wake iv rx s h).2
  | usci_a1 iv rx => exact (USCI_A1_ISR_wake iv rx s h).2
  | timer0_a0 => rfl

theorem isr_no_wake (i : Irq) (s : State) (h : Ev.wake ∉ (isr i s).2) :
    (isr i s).1.CPUOFF = s.CPUOFF := by
  cases i with
  | usci_b0 iv rx => exact USCI_B0_ISR_no_wake iv rx s h
  | usci_a1 iv rx => exact USCI_A1_ISR_no_wake iv rx s h
  | timer0_a0 => simp [isr, Timer_A] at h

theorem lpm_wait_append (irqs rest : List Irq) : ∀ s : State,
    s.CPUOFF = true → Ev.wake ∉ (run s irqs).2 →
    lpm_wait s (irqs ++ rest) =
      (lpm_wait (run s irqs).1 rest).map (fun q => (q.1, (run s irqs).2 ++ q.2)) := by
  induction irqs with
  | nil => intro s _ _; simp [run_nil]
  | cons i irqs ih =>
    intro s hs hw
    rw [run_cons] at hw
    simp only [List.mem_append, not_or] at hw
    have h1 : (isr i s).1.CPUOFF = true := by rw [isr_no_wake i s hw.1, hs]
    have h2 : lpm_wait s (i :: (irqs ++ rest)) =
        (lpm_wait (isr i s).1 (irqs ++ rest)).map (fun q => (q.1, (isr i s).2 ++ q.2)) := by
      simp [lpm_wait, h1]
    rw [List.cons_append, h2, ih _ h1 hw.2, run_cons]
    simp [Option.map_map, Function.comp_def, List.append_assoc]

theorem lpm_wait_wake (s : State) (i : Irq) (rest : List Irq)
    (h : (isr i s).1.CPUOFF = false) : lpm_wait s (i :: rest) = some (isr i s) := by
  simp [lpm_wait, h]

theorem dataEvents_mem (buf : Nat → Nat) (k : Nat) : ∀ (i : Nat) (e : Ev),
    e ∈ dataEvents buf i k →
      ∃ n, i ≤ n ∧ n < i + k ∧ (e = Ev.readTB n ∨ e = Ev.txbuf (buf n)) := by
  induction k with
  | zero => intro i e h; simp [dataEvents] at h
  | succ k ih =>
    intro i e h
    simp only [dataEvents, List.mem_cons] at h
    rcases h with h | h | h
    · exact ⟨i, by omega, by omega, Or.inl h⟩
    · exact ⟨i, by omega, by omega, Or.inr h⟩
    · obtain ⟨n, h1, h2, h3⟩ := ih (i + 1) e h
      exact ⟨n, by omega, by omega, h3⟩

/-- The state and events of the first `count + 1` TX-ready steps of a write. -/
theorem run_write_frame (s : State) (dev_addr reg_addr : Nat) (reg_data : Nat → Nat)
    (count : Nat) (h : count < 256) :
    run (I2C_Master_WriteReg_arm s dev_addr reg_addr reg_data count).1
        (List.replicate (count + 1) Irq.tx) =
      ({ (I2C_Master_WriteReg_arm s dev_addr reg_addr reg_data count).1 with
          MasterMode := .TX_DATA_MODE, TransmitIndex := count, TXByteCtr := 0 },
       Ev.txbuf reg_addr :: dataEvents (CopyArray reg_data s.TransmitBuffer count) 0 count) := by
  rw [List.replicate_succ, run_cons]
  have hstep : isr Irq.tx (I2C_Master_WriteReg_arm s dev_addr reg_addr reg_data count).1 =
      ({ (I2C_Master_WriteReg_arm s dev_addr reg_addr reg_data count).1 with
          MasterMode := .TX_DATA_MODE }, [Ev.txbuf reg_addr]) := by
    simp [isr_tx, USCI_B0_ISR, I2C_Master_WriteReg_arm]
  rw [hstep]
  simp only []
  rw [run_tx_data count _ rfl rfl (by simp [I2C_Master_WriteReg_arm]; omega)]
  simp [I2C_Master_WriteReg_arm]


/-- C1: for every `count <= MAX_BUFFER_SIZE`, arming `I2C_Master_WriteReg` and
delivering `count + 1` TX-ready interrupts writes to `UCB0TXBUF` exactly
`reg_addr, reg_data[0], ..., reg_data[count-1]`, in this order, without a stop
request and without waking the caller; the next TX-ready interrupt requests
the stop, sets `MasterMode` to `IDLE_MODE` and clears `CPUOFF`, and the call
returns `IDLE_MODE` having written exactly these bytes. -/
theorem c1_i2c_write_byte_order (s : State) (dev_addr reg_addr : Nat)
    (reg_data : Nat → Nat) (count : Nat) (h : count ≤ MAX_BUFFER_SIZE) :
    txBytes (run (I2C_Master_WriteReg_arm s dev_addr reg_addr reg_data count).1
        (List.replicate (count + 1) Irq.tx)).2 = reg_addr :: (List.range count).map reg_data
    ∧ Ev.stop ∉ (run (I2C_Master_WriteReg_arm s dev_addr reg_addr reg_data count).1
        (List.replicate (count + 1) Irq.tx)).2
    ∧ Ev.wake ∉ (run (I2C_Master_WriteReg_arm s dev_addr reg_addr reg_data count).1
        (List.replicate (count + 1) Irq.tx)).2
    ∧ (isr Irq.tx (run (I2C_Master_WriteReg_arm s dev_addr reg_addr reg_data count).1
        (List.replicate (count + 1) Irq.tx)).1).2 = [Ev.stop, Ev.wake]
    ∧ (isr Irq.tx (run (I2C_Master_WriteReg_arm s dev_addr reg_addr reg_data count).1
        (List.replicate (count + 1) Irq.tx)).1).1.MasterMode = .IDLE_MODE
    ∧ (isr Irq.tx (run (I2C_Master_WriteReg_arm s dev_addr reg_addr reg_data count).1
        (List.replicate (count + 1) Irq.tx)).1).1.CPUOFF = false
    ∧ (I2C_Master_WriteReg s dev_addr reg_addr reg_data count
        (List.replicate (count + 2) Irq.tx)).map (fun r => (r.1, txBytes r.2.2)) =
        some (.IDLE_MODE, reg_addr :: (List.range count).map reg_data) := by
  have hc : count < 256 := by simp [MAX_BUFFER_SIZE] at h; omega
  have hrun := run_write_frame s dev_addr reg_addr reg_data count hc
  have hd : txBytes (dataEvents (CopyArray reg_data s.TransmitBuffer count) 0 count) =
      (List.range count).map reg_data := by
    rw [txBytes_dataEvents]
    apply List.map_congr_left
    intro n hn
    have hn' : n < count := List.mem_range.mp hn
    simp [CopyArray_get _ _ _ hc, hn']
  have htx : txBytes (Ev.txbuf reg_addr ::
      dataEvents (CopyArray reg_data s.TransmitBuffer count) 0 count) =
      reg_addr :: (List.range count).map reg_data := by
    simp only [txBytes, hd]
  have hstop : Ev.stop ∉ (Ev.txbuf reg_addr ::
      dataEvents (CopyArray reg_data s.TransmitBuffer count) 0 count) := by
    intro hmem
    rcases List.mem_cons.mp hmem with h1 | h1
    · cases h1
    · obtain ⟨n, _, _, h2 | h2⟩ := dataEvents_mem _ _ _ _ h1 <;> cases h2
  have hwake : Ev.wake ∉ (Ev.txbuf reg_addr ::
      dataEvents (CopyArray reg_data s.TransmitBuffer count) 0 count) := by
    intro hmem
    rcases List.mem_cons.mp hmem with h1 | h1
    · cases h1
    · obtain ⟨n, _, _, h2 | h2⟩ := dataEvents_mem _ _ _ _ h1 <;> cases h2
  have hlast : isr Irq.tx (run (I2C_Master_WriteReg_arm s dev_addr reg_addr reg_data count).1
        (List.replicate (count + 1) Irq.tx)).1 =
      ({ (I2C_Master_WriteReg_arm s dev_addr reg_addr reg_data count).1 with
          MasterMode := .IDLE_MODE, TransmitIndex := count, TXByteCtr := 0,
          UCTXIE := false, CPUOFF := false }, [Ev.stop, Ev.wake]) := by
    rw [hrun]
    simp [isr_tx, USCI_B0_ISR]
  refine ⟨?_, ?_, ?_, ?_, ?_, ?_, ?_⟩
  · rw [hrun]; exact htx
  · rw [hrun]; exact hstop
  · rw [hrun]; exact hwake
  · rw [hlast]
  · rw [hlast]
  · rw [hlast]
  · have happ : List.replicate (count + 2) Irq.tx =
        List.replicate (count + 1) Irq.tx ++ [Irq.tx] := by
      rw [List.replicate_succ']
    have hw := lpm_wait_append (List.replicate (count + 1) Irq.tx) [Irq.tx]
      (I2C_Master_WriteReg_arm s dev_addr reg_addr reg_data count).1 rfl
      (by rw [hrun]; exact hwake)
    have hone : lpm_wait (run (I2C_Master_WriteReg_arm s dev_addr reg_addr reg_data count).1
        (List.replicate (count + 1) Irq.tx)).1 [Irq.tx] =
        some (isr Irq.tx (run (I2C_Master_WriteReg_arm s dev_addr reg_addr reg_data count).1
          (List.replicate (count + 1) Irq.tx)).1) := by
      rw [lpm_wait_wake _ _ _ (by rw [hlast])]
    simp only [I2C_Master_WriteReg]
    rw [happ, hw, hone, hlast, hrun]
    simp [I2C_Master_WriteReg_arm, txBytes_append, txBytes, hd]

theorem c1_i2c_write_byte_order_witness :
    2 ≤ MAX_BUFFER_SIZE
    ∧ txBytes (run (I2C_Master_WriteReg_arm State.init 0x36 0x60 Write1 2).1
        (List.replicate 3 Irq.tx)).2 = [0x60, 0x90, 0x00]
    ∧ (isr Irq.tx (run (I2C_Master_WriteReg_arm State.init 0x36 0x60 Write1 2).1
        (List.replicate 3 Irq.tx)).1).2 = [Ev.stop, Ev.wake]
    ∧ (I2C_Master_WriteReg State.init 0x36 0x60 Write1 2
        (List.replicate 4 Irq.tx)).map (fun r => (r.1, txBytes r.2.2)) =
        some (.IDLE_MODE, [0x60, 0x90, 0x00]) :=
  ⟨by decide,
   (c1_i2c_write_byte_order State.init 0x36 0x60 Write1 2 (by decide)).1,
   (c1_i2c_write_byte_order State.init 0x36 0x60 Write1 2 (by decide)).2.2.2.1,
   (c1_i2c_write_byte_order State.init 0x36 0x60 Write1 2 (by decide)).2.2.2.2.2.2⟩


theorem trace_nil (s : State) : trace s [] = [] := rfl

theorem trace_cons (s : State) (i : Irq) (rest : List Irq) :
    trace s (i :: rest) = isr i s :: trace (isr i s).1 rest := rfl

theorem rx_step (b : Nat) (s : State) (k : Nat) (h : s.RXByteCtr = k + 1) (hk : k + 1 < 256) :
    isr (Irq.rx b) s =
      (if k = 1 then
        ({ s with
            ReceiveBuffer := setByte s.ReceiveBuffer s.ReceiveIndex b
            ReceiveIndex := (s.ReceiveIndex + 1) % 256
            RXByteCtr := k },
         [Ev.writeRB s.ReceiveIndex b, Ev.stop])
      else if k = 0 then
        ({ s with
            ReceiveBuffer := setByte s.ReceiveBuffer s.ReceiveIndex b
            ReceiveIndex := (s.ReceiveIndex + 1) % 256
            RXByteCtr := k
            UCRXIE := false
            MasterMode := .IDLE_MODE
            CPUOFF := false },
         [Ev.writeRB s.ReceiveIndex b, Ev.wake])
      else
        ({ s with
            ReceiveBuffer := setByte s.ReceiveBuffer s.ReceiveIndex b
            ReceiveIndex := (s.ReceiveIndex + 1) % 256
            RXByteCtr := k },
         [Ev.writeRB s.ReceiveIndex b])) := by
  have h2 : (k + 1 + 255) % 256 = k := by omega
  rw [isr_rx, rx_store _ _ (by omega), h, h2]

theorem run_rx_data (bs : List Nat) : ∀ s : State,
    bs ≠ [] → s.RXByteCtr = bs.length → s.ReceiveIndex + bs.length < 256 →
    run s (bs.map Irq.rx) =
      ({ s with
          ReceiveBuffer := writeBytes s.ReceiveBuffer s.ReceiveIndex bs
          ReceiveIndex := s.ReceiveIndex + bs.length
          RXByteCtr := 0
          UCRXIE := false
          MasterMode := .IDLE_MODE
          CPUOFF := false },
       rxEvents s.ReceiveIndex bs) := by
  induction bs with
  | nil => intro s h; exact absurd rfl h
  | cons b rest ih =>
    intro s _ hc hi
    simp only [List.length_cons] at hc hi
    have h1 : (s.ReceiveIndex + 1) % 256 = s.ReceiveIndex + 1 := Nat.mod_eq_of_lt (by omega)
    rw [List.map_cons, run_cons, rx_step b s rest.length hc (by omega), h1]
    cases rest with
    | nil =>
      simp [run_nil, writeBytes, rxEvents]
    | cons b2 rest2 =>
      by_cases hone : (b2 :: rest2).length = 1
      · rw [if_pos hone]
        simp only []
        rw [ih _ (by simp) rfl (by simp at hi ⊢; omega)]
        simp [writeBytes, rxEvents, hone, Nat.add_assoc, Nat.add_comm 1]
      · have hz : (b2 :: rest2).length ≠ 0 := by simp
        rw [if_neg hone, if_neg hz]
        simp only []
        rw [ih _ (by simp) rfl (by simp at hi ⊢; omega)]
        have hone' : ¬ rest2.length + 1 = 1 := by simpa using hone
        have hne : ¬ rest2 = [] := by intro hh; apply hone; simp [hh]
        simp [writeBytes, rxEvents, hone', hne, Nat.add_assoc, Nat.add_comm 1]

theorem writeBytes_get (bs : List Nat) : ∀ (buf : Nat → Nat) (i j : Nat),
    writeBytes buf i bs j = if i ≤ j ∧ j < i + bs.length then bs.getD (j - i) 0 else buf j := by
  induction bs with
  | nil =>
    intro buf i j
    have : ¬ (i ≤ j ∧ j < i + ([] : List Nat).length) := by simp
    rw [if_neg this]; rfl
  | cons b rest ih =>
    intro buf i j
    rw [writeBytes, ih]
    by_cases hj : j = i
    · subst hj
      have : ¬ (j + 1 ≤ j ∧ j < j + 1 + rest.length) := by omega
      simp [this, setByte_same]
    · rw [setByte_other _ _ _ _ hj]
      by_cases h3 : i + 1 ≤ j ∧ j < i + 1 + rest.length
      · have h4 : i ≤ j ∧ j < i + (b :: rest).length := by simp; omega
        have h5 : j - i = (j - (i + 1)) + 1 := by omega
        rw [if_pos h3, if_pos h4, h5, List.getD_cons_succ]
      · have h4 : ¬ (i ≤ j ∧ j < i + (b :: rest).length) := by simp; omega
        rw [if_neg h3, if_neg h4]


theorem txBytes_rxEvents (bs : List Nat) : ∀ i : Nat, txBytes (rxEvents i bs) = [] := by
  induction bs with
  | nil => intro i; rfl
  | cons b rest ih =>
    intro i
    simp only [rxEvents, txBytes, txBytes_append, ih, List.append_nil]
    split_ifs <;> rfl

theorem lpm_wait_rx_data (bs : List Nat) : ∀ s : State,
    bs ≠ [] → s.RXByteCtr = bs.length → bs.length < 256 → s.CPUOFF = true →
    lpm_wait s (bs.map Irq.rx) = some (run s (bs.map Irq.rx)) := by
  induction bs with
  | nil => intro s h; exact absurd rfl h
  | cons b rest ih =>
    intro s _ hc hi hs
    simp only [List.length_cons] at hc hi
    have hstep := rx_step b s rest.length hc hi
    cases rest with
    | nil =>
      simp only [List.length_nil] at hstep
      rw [List.map_cons, List.map_nil, run_cons, run_nil, lpm_wait_wake _ _ _ (by rw [hstep]; simp)]
      simp
    | cons b2 rest2 =>
      have hz : (b2 :: rest2).length ≠ 0 := by simp
      have hoff : (isr (Irq.rx b) s).1.CPUOFF = true := by
        rw [hstep]
        by_cases hone : (b2 :: rest2).length = 1
        · rw [if_pos hone]; exact hs
        · rw [if_neg hone, if_neg hz]; exact hs
      have hctr : (isr (Irq.rx b) s).1.RXByteCtr = (b2 :: rest2).length := by
        rw [hstep]
        by_cases hone : (b2 :: rest2).length = 1
        · rw [if_pos hone]
        · rw [if_neg hone, if_neg hz]
      have h2 : lpm_wait s (Irq.rx b :: (b2 :: rest2).map Irq.rx) =
          (lpm_wait (isr (Irq.rx b) s).1 ((b2 :: rest2).map Irq.rx)).map
            (fun q => (q.1, (isr (Irq.rx b) s).2 ++ q.2)) := by
        simp [lpm_wait, hoff]
      rw [List.map_cons, h2, ih _ (by simp) hctr (by omega) hoff, run_cons]
      rfl

/-- C2: for every `1 <= count <= MAX_BUFFER_SIZE`, arming `I2C_Master_ReadReg`,
delivering two TX-ready interrupts and then `count` RX interrupts that carry
the bytes `bs` leaves `ReceiveBuffer[i] = bs[i]` for every `i < count` (and the
rest of the buffer as it was), `ReceiveIndex = count`, `RXByteCtr = 0` and
`MasterMode = IDLE_MODE` with `CPUOFF` clear; the only byte written to
`UCB0TXBUF` is `reg_addr`; the call returns `IDLE_MODE` in exactly this state. -/
theorem c2_i2c_read_result (s : State) (dev_addr reg_addr count : Nat) (bs : List Nat)
    (hlen : bs.length = count) (h1 : 1 ≤ count) (h2 : count ≤ MAX_BUFFER_SIZE) :
    (∀ i, i < count →
      (run (I2C_Master_ReadReg_arm s dev_addr reg_addr count).1
        (Irq.tx :: Irq.tx :: bs.map Irq.rx)).1.ReceiveBuffer i = bs.getD i 0)
    ∧ (∀ i, count ≤ i →
      (run (I2C_Master_ReadReg_arm s dev_addr reg_addr count).1
        (Irq.tx :: Irq.tx :: bs.map Irq.rx)).1.ReceiveBuffer i = s.ReceiveBuffer i)
    ∧ (run (I2C_Master_ReadReg_arm s dev_addr reg_addr count).1
        (Irq.tx :: Irq.tx :: bs.map Irq.rx)).1.ReceiveIndex = count
    ∧ (run (I2C_Master_ReadReg_arm s dev_addr reg_addr count).1
        (Irq.tx :: Irq.tx :: bs.map Irq.rx)).1.RXByteCtr = 0
    ∧ (run (I2C_Master_ReadReg_arm s dev_addr reg_addr count).1
        (Irq.tx :: Irq.tx :: bs.map Irq.rx)).1.MasterMode = .IDLE_MODE
    ∧ (run (I2C_Master_ReadReg_arm s dev_addr reg_addr count).1
        (Irq.tx :: Irq.tx :: bs.map Irq.rx)).1.CPUOFF = false
    ∧ txBytes (run (I2C_Master_ReadReg_arm s dev_addr reg_addr count).1
        (Irq.tx :: Irq.tx :: bs.map Irq.rx)).2 = [reg_addr]
    ∧ I2C_Master_ReadReg s dev_addr reg_addr count (Irq.tx :: Irq.tx :: bs.map Irq.rx) =
        some (.IDLE_MODE,
          (run (I2C_Master_ReadReg_arm s dev_addr reg_addr count).1
            (Irq.tx :: Irq.tx :: bs.map Irq.rx)).1,
          Ev.start :: (run (I2C_Master_ReadReg_arm s dev_addr reg_addr count).1
            (Irq.tx :: Irq.tx :: bs.map Irq.rx)).2) := by
  subst hlen
  have hc : bs.length < 256 := by simp [MAX_BUFFER_SIZE] at h2; omega
  have hne : bs ≠ [] := by intro hh; simp [hh] at h1
  have hz : bs.length ≠ 0 := by omega
  have hstep1 : isr Irq.tx (I2C_Master_ReadReg_arm s dev_addr reg_addr bs.length).1 =
      ({ (I2C_Master_ReadReg_arm s dev_addr reg_addr bs.length).1 with
          MasterMode := .SWITCH_TO_RX_MODE }, [Ev.txbuf reg_addr]) := by
    simp [isr_tx, USCI_B0_ISR, I2C_Master_ReadReg_arm, hz]
  have hstep2 : isr Irq.tx ({ (I2C_Master_ReadReg_arm s dev_addr reg_addr bs.length).1 with
          MasterMode := .SWITCH_TO_RX_MODE }) =
      ({ (I2C_Master_ReadReg_arm s dev_addr reg_addr bs.length).1 with
          MasterMode := .RX_DATA_MODE, UCRXIE := true, UCTXIE := false, UCTR := false },
        Ev.start :: (if bs.length = 1 then [Ev.stop] else [])) := by
    simp [isr_tx, USCI_B0_ISR, I2C_Master_ReadReg_arm]
  have hrx := run_rx_data bs ({ (I2C_Master_ReadReg_arm s dev_addr reg_addr bs.length).1 with
          MasterMode := .RX_DATA_MODE, UCRXIE := true, UCTXIE := false, UCTR := false })
      hne rfl (by simp [I2C_Master_ReadReg_arm]; omega)
  have hrun : run (I2C_Master_ReadReg_arm s dev_addr reg_addr bs.length).1
        (Irq.tx :: Irq.tx :: bs.map Irq.rx) =
      ({ (I2C_Master_ReadReg_arm s dev_addr reg_addr bs.length).1 with
          ReceiveBuffer := writeBytes s.ReceiveBuffer 0 bs
          ReceiveIndex := bs.length
          RXByteCtr := 0
          UCRXIE := false
          UCTXIE := false
          UCTR := false
          MasterMode := .IDLE_MODE
          CPUOFF := false },
       Ev.txbuf reg_addr :: Ev.start ::
        ((if bs.length = 1 then [Ev.stop] else []) ++ rxEvents 0 bs)) := by
    rw [run_cons, hstep1]
    simp only []
    rw [run_cons, hstep2]
    simp only []
    rw [hrx]
    simp [I2C_Master_ReadReg_arm]
  have hwait : lpm_wait (I2C_Master_ReadReg_arm s dev_addr reg_addr bs.length).1
        (Irq.tx :: Irq.tx :: bs.map Irq.rx) =
      some (run (I2C_Master_ReadReg_arm s dev_addr reg_addr bs.length).1
        (Irq.tx :: Irq.tx :: bs.map Irq.rx)) := by
    have hw := lpm_wait_append [Irq.tx, Irq.tx] (bs.map Irq.rx)
      (I2C_Master_ReadReg_arm s dev_addr reg_addr bs.length).1 rfl
      (by
        rw [run_cons, hstep1]
        simp only []
        rw [run_cons, hstep2]
        simp only [run_nil]
        split_ifs <;> simp)
    have hpre : run (I2C_Master_ReadReg_arm s dev_addr reg_addr bs.length).1 [Irq.tx, Irq.tx] =
        ({ (I2C_Master_ReadReg_arm s dev_addr reg_addr bs.length).1 with
          MasterMode := .RX_DATA_MODE, UCRXIE := true, UCTXIE := false, UCTR := false },
         Ev.txbuf reg_addr :: Ev.start :: (if bs.length = 1 then [Ev.stop] else [])) := by
      rw [run_cons, hstep1]
      simp only []
      rw [run_cons, hstep2]
      simp [run_nil]
    have happ : Irq.tx :: Irq.tx :: bs.map Irq.rx = [Irq.tx, Irq.tx] ++ bs.map Irq.rx := rfl
    rw [happ, hw, run_append, hpre]
    simp only []
    rw [lpm_wait_rx_data bs _ hne rfl hc rfl]
    simp
  refine ⟨?_, ?_, ?_, ?_, ?_, ?_, ?_, ?_⟩
  · intro i hi
    rw [hrun]
    simp [writeBytes_get, hi]
  · intro i hi
    rw [hrun]
    have : ¬ i < bs.length := by omega
    simp [writeBytes_get, this]
  · rw [hrun]
  · rw [hrun]
  · rw [hrun]
  · rw [hrun]
  · rw [hrun]
    simp only [txBytes, txBytes_append, txBytes_rxEvents]
    split_ifs <;> rfl
  · simp only [I2C_Master_ReadReg]
    rw [hwait, hrun]
    simp [I2C_Master_ReadReg_arm]

/-- Witness of C2: a two-byte read of register `0x05` that is answered with
`0x12, 0x34`. -/
theorem c2_i2c_read_result_witness :
    [0x12, 0x34].length = 2 ∧ 1 ≤ 2 ∧ 2 ≤ MAX_BUFFER_SIZE
    ∧ (∀ i, i < 2 →
      (run (I2C_Master_ReadReg_arm State.init 0x36 0x05 2).1
        (Irq.tx :: Irq.tx :: [0x12, 0x34].map Irq.rx)).1.ReceiveBuffer i = [0x12, 0x34].getD i 0)
    ∧ (run (I2C_Master_ReadReg_arm State.init 0x36 0x05 2).1
        (Irq.tx :: Irq.tx :: [0x12, 0x34].map Irq.rx)).1.MasterMode = .IDLE_MODE
    ∧ txBytes (run (I2C_Master_ReadReg_arm State.init 0x36 0x05 2).1
        (Irq.tx :: Irq.tx :: [0x12, 0x34].map Irq.rx)).2 = [0x05] :=
  ⟨rfl, by decide, by decide,
   (c2_i2c_read_result State.init 0x36 0x05 2 [0x12, 0x34] rfl (by decide) (by decide)).1,
   (c2_i2c_read_result State.init 0x36 0x05 2 [0x12, 0x34] rfl (by decide) (by decide)).2.2.2.2.1,
   (c2_i2c_read_result State.init 0x36 0x05 2 [0x12, 0x34] rfl (by decide) (by decide)).2.2.2.2.2.2.1⟩


theorem count_stop_rxEvents (bs : List Nat) : ∀ i : Nat,
    (rxEvents i bs).count Ev.stop = if 2 ≤ bs.length then 1 else 0 := by
  induction bs with
  | nil => intro i; rfl
  | cons b rest ih =>
    intro i
    simp only [rxEvents, List.count_cons, List.count_append, ih, List.length_cons]
    by_cases h1 : rest.length = 1
    · simp [h1]
    · by_cases h0 : rest.length = 0
      · simp [h0]
      · have h2 : 2 ≤ rest.length := by omega
        have h3 : 1 ≤ rest.length := by omega
        simp [h1, h0, h2, h3]

theorem trace_rx_data (bs : List Nat) : ∀ (s : State) (j : Nat) (p : State × List Ev),
    s.RXByteCtr = bs.length → s.ReceiveIndex + bs.length < 256 →
    (trace s (bs.map Irq.rx))[j]? = some p →
    p.2 = Ev.writeRB (s.ReceiveIndex + j) (bs.getD j 0) ::
        (if bs.length = j + 2 then [Ev.stop] else if bs.length = j + 1 then [Ev.wake] else [])
      ∧ p.1.RXByteCtr = bs.length - (j + 1) := by
  induction bs with
  | nil => intro s j p _ _ h; simp [trace_nil] at h
  | cons b rest ih =>
    intro s j p hc hi h
    simp only [List.length_cons] at hc hi
    have hstep := rx_step b s rest.length hc (by omega)
    have h1 : (s.ReceiveIndex + 1) % 256 = s.ReceiveIndex + 1 := Nat.mod_eq_of_lt (by omega)
    rw [h1] at hstep
    rw [List.map_cons, trace_cons] at h
    cases j with
    | zero =>
      simp only [List.getElem?_cons_zero, Option.some.injEq] at h
      subst h
      rw [hstep]
      by_cases hk1 : rest.length = 1
      · simp [hk1]
      · by_cases hk0 : rest.length = 0
        · simp [hk0]
        · simp [hk1, hk0]
    | succ j =>
      simp only [List.getElem?_cons_succ] at h
      have hs1 : (isr (Irq.rx b) s).1.RXByteCtr = rest.length := by
        rw [hstep]; split_ifs <;> rfl
      have hs2 : (isr (Irq.rx b) s).1.ReceiveIndex = s.ReceiveIndex + 1 := by
        rw [hstep]; split_ifs <;> rfl
      obtain ⟨e1, e2⟩ := ih _ j p hs1 (by rw [hs2]; omega) h
      rw [hs2] at e1
      refine ⟨?_, ?_⟩
      · rw [e1]
        simp [Nat.add_assoc, Nat.add_comm 1 j]
      · rw [e2]; simp

theorem trace_length (irqs : List Irq) : ∀ s : State, (trace s irqs).length = irqs.length := by
  induction irqs with
  | nil => intro s; rfl
  | cons i rest ih => intro s; simp [trace_cons, ih]


/-- The address phase of a read: the two TX-ready steps and the state in which
the receive steps start. -/
theorem read_address_phase (s : State) (dev_addr reg_addr count : Nat) (hz : count ≠ 0) :
    ∃ s1 s2 : State,
      isr Irq.tx (I2C_Master_ReadReg_arm s dev_addr reg_addr count).1 = (s1, [Ev.txbuf reg_addr])
      ∧ isr Irq.tx s1 = (s2, Ev.start :: (if count = 1 then [Ev.stop] else []))
      ∧ s2.MasterMode = .RX_DATA_MODE ∧ s2.RXByteCtr = count ∧ s2.ReceiveIndex = 0
      ∧ s2.CPUOFF = true ∧ s2.ReceiveBuffer = s.ReceiveBuffer := by
  refine ⟨{ (I2C_Master_ReadReg_arm s dev_addr reg_addr count).1 with
              MasterMode := .SWITCH_TO_RX_MODE },
          { (I2C_Master_ReadReg_arm s dev_addr reg_addr count).1 with
              MasterMode := .RX_DATA_MODE, UCRXIE := true, UCTXIE := false, UCTR := false },
          ?_, ?_, rfl, rfl, rfl, rfl, rfl⟩
  · simp [isr_tx, USCI_B0_ISR, I2C_Master_ReadReg_arm, hz]
  · simp [isr_tx, USCI_B0_ISR, I2C_Master_ReadReg_arm]

/-- C3: over a whole read of `1 <= count <= MAX_BUFFER_SIZE` bytes (two TX-ready
steps, then `count` RX steps) `USCI_B0_ISR` requests the stop (`UCTXSTP`)
exactly once.  The step that does so is step 1 (the `SWITCH_TO_RX_MODE` step
right after the register byte, which stores nothing) when `count = 1`, and
step `count` (the RX step that leaves `RXByteCtr = 1`) when `count >= 2`; in
both cases it comes before step `count + 1`, the RX step that stores the final
byte and wakes the caller. -/
theorem c3_i2c_read_stop_timing (s : State) (dev_addr reg_addr count : Nat) (bs : List Nat)
    (hlen : bs.length = count) (h1 : 1 ≤ count) (h2 : count ≤ MAX_BUFFER_SIZE) :
    (run (I2C_Master_ReadReg_arm s dev_addr reg_addr count).1
        (Irq.tx :: Irq.tx :: bs.map Irq.rx)).2.count Ev.stop = 1
    ∧ (trace (I2C_Master_ReadReg_arm s dev_addr reg_addr count).1
        (Irq.tx :: Irq.tx :: bs.map Irq.rx)).length = count + 2
    ∧ (∀ j p, (trace (I2C_Master_ReadReg_arm s dev_addr reg_addr count).1
        (Irq.tx :: Irq.tx :: bs.map Irq.rx))[j]? = some p →
        (Ev.stop ∈ p.2 ↔ j = if count = 1 then 1 else count))
    ∧ (∀ p, (trace (I2C_Master_ReadReg_arm s dev_addr reg_addr count).1
        (Irq.tx :: Irq.tx :: bs.map Irq.rx))[1]? = some p →
        p.1.MasterMode = .RX_DATA_MODE ∧ txBytes p.2 = [] ∧ rxStored p.2 = [])
    ∧ (2 ≤ count → ∀ p, (trace (I2C_Master_ReadReg_arm s dev_addr reg_addr count).1
        (Irq.tx :: Irq.tx :: bs.map Irq.rx))[count]? = some p →
        p.1.RXByteCtr = 1 ∧ rxStored p.2 = [bs.getD (count - 2) 0])
    ∧ (∀ p, (trace (I2C_Master_ReadReg_arm s dev_addr reg_addr count).1
        (Irq.tx :: Irq.tx :: bs.map Irq.rx))[count + 1]? = some p →
        p.2 = [Ev.writeRB (count - 1) (bs.getD (count - 1) 0), Ev.wake]) := by
  have hc : count < 256 := by simp [MAX_BUFFER_SIZE] at h2; omega
  have hne : bs ≠ [] := by intro hh; simp [hh] at hlen; omega
  obtain ⟨s1, s2, hstep1, hstep2, hm2, hctr2, hidx2, _, _⟩ :=
    read_address_phase s dev_addr reg_addr count (by omega)
  have hi2 : s2.ReceiveIndex + bs.length < 256 := by omega
  have hrx := run_rx_data bs s2 hne (by omega) hi2
  have htrace : trace (I2C_Master_ReadReg_arm s dev_addr reg_addr count).1
        (Irq.tx :: Irq.tx :: bs.map Irq.rx) =
      (s1, [Ev.txbuf reg_addr]) :: (s2, Ev.start :: (if count = 1 then [Ev.stop] else [])) ::
        trace s2 (bs.map Irq.rx) := by
    rw [trace_cons, hstep1]
    simp only []
    rw [trace_cons, hstep2]
  have hrxt := fun j p => trace_rx_data bs s2 j p (by omega) hi2
  refine ⟨?_, ?_, ?_, ?_, ?_, ?_⟩
  · rw [run_cons, hstep1]
    simp only []
    rw [run_cons, hstep2]
    simp only []
    rw [hrx]
    simp only [List.count_cons, List.count_append, count_stop_rxEvents, List.cons_append,
      List.nil_append]
    by_cases hone : count = 1
    · have : ¬ 2 ≤ bs.length := by omega
      simp [hone, this]
    · have : 2 ≤ bs.length := by omega
      simp [hone, this]
  · simp [trace_length, hlen]
  · intro j p hp
    rw [htrace] at hp
    match j, hp with
    | 0, hp =>
      simp only [List.getElem?_cons_zero, Option.some.injEq] at hp
      subst hp
      have h0 : ¬ 0 = count := by omega
      by_cases hone : count = 1
      · simp [hone]
      · simp [hone, h0]
    | 1, hp =>
      simp only [List.getElem?_cons_succ, List.getElem?_cons_zero, Option.some.injEq] at hp
      subst hp
      by_cases hone : count = 1
      · simp [hone]
      · have : ¬ 1 = count := by omega
        simp [hone, this]
    | j + 2, hp =>
      simp only [List.getElem?_cons_succ] at hp
      obtain ⟨e1, _⟩ := hrxt j p hp
      rw [e1]
      by_cases hone : count = 1
      · have h3 : ¬ bs.length = j + 2 := by omega
        rw [if_neg h3, if_pos hone]
        have : ¬ j + 2 = 1 := by omega
        split_ifs <;> simp [this]
      · rw [if_neg hone]
        by_cases h3 : bs.length = j + 2
        · have : j + 2 = count := by omega
          simp [h3, this]
        · have h4 : ¬ j + 2 = count := by omega
          rw [if_neg h3]
          split_ifs <;> simp [h4]
  · intro p hp
    rw [htrace] at hp
    simp only [List.getElem?_cons_succ, List.getElem?_cons_zero, Option.some.injEq] at hp
    subst hp
    refine ⟨hm2, ?_, ?_⟩
    · simp only [txBytes]; split_ifs <;> rfl
    · simp only [rxStored]; split_ifs <;> rfl
  · intro h2c p hp
    rw [htrace] at hp
    obtain ⟨k, hk⟩ : ∃ k, count = k + 2 := ⟨count - 2, by omega⟩
    rw [hk] at hp
    simp only [List.getElem?_cons_succ] at hp
    obtain ⟨e1, e2⟩ := hrxt k p hp
    refine ⟨by rw [e2]; omega, ?_⟩
    have h3 : bs.length = k + 2 := by omega
    rw [e1, hk, if_pos h3]
    simp [rxStored]
  · intro p hp
    rw [htrace] at hp
    obtain ⟨k, hk⟩ : ∃ k, count = k + 1 := ⟨count - 1, by omega⟩
    rw [hk] at hp
    simp only [List.getElem?_cons_succ] at hp
    obtain ⟨e1, _⟩ := hrxt k p hp
    have h3 : ¬ bs.length = k + 2 := by omega
    have h4 : bs.length = k + 1 := by omega
    rw [e1, hk, if_neg h3, if_pos h4, hidx2]
    simp

/-- Witness of C3: a three-byte read; the stop is requested in step 3, the RX
step that stores the second byte, and step 4 stores the last byte. -/
theorem c3_i2c_read_stop_timing_witness :
    ([0x12, 0x34, 0x56].length = 3 ∧ 1 ≤ 3 ∧ 3 ≤ MAX_BUFFER_SIZE)
    ∧ (run (I2C_Master_ReadReg_arm State.init 0x36 0x05 3).1
        (Irq.tx :: Irq.tx :: [0x12, 0x34, 0x56].map Irq.rx)).2.count Ev.stop = 1
    ∧ (∀ j p, (trace (I2C_Master_ReadReg_arm State.init 0x36 0x05 3).1
        (Irq.tx :: Irq.tx :: [0x12, 0x34, 0x56].map Irq.rx))[j]? = some p →
        (Ev.stop ∈ p.2 ↔ j = 3)) :=
  ⟨⟨rfl, by decide, by decide⟩,
   (c3_i2c_read_stop_timing State.init 0x36 0x05 3 [0x12, 0x34, 0x56] rfl
      (by decide) (by decide)).1,
   (c3_i2c_read_stop_timing State.init 0x36 0x05 3 [0x12, 0x34, 0x56] rfl
      (by decide) (by decide)).2.2.1⟩


/-- C6: `I2C_Master_WriteReg` with `count == 0` writes exactly one byte,
`reg_addr`, to `UCB0TXBUF` on the first TX-ready interrupt; the second TX-ready
interrupt requests the stop, sets `MasterMode` to `IDLE_MODE` and clears
`CPUOFF`; no step reads `TransmitBuffer` (arming does not change it either),
and the call returns `IDLE_MODE` after these two interrupts. -/
theorem c6_i2c_zero_length_write (s : State) (dev_addr reg_addr : Nat) (reg_data : Nat → Nat) :
    (isr Irq.tx (I2C_Master_WriteReg_arm s dev_addr reg_addr reg_data 0).1).2 = [Ev.txbuf reg_addr]
    ∧ (isr Irq.tx (isr Irq.tx (I2C_Master_WriteReg_arm s dev_addr reg_addr reg_data 0).1).1).2 =
        [Ev.stop, Ev.wake]
    ∧ (isr Irq.tx (isr Irq.tx
        (I2C_Master_WriteReg_arm s dev_addr reg_addr reg_data 0).1).1).1.MasterMode = .IDLE_MODE
    ∧ (isr Irq.tx (isr Irq.tx
        (I2C_Master_WriteReg_arm s dev_addr reg_addr reg_data 0).1).1).1.CPUOFF = false
    ∧ (∀ i, Ev.readTB i ∉
        (run (I2C_Master_WriteReg_arm s dev_addr reg_addr reg_data 0).1 [Irq.tx, Irq.tx]).2)
    ∧ (I2C_Master_WriteReg_arm s dev_addr reg_addr reg_data 0).1.TransmitBuffer = s.TransmitBuffer
    ∧ (I2C_Master_WriteReg s dev_addr reg_addr reg_data 0 [Irq.tx, Irq.tx]).map
        (fun r => (r.1, r.2.2)) =
        some (.IDLE_MODE, [Ev.start, Ev.txbuf reg_addr, Ev.stop, Ev.wake]) := by
  have hstep1 : isr Irq.tx (I2C_Master_WriteReg_arm s dev_addr reg_addr reg_data 0).1 =
      ({ (I2C_Master_WriteReg_arm s dev_addr reg_addr reg_data 0).1 with
          MasterMode := .TX_DATA_MODE }, [Ev.txbuf reg_addr]) := by
    simp [isr_tx, USCI_B0_ISR, I2C_Master_WriteReg_arm]
  have hstep2 : isr Irq.tx ({ (I2C_Master_WriteReg_arm s dev_addr reg_addr reg_data 0).1 with
          MasterMode := .TX_DATA_MODE }) =
      ({ (I2C_Master_WriteReg_arm s dev_addr reg_addr reg_data 0).1 with
          MasterMode := .IDLE_MODE, UCTXIE := false, CPUOFF := false }, [Ev.stop, Ev.wake]) := by
    simp [isr_tx, USCI_B0_ISR, I2C_Master_WriteReg_arm]
  refine ⟨?_, ?_, ?_, ?_, ?_, ?_, ?_⟩
  · rw [hstep1]
  · rw [hstep1]; simp only []; rw [hstep2]
  · rw [hstep1]; simp only []; rw [hstep2]
  · rw [hstep1]; simp only []; rw [hstep2]
  · intro i
    rw [run_cons, hstep1]; simp only []
    rw [run_cons, hstep2]; simp [run_nil]
  · simp [I2C_Master_WriteReg_arm, CopyArray, CopyArray_loop]
  · simp only [I2C_Master_WriteReg]
    have h1 : (isr Irq.tx (I2C_Master_WriteReg_arm s dev_addr reg_addr reg_data 0).1).1.CPUOFF = true := by
      rw [hstep1]; rfl
    have h2 : lpm_wait (I2C_Master_WriteReg_arm s dev_addr reg_addr reg_data 0).1 [Irq.tx, Irq.tx] =
        some ((isr Irq.tx (isr Irq.tx (I2C_Master_WriteReg_arm s dev_addr reg_addr reg_data 0).1).1).1,
          (isr Irq.tx (I2C_Master_WriteReg_arm s dev_addr reg_addr reg_data 0).1).2 ++
          (isr Irq.tx (isr Irq.tx (I2C_Master_WriteReg_arm s dev_addr reg_addr reg_data 0).1).1).2) := by
      have h3 : (isr Irq.tx (isr Irq.tx
          (I2C_Master_WriteReg_arm s dev_addr reg_addr reg_data 0).1).1).1.CPUOFF = false := by
        rw [hstep1]; simp only []; rw [hstep2]
      simp [lpm_wait, h1, h3]
    rw [h2, hstep1]; simp only []; rw [hstep2]
    simp [I2C_Master_WriteReg_arm]

/-- C4 fails on the code: a no-acknowledge interrupt that arrives right after
arming (`MasterMode == TX_REG_ADDRESS_MODE`) leaves `MasterMode` at
`TX_REG_ADDRESS_MODE`, produces no event and leaves `CPUOFF` set, and neither
`I2C_Master_WriteReg` nor `I2C_Master_ReadReg` returns on it. -/
theorem c4_nack_counterexample :
    (I2C_Master_WriteReg_arm State.init 0x36 0x60 Write1 2).1.MasterMode = .TX_REG_ADDRESS_MODE
    ∧ (isr Irq.nack (I2C_Master_WriteReg_arm State.init 0x36 0x60 Write1 2).1).1.MasterMode =
        .TX_REG_ADDRESS_MODE
    ∧ (isr Irq.nack (I2C_Master_WriteReg_arm State.init 0x36 0x60 Write1 2).1).2 = []
    ∧ (isr Irq.nack (I2C_Master_WriteReg_arm State.init 0x36 0x60 Write1 2).1).1.CPUOFF = true
    ∧ (I2C_Master_WriteReg State.init 0x36 0x60 Write1 2 [Irq.nack]).isNone = true
    ∧ (I2C_Master_ReadReg State.init 0x36 0x05 2 [Irq.nack]).isNone = true := by
  decide

/-- C4 as amended: `USCI_B0_ISR` ignores the no-acknowledge vector
`USCI_I2C_UCNACKIFG`.  The step changes nothing (so from `TX_REG_ADDRESS_MODE`
it enters neither `TX_DATA_MODE` nor `RX_DATA_MODE`), produces no event and
does not wake the caller; a suspended `I2C_Master_WriteReg` or
`I2C_Master_ReadReg` goes on sleeping and its outcome is that of the
interrupts that follow. -/
theorem c4_nack_is_ignored (s : State) (rx : Nat) (dev_addr reg_addr : Nat)
    (reg_data : Nat → Nat) (count : Nat) (rest : List Irq) :
    USCI_B0_ISR .USCI_I2C_UCNACKIFG rx s = (s, [])
    ∧ I2C_Master_WriteReg s dev_addr reg_addr reg_data count
        (.usci_b0 .USCI_I2C_UCNACKIFG rx :: rest) =
      I2C_Master_WriteReg s dev_addr reg_addr reg_data count rest
    ∧ I2C_Master_ReadReg s dev_addr reg_addr count (.usci_b0 .USCI_I2C_UCNACKIFG rx :: rest) =
      I2C_Master_ReadReg s dev_addr reg_addr count rest := by
  have h : ∀ t : State, t.CPUOFF = true →
      lpm_wait t (.usci_b0 .USCI_I2C_UCNACKIFG rx :: rest) = lpm_wait t rest := by
    intro t ht
    have hq : isr (.usci_b0 .USCI_I2C_UCNACKIFG rx) t = (t, []) := rfl
    simp [lpm_wait, hq, ht]
  refine ⟨rfl, ?_, ?_⟩
  · simp only [I2C_Master_WriteReg]
    rw [h _ rfl]
  · simp only [I2C_Master_ReadReg]
    rw [h _ rfl]

/-- C5 fails on the code: `count = 129` exceeds `MAX_BUFFER_SIZE`, yet
`I2C_Master_WriteReg` arms the transfer (`MasterMode` leaves `IDLE_MODE`,
`TXByteCtr = 129`) and `CopyArray` has overwritten index 128, which lies one
past the last element of `TransmitBuffer`; `I2C_Master_ReadReg` arms as well. -/
theorem c5_oversized_counterexample :
    MAX_BUFFER_SIZE < 129
    ∧ State.init.MasterMode = .IDLE_MODE
    ∧ (I2C_Master_WriteReg_arm State.init 0x36 0x60 (fun _ => 0xAA) 129).1.MasterMode =
        .TX_REG_ADDRESS_MODE
    ∧ (I2C_Master_WriteReg_arm State.init 0x36 0x60 (fun _ => 0xAA) 129).1.TXByteCtr = 129
    ∧ State.init.TransmitBuffer 128 = 0
    ∧ (I2C_Master_WriteReg_arm State.init 0x36 0x60 (fun _ => 0xAA) 129).1.TransmitBuffer 128 = 0xAA
    ∧ (I2C_Master_ReadReg_arm State.init 0x36 0x05 129).1.MasterMode = .TX_REG_ADDRESS_MODE
    ∧ (I2C_Master_ReadReg_arm State.init 0x36 0x05 129).1.RXByteCtr = 129 := by
  decide

/-- C5 as amended: `I2C_Master_WriteReg` and `I2C_Master_ReadReg` make no
capacity check.  For every `uint8_t` count the transfer is armed:
`MasterMode = TX_REG_ADDRESS_MODE`, the counter of the active direction is
`count`, and `I2C_Master_WriteReg` has stored `reg_data[i]` at
`TransmitBuffer[i]` for exactly the indices `i < count`, leaving every other
index and `ReceiveBuffer` as they were (`I2C_Master_ReadReg` leaves both
buffers as they were).  Hence no index at or beyond `MAX_BUFFER_SIZE` is
written when `count <= MAX_BUFFER_SIZE`; keeping `count` within the capacity
is left to the caller. -/
theorem c5_arming_has_no_capacity_check (s : State) (dev_addr reg_addr : Nat)
    (reg_data : Nat → Nat) (count : Nat) (h : count < 256) :
    (I2C_Master_WriteReg_arm s dev_addr reg_addr reg_data count).1.MasterMode = .TX_REG_ADDRESS_MODE
    ∧ (I2C_Master_WriteReg_arm s dev_addr reg_addr reg_data count).1.TXByteCtr = count
    ∧ (∀ i, (I2C_Master_WriteReg_arm s dev_addr reg_addr reg_data count).1.TransmitBuffer i =
        if i < count then reg_data i else s.TransmitBuffer i)
    ∧ (I2C_Master_WriteReg_arm s dev_addr reg_addr reg_data count).1.ReceiveBuffer = s.ReceiveBuffer
    ∧ (count ≤ MAX_BUFFER_SIZE → ∀ i, MAX_BUFFER_SIZE ≤ i →
        (I2C_Master_WriteReg_arm s dev_addr reg_addr reg_data count).1.TransmitBuffer i =
          s.TransmitBuffer i)
    ∧ (I2C_Master_ReadReg_arm s dev_addr reg_addr count).1.MasterMode = .TX_REG_ADDRESS_MODE
    ∧ (I2C_Master_ReadReg_arm s dev_addr reg_addr count).1.RXByteCtr = count
    ∧ (I2C_Master_ReadReg_arm s dev_addr reg_addr count).1.TransmitBuffer = s.TransmitBuffer
    ∧ (I2C_Master_ReadReg_arm s dev_addr reg_addr count).1.ReceiveBuffer = s.ReceiveBuffer := by
  refine ⟨rfl, rfl, ?_, rfl, ?_, rfl, rfl, rfl, rfl⟩
  · intro i
    exact CopyArray_get reg_data s.TransmitBuffer count h i
  · intro hc i hi
    have : ¬ i < count := by omega
    simp [I2C_Master_WriteReg_arm, CopyArray_get reg_data s.TransmitBuffer count h i, this]

/-- Witness of the amended C5 at `count = 129`. -/
theorem c5_arming_has_no_capacity_check_witness :
    129 < 256
    ∧ (I2C_Master_WriteReg_arm State.init 0x36 0x60 (fun _ => 0xAA) 129).1.TXByteCtr = 129
    ∧ (∀ i, (I2C_Master_WriteReg_arm State.init 0x36 0x60 (fun _ => 0xAA) 129).1.TransmitBuffer i =
        if i < 129 then (fun _ => 0xAA) i else State.init.TransmitBuffer i) :=
  ⟨by decide,
   (c5_arming_has_no_capacity_check State.init 0x36 0x60 (fun _ => 0xAA) 129 (by decide)).2.1,
   (c5_arming_has_no_capacity_check State.init 0x36 0x60 (fun _ => 0xAA) 129 (by decide)).2.2.1⟩


theorem b0_other (iv : I2CVector) (rx : Nat) (s : State)
    (h1 : iv ≠ .USCI_I2C_UCRXIFG0) (h2 : iv ≠ .USCI_I2C_UCTXIFG0) :
    USCI_B0_ISR iv rx s = (s, []) := by
  cases iv <;> simp_all [USCI_B0_ISR]

theorem tx_reg_addr (rx : Nat) (s : State) (hm : s.MasterMode = .TX_REG_ADDRESS_MODE) :
    USCI_B0_ISR .USCI_I2C_UCTXIFG0 rx s =
      ({ s with
          MasterMode := if s.RXByteCtr ≠ 0 then .SWITCH_TO_RX_MODE else .TX_DATA_MODE },
       [Ev.txbuf s.TransmitRegAddr]) := by
  simp [USCI_B0_ISR, hm]

theorem tx_switch (rx : Nat) (s : State) (hm : s.MasterMode = .SWITCH_TO_RX_MODE) :
    USCI_B0_ISR .USCI_I2C_UCTXIFG0 rx s =
      ({ s with UCRXIE := true, UCTXIE := false, UCTR := false, MasterMode := .RX_DATA_MODE },
       Ev.start :: (if s.RXByteCtr = 1 then [Ev.stop] else [])) := by
  simp [USCI_B0_ISR, hm]

theorem tx_data_send (rx : Nat) (s : State) (hm : s.MasterMode = .TX_DATA_MODE)
    (h : s.TXByteCtr ≠ 0) :
    USCI_B0_ISR .USCI_I2C_UCTXIFG0 rx s =
      ({ s with
          TransmitIndex := (s.TransmitIndex + 1) % 256
          TXByteCtr := (s.TXByteCtr + 255) % 256 },
       [Ev.readTB s.TransmitIndex, Ev.txbuf (s.TransmitBuffer s.TransmitIndex)]) := by
  simp [USCI_B0_ISR, hm, h]

theorem tx_data_done (rx : Nat) (s : State) (hm : s.MasterMode = .TX_DATA_MODE)
    (h : s.TXByteCtr = 0) :
    USCI_B0_ISR .USCI_I2C_UCTXIFG0 rx s =
      ({ s with MasterMode := .IDLE_MODE, UCTXIE := false, CPUOFF := false },
       [Ev.stop, Ev.wake]) := by
  simp [USCI_B0_ISR, hm, h]

theorem tx_other (rx : Nat) (s : State) (h1 : s.MasterMode ≠ .TX_REG_ADDRESS_MODE)
    (h2 : s.MasterMode ≠ .SWITCH_TO_RX_MODE) (h3 : s.MasterMode ≠ .TX_DATA_MODE) :
    USCI_B0_ISR .USCI_I2C_UCTXIFG0 rx s = (s, []) := by
  unfold USCI_B0_ISR
  cases hm : s.MasterMode <;> simp_all

/-- One `USCI_B0_ISR` step keeps `TransmitIndex + TXByteCtr` and
`ReceiveIndex + RXByteCtr`, and every buffer access of the step is below the
respective sum. -/
theorem b0_step_cursors (cT cR : Nat) (hT : cT < 256) (hR : cR < 256)
    (iv : I2CVector) (rx : Nat) (s : State)
    (h1 : s.TransmitIndex + s.TXByteCtr = cT) (h2 : s.ReceiveIndex + s.RXByteCtr = cR) :
    (USCI_B0_ISR iv rx s).1.TransmitIndex + (USCI_B0_ISR iv rx s).1.TXByteCtr = cT
    ∧ (USCI_B0_ISR iv rx s).1.ReceiveIndex + (USCI_B0_ISR iv rx s).1.RXByteCtr = cR
    ∧ ∀ e ∈ (USCI_B0_ISR iv rx s).2,
        (∀ i, e = Ev.readTB i → i < cT) ∧ (∀ i v, e = Ev.writeRB i v → i < cR) := by
  by_cases hrx : iv = .USCI_I2C_UCRXIFG0
  · subst hrx
    by_cases h0 : s.RXByteCtr = 0
    · rw [rx_idle _ _ h0]
      exact ⟨h1, h2, by simp⟩
    · have e1 : (s.ReceiveIndex + 1) % 256 = s.ReceiveIndex + 1 := Nat.mod_eq_of_lt (by omega)
      have e2 : (s.RXByteCtr + 255) % 256 = s.RXByteCtr - 1 := by omega
      rw [rx_store _ _ h0, e1, e2]
      have hlt : s.ReceiveIndex < cR := by omega
      split_ifs
      all_goals
        refine ⟨h1, by simp only []; omega, ?_⟩
        simp [hlt]
  · by_cases htx : iv = .USCI_I2C_UCTXIFG0
    · subst htx
      by_cases hm1 : s.MasterMode = .TX_REG_ADDRESS_MODE
      · rw [tx_reg_addr _ _ hm1]
        exact ⟨h1, h2, by simp⟩
      · by_cases hm2 : s.MasterMode = .SWITCH_TO_RX_MODE
        · rw [tx_switch _ _ hm2]
          refine ⟨h1, h2, ?_⟩
          split_ifs <;> simp
        · by_cases hm3 : s.MasterMode = .TX_DATA_MODE
          · by_cases h0 : s.TXByteCtr = 0
            · rw [tx_data_done _ _ hm3 h0]
              exact ⟨h1, h2, by simp⟩
            · have e1 : (s.TransmitIndex + 1) % 256 = s.TransmitIndex + 1 :=
                Nat.mod_eq_of_lt (by omega)
              have e2 : (s.TXByteCtr + 255) % 256 = s.TXByteCtr - 1 := by omega
              have hlt : s.TransmitIndex < cT := by omega
              rw [tx_data_send _ _ hm3 h0, e1, e2]
              refine ⟨by simp only []; omega, h2, ?_⟩
              simp [hlt]
          · rw [tx_other _ _ hm1 hm2 hm3]
            exact ⟨h1, h2, by simp⟩
    · rw [b0_other iv rx s hrx htx]
      exact ⟨h1, h2, by simp⟩

theorem trace_ofB0_cursors (cT cR : Nat) (hT : cT < 256) (hR : cR < 256)
    (ivs : List (I2CVector × Nat)) : ∀ s : State,
    s.TransmitIndex + s.TXByteCtr = cT → s.ReceiveIndex + s.RXByteCtr = cR →
    ∀ p ∈ trace s (Irq.ofB0 ivs),
      p.1.TransmitIndex + p.1.TXByteCtr = cT ∧ p.1.ReceiveIndex + p.1.RXByteCtr = cR
      ∧ ∀ e ∈ p.2, (∀ i, e = Ev.readTB i → i < cT) ∧ (∀ i v, e = Ev.writeRB i v → i < cR) := by
  induction ivs with
  | nil => intro s _ _ p hp; simp [Irq.ofB0, trace_nil] at hp
  | cons v rest ih =>
    intro s h1 h2 p hp
    have hstep := b0_step_cursors cT cR hT hR v.1 v.2 s h1 h2
    simp only [Irq.ofB0, List.map_cons, trace_cons, List.mem_cons] at hp
    rcases hp with hp | hp
    · subst hp
      exact hstep
    · exact ih _ hstep.1 hstep.2.1 p hp

/-- C8: for every I2C transaction armed with `count <= MAX_BUFFER_SIZE` (a write
or a read) and every sequence of eUSCI_B0 interrupts (TX-ready, RX or any other
vector, in any order), every state the handler leaves has
`TransmitIndex <= count` and `ReceiveIndex <= count`, and every access
`TransmitBuffer[i]` or `ReceiveBuffer[i]` the handler makes has `i < count`,
hence `i < MAX_BUFFER_SIZE`. -/
theorem c8_cursors_in_range (s : State) (dev_addr reg_addr : Nat) (reg_data : Nat → Nat)
    (count : Nat) (ivs : List (I2CVector × Nat)) (h : count ≤ MAX_BUFFER_SIZE) :
    (∀ p ∈ trace (I2C_Master_WriteReg_arm s dev_addr reg_addr reg_data count).1 (Irq.ofB0 ivs),
      p.1.TransmitIndex ≤ count ∧ p.1.ReceiveIndex ≤ count
      ∧ ∀ e ∈ p.2, (∀ i, e = Ev.readTB i → i < count ∧ i < MAX_BUFFER_SIZE)
          ∧ (∀ i v, e = Ev.writeRB i v → i < count ∧ i < MAX_BUFFER_SIZE))
    ∧ (∀ p ∈ trace (I2C_Master_ReadReg_arm s dev_addr reg_addr count).1 (Irq.ofB0 ivs),
      p.1.TransmitIndex ≤ count ∧ p.1.ReceiveIndex ≤ count
      ∧ ∀ e ∈ p.2, (∀ i, e = Ev.readTB i → i < count ∧ i < MAX_BUFFER_SIZE)
          ∧ (∀ i v, e = Ev.writeRB i v → i < count ∧ i < MAX_BUFFER_SIZE)) := by
  have hc : count ≤ 128 := h
  constructor
  · intro p hp
    obtain ⟨h1, h2, h3⟩ := trace_ofB0_cursors count 0 (by omega) (by omega) ivs
      (I2C_Master_WriteReg_arm s dev_addr reg_addr reg_data count).1
      (by simp [I2C_Master_WriteReg_arm]) (by simp [I2C_Master_WriteReg_arm]) p hp
    refine ⟨by omega, by omega, ?_⟩
    intro e he
    refine ⟨fun i hi => ?_, fun i v hi => ?_⟩
    · have := (h3 e he).1 i hi
      exact ⟨this, by simp only [MAX_BUFFER_SIZE]; omega⟩
    · have := (h3 e he).2 i v hi
      omega
  · intro p hp
    obtain ⟨h1, h2, h3⟩ := trace_ofB0_cursors 0 count (by omega) (by omega) ivs
      (I2C_Master_ReadReg_arm s dev_addr reg_addr count).1
      (by simp [I2C_Master_ReadReg_arm]) (by simp [I2C_Master_ReadReg_arm]) p hp
    refine ⟨by omega, by omega, ?_⟩
    intro e he
    refine ⟨fun i hi => ?_, fun i v hi => ?_⟩
    · have := (h3 e he).1 i hi
      omega
    · have := (h3 e he).2 i v hi
      exact ⟨this, by simp only [MAX_BUFFER_SIZE]; omega⟩

/-- Witness of C8: a two-byte transaction under a mixed sequence of TX-ready,
RX and no-acknowledge interrupts. -/
theorem c8_cursors_in_range_witness :
    2 ≤ MAX_BUFFER_SIZE
    ∧ (∀ p ∈ trace (I2C_Master_WriteReg_arm State.init 0x36 0x60 Write1 2).1
        (Irq.ofB0 [(.USCI_I2C_UCTXIFG0, 0), (.USCI_I2C_UCRXIFG0, 7), (.USCI_I2C_UCTXIFG0, 0),
          (.USCI_I2C_UCNACKIFG, 0), (.USCI_I2C_UCTXIFG0, 0), (.USCI_I2C_UCTXIFG0, 0)]),
      p.1.TransmitIndex ≤ 2 ∧ p.1.ReceiveIndex ≤ 2
      ∧ ∀ e ∈ p.2, (∀ i, e = Ev.readTB i → i < 2 ∧ i < MAX_BUFFER_SIZE)
          ∧ (∀ i v, e = Ev.writeRB i v → i < 2 ∧ i < MAX_BUFFER_SIZE)) :=
  ⟨by decide,
   (c8_cursors_in_range State.init 0x36 0x60 Write1 2
      [(.USCI_I2C_UCTXIFG0, 0), (.USCI_I2C_UCRXIFG0, 7), (.USCI_I2C_UCTXIFG0, 0),
        (.USCI_I2C_UCNACKIFG, 0), (.USCI_I2C_UCTXIFG0, 0), (.USCI_I2C_UCTXIFG0, 0)]
      (by decide)).1⟩


theorem rxStored_append (l1 l2 : List Ev) : rxStored (l1 ++ l2) = rxStored l1 ++ rxStored l2 := by
  induction l1 with
  | nil => rfl
  | cons e l1 ih => cases e <;> simp [rxStored, ih]

theorem enabledRun_append (l1 l2 : List Irq) : ∀ s : State,
    enabledRun s (l1 ++ l2) = (enabledRun s l1 && enabledRun (run s l1).1 l2) := by
  induction l1 with
  | nil => intro s; simp [enabledRun, run_nil]
  | cons i l1 ih => intro s; simp [enabledRun, run_cons, ih, Bool.and_assoc]

theorem ofB0_append (l1 l2 : List (I2CVector × Nat)) :
    Irq.ofB0 (l1 ++ l2) = Irq.ofB0 l1 ++ Irq.ofB0 l2 := by
  simp [Irq.ofB0]

theorem writeInv_step (reg count : Nat) (tb : Nat → Nat) (hc : count < 256)
    (iv : I2CVector) (rx : Nat) (s : State) (evs : List Ev)
    (hinv : WriteInv reg count tb s evs) (hen : (Irq.usci_b0 iv rx).enabled s = true) :
    WriteInv reg count tb (USCI_B0_ISR iv rx s).1 (evs ++ (USCI_B0_ISR iv rx s).2) := by
  obtain ⟨hb, hr, hrx0, hrxie, hph⟩ := hinv
  by_cases hrx : iv = .USCI_I2C_UCRXIFG0
  · subst hrx
    simp [Irq.enabled, hrxie] at hen
  · by_cases htx : iv = .USCI_I2C_UCTXIFG0
    · subst htx
      have htxie : s.UCTXIE = true := by simpa [Irq.enabled] using hen
      rcases hph with ⟨hm, _, hctr, hidx, hev⟩ | ⟨hm, _, hsum, hev⟩ | ⟨_, hoff, _⟩
      · rw [tx_reg_addr _ _ hm]
        refine ⟨hb, hr, hrx0, hrxie, Or.inr (Or.inl ⟨?_, htxie, ?_, ?_⟩)⟩
        · simp [hrx0]
        · simp only []; omega
        · simp [txBytes_append, txBytes, hev, hr, hidx]
      · by_cases h0 : s.TXByteCtr = 0
        · rw [tx_data_done _ _ hm h0]
          refine ⟨hb, hr, hrx0, hrxie, Or.inr (Or.inr ⟨rfl, rfl, h0, ?_, ?_⟩)⟩
          · simp only []; omega
          · have : s.TransmitIndex = count := by omega
            simp [txBytes_append, txBytes, hev, this]
        · have e1 : (s.TransmitIndex + 1) % 256 = s.TransmitIndex + 1 :=
            Nat.mod_eq_of_lt (by omega)
          have e2 : (s.TXByteCtr + 255) % 256 = s.TXByteCtr - 1 := by omega
          rw [tx_data_send _ _ hm h0, e1, e2]
          refine ⟨hb, hr, hrx0, hrxie, Or.inr (Or.inl ⟨hm, htxie, ?_, ?_⟩)⟩
          · simp only []; omega
          · simp [txBytes_append, txBytes, hev, List.range_succ, hb]
      · rw [htxie] at hoff
        cases hoff
    · rw [b0_other iv rx s hrx htx]
      simpa using ⟨hb, hr, hrx0, hrxie, hph⟩

theorem writeInv_run (reg count : Nat) (tb : Nat → Nat) (hc : count < 256)
    (ivs : List (I2CVector × Nat)) : ∀ (s : State) (evs : List Ev),
    WriteInv reg count tb s evs → enabledRun s (Irq.ofB0 ivs) = true →
    WriteInv reg count tb (run s (Irq.ofB0 ivs)).1 (evs ++ (run s (Irq.ofB0 ivs)).2) := by
  induction ivs with
  | nil => intro s evs h _; simpa [Irq.ofB0, run_nil] using h
  | cons v rest ih =>
    intro s evs h hen
    simp only [Irq.ofB0, List.map_cons, enabledRun, Bool.and_eq_true] at hen
    have hstep := writeInv_step reg count tb hc v.1 v.2 s evs h hen.1
    have := ih _ _ hstep hen.2
    simpa [Irq.ofB0, run_cons, isr, List.append_assoc] using this


theorem stored_step (s s' : State) (evs tail : List Ev) (b : Nat) (h : Stored s evs)
    (ht : rxStored tail = [])
    (hbuf : s'.ReceiveBuffer = setByte s.ReceiveBuffer s.ReceiveIndex b)
    (hidx : s'.ReceiveIndex = s.ReceiveIndex + 1) :
    Stored s' (evs ++ Ev.writeRB s.ReceiveIndex b :: tail) := by
  obtain ⟨hl, hv⟩ := h
  refine ⟨?_, ?_⟩
  · simp [rxStored_append, rxStored, ht, hl, hidx]
  · intro i hi
    rw [hidx] at hi
    rw [hbuf]
    simp only [rxStored_append, rxStored, ht]
    by_cases hlast : i = s.ReceiveIndex
    · subst hlast
      rw [setByte_same, List.getD_eq_getElem?_getD, List.getElem?_append_right (by omega)]
      simp [hl]
    · rw [setByte_other _ _ _ _ hlast, hv i (by omega), List.getD_eq_getElem?_getD,
        List.getD_eq_getElem?_getD, List.getElem?_append_left (by omega)]

theorem readInv_step (count : Nat) (hc : count < 256)
    (iv : I2CVector) (rx : Nat) (s : State) (evs : List Ev)
    (hinv : ReadInv count s evs) (hen : (Irq.usci_b0 iv rx).enabled s = true) :
    ReadInv count (USCI_B0_ISR iv rx s).1 (evs ++ (USCI_B0_ISR iv rx s).2) := by
  obtain ⟨htx0, hph⟩ := hinv
  by_cases hrx : iv = .USCI_I2C_UCRXIFG0
  · subst hrx
    have hrxie : s.UCRXIE = true := by simpa [Irq.enabled] using hen
    rcases hph with ⟨_, hoff, _⟩ | ⟨_, hoff, _⟩ | ⟨_, hoff, _⟩ |
      ⟨hm, _, htxie, hne, hsum, hst⟩ | ⟨_, hoff, _⟩
    · rw [hrxie] at hoff; cases hoff
    · rw [hrxie] at hoff; cases hoff
    · rw [hrxie] at hoff; cases hoff
    · have e1 : (s.ReceiveIndex + 1) % 256 = s.ReceiveIndex + 1 := Nat.mod_eq_of_lt (by omega)
      have e2 : (s.RXByteCtr + 255) % 256 = s.RXByteCtr - 1 := by omega
      rw [rx_store _ _ hne, e1, e2]
      split_ifs with h1 h0
      · refine ⟨htx0, Or.inr (Or.inr (Or.inr (Or.inl ⟨hm, hrxie, htxie, ?_, ?_, ?_⟩)))⟩
        · simp only []; omega
        · simp only []; omega
        · exact stored_step s _ evs [Ev.stop] rx hst rfl rfl rfl
      · refine ⟨htx0, Or.inr (Or.inr (Or.inr (Or.inr ⟨rfl, rfl, htxie, ?_, ?_, ?_⟩)))⟩
        · simp only []; omega
        · simp only []; omega
        · exact stored_step s _ evs [Ev.wake] rx hst rfl rfl rfl
      · refine ⟨htx0, Or.inr (Or.inr (Or.inr (Or.inl ⟨hm, hrxie, htxie, ?_, ?_, ?_⟩)))⟩
        · simp only []; omega
        · simp only []; omega
        · exact stored_step s _ evs [] rx hst rfl rfl rfl
    · rw [hrxie] at hoff; cases hoff
  · by_cases htx : iv = .USCI_I2C_UCTXIFG0
    · subst htx
      have htxie : s.UCTXIE = true := by simpa [Irq.enabled] using hen
      rcases hph with ⟨hm, hrxie, _, hctr, hidx, hev⟩ | ⟨hm, hrxie, _, hctr, hcne, hidx, hev⟩ |
        ⟨hm, hrxie, _, hctr, hc0, hidx, hev⟩ | ⟨_, _, hoff, _⟩ | ⟨_, _, hoff, _⟩
      · rw [tx_reg_addr _ _ hm]
        by_cases hz : count = 0
        · have : s.RXByteCtr = 0 := by omega
          refine ⟨htx0, Or.inr (Or.inr (Or.inl ⟨?_, hrxie, htxie, this, hz, hidx, ?_⟩))⟩
          · simp [this]
          · simp [rxStored_append, rxStored, hev]
        · have : s.RXByteCtr ≠ 0 := by omega
          refine ⟨htx0, Or.inr (Or.inl ⟨?_, hrxie, htxie, hctr, hz, hidx, ?_⟩)⟩
          · simp [this]
          · simp [rxStored_append, rxStored, hev]
      · rw [tx_switch _ _ hm]
        refine ⟨htx0, Or.inr (Or.inr (Or.inr (Or.inl ⟨rfl, rfl, rfl, ?_, ?_, ?_, ?_⟩)))⟩
        · simp only []; omega
        · simp only []; omega
        · simp only [rxStored_append, rxStored, hev, hidx]
          split_ifs <;> rfl
        · intro i hi
          simp only [hidx] at hi
          omega
      · rw [tx_data_done _ _ hm htx0]
        refine ⟨htx0, Or.inr (Or.inr (Or.inr (Or.inr ⟨rfl, hrxie, rfl, hctr, ?_, ?_, ?_⟩)))⟩
        · simp only []; omega
        · simp [rxStored_append, rxStored, hev, hidx]
        · intro i hi
          simp only [hidx] at hi
          omega
      · rw [htxie] at hoff; cases hoff
      · rw [htxie] at hoff; cases hoff
    · rw [b0_other iv rx s hrx htx]
      simpa using ⟨htx0, hph⟩

theorem readInv_run (count : Nat) (hc : count < 256)
    (ivs : List (I2CVector × Nat)) : ∀ (s : State) (evs : List Ev),
    ReadInv count s evs → enabledRun s (Irq.ofB0 ivs) = true →
    ReadInv count (run s (Irq.ofB0 ivs)).1 (evs ++ (run s (Irq.ofB0 ivs)).2) := by
  induction ivs with
  | nil => intro s evs h _; simpa [Irq.ofB0, run_nil] using h
  | cons v rest ih =>
    intro s evs h hen
    simp only [Irq.ofB0, List.map_cons, enabledRun, Bool.and_eq_true] at hen
    have hstep := readInv_step count hc v.1 v.2 s evs h hen.1
    have := ih _ _ hstep hen.2
    simpa [Irq.ofB0, run_cons, isr, List.append_assoc] using this


/-- C9: take an I2C transaction armed with `count <= MAX_BUFFER_SIZE` (a write or
a read) and any sequence of eUSCI_B0 interrupts in which an RX interrupt
arrives only while `UCRXIE` is set and a TX-ready interrupt only while `UCTXIE`
is set.  If the last step of the sequence clears `CPUOFF`, then after it
`RXByteCtr = 0`, `TXByteCtr = 0` and `MasterMode = IDLE_MODE`; for a write all
bytes have been written to `UCB0TXBUF` by then (`reg_addr`, then the `count`
payload bytes, `TransmitIndex = count`); for a read all `count` bytes have been
stored (`ReceiveIndex = count` and `ReceiveBuffer` holds the `count` stored
bytes in order).  Every step of an enabled sequence is the last step of an
enabled sequence, so no earlier step wakes the caller. -/
theorem c9_wake_only_after_last_byte (s : State) (dev_addr reg_addr : Nat)
    (reg_data : Nat → Nat) (count : Nat) (a : State) (ivs : List (I2CVector × Nat))
    (iv : I2CVector) (rx : Nat) (hc : count ≤ MAX_BUFFER_SIZE)
    (ha : a = (I2C_Master_WriteReg_arm s dev_addr reg_addr reg_data count).1 ∨
      a = (I2C_Master_ReadReg_arm s dev_addr reg_addr count).1)
    (hen : enabledRun a (Irq.ofB0 (ivs ++ [(iv, rx)])) = true)
    (hw : Ev.wake ∈ (USCI_B0_ISR iv rx (run a (Irq.ofB0 ivs)).1).2) :
    (run a (Irq.ofB0 (ivs ++ [(iv, rx)]))).1.RXByteCtr = 0
    ∧ (run a (Irq.ofB0 (ivs ++ [(iv, rx)]))).1.TXByteCtr = 0
    ∧ (run a (Irq.ofB0 (ivs ++ [(iv, rx)]))).1.MasterMode = .IDLE_MODE
    ∧ (a = (I2C_Master_WriteReg_arm s dev_addr reg_addr reg_data count).1 →
        (run a (Irq.ofB0 (ivs ++ [(iv, rx)]))).1.TransmitIndex = count
        ∧ txBytes (run a (Irq.ofB0 (ivs ++ [(iv, rx)]))).2 =
            reg_addr :: (List.range count).map reg_data)
    ∧ (a = (I2C_Master_ReadReg_arm s dev_addr reg_addr count).1 →
        (run a (Irq.ofB0 (ivs ++ [(iv, rx)]))).1.ReceiveIndex = count
        ∧ (rxStored (run a (Irq.ofB0 (ivs ++ [(iv, rx)]))).2).length = count
        ∧ ∀ i, i < count →
            (run a (Irq.ofB0 (ivs ++ [(iv, rx)]))).1.ReceiveBuffer i =
              (rxStored (run a (Irq.ofB0 (ivs ++ [(iv, rx)]))).2).getD i 0) := by
  have hc' : count < 256 := by simp [MAX_BUFFER_SIZE] at hc; omega
  have hlast : (run a (Irq.ofB0 (ivs ++ [(iv, rx)]))).1 =
      (USCI_B0_ISR iv rx (run a (Irq.ofB0 ivs)).1).1 := by
    rw [ofB0_append, run_append]
    simp [Irq.ofB0, run_cons, run_nil, isr]
  have hidle : (run a (Irq.ofB0 (ivs ++ [(iv, rx)]))).1.MasterMode = .IDLE_MODE := by
    rw [hlast]
    exact (USCI_B0_ISR_wake iv rx _ hw).1
  have hW : a = (I2C_Master_WriteReg_arm s dev_addr reg_addr reg_data count).1 →
      (run a (Irq.ofB0 (ivs ++ [(iv, rx)]))).1.RXByteCtr = 0
      ∧ (run a (Irq.ofB0 (ivs ++ [(iv, rx)]))).1.TXByteCtr = 0
      ∧ (run a (Irq.ofB0 (ivs ++ [(iv, rx)]))).1.TransmitIndex = count
      ∧ txBytes (run a (Irq.ofB0 (ivs ++ [(iv, rx)]))).2 =
          reg_addr :: (List.range count).map reg_data := by
    intro hw0
    have h0 : WriteInv reg_addr count (CopyArray reg_data s.TransmitBuffer count) a [] := by
      subst hw0
      exact ⟨rfl, rfl, rfl, rfl, Or.inl ⟨rfl, rfl, rfl, rfl, rfl⟩⟩
    have h1 := writeInv_run reg_addr count _ hc' (ivs ++ [(iv, rx)]) a [] h0 hen
    obtain ⟨_, _, hrx0, _, hph⟩ := h1
    rcases hph with ⟨hm, _⟩ | ⟨hm, _⟩ | ⟨_, _, htx0, hidx, hev⟩
    · rw [hidle] at hm; cases hm
    · rw [hidle] at hm; cases hm
    · refine ⟨hrx0, htx0, hidx, ?_⟩
      rw [List.nil_append] at hev
      rw [hev]
      congr 1
      apply List.map_congr_left
      intro n hn
      have hn' : n < count := List.mem_range.mp hn
      simp [CopyArray_get _ _ _ hc', hn']
  have hR : a = (I2C_Master_ReadReg_arm s dev_addr reg_addr count).1 →
      (run a (Irq.ofB0 (ivs ++ [(iv, rx)]))).1.RXByteCtr = 0
      ∧ (run a (Irq.ofB0 (ivs ++ [(iv, rx)]))).1.TXByteCtr = 0
      ∧ (run a (Irq.ofB0 (ivs ++ [(iv, rx)]))).1.ReceiveIndex = count
      ∧ (rxStored (run a (Irq.ofB0 (ivs ++ [(iv, rx)]))).2).length = count
      ∧ ∀ i, i < count →
          (run a (Irq.ofB0 (ivs ++ [(iv, rx)]))).1.ReceiveBuffer i =
            (rxStored (run a (Irq.ofB0 (ivs ++ [(iv, rx)]))).2).getD i 0 := by
    intro hr0
    have h0 : ReadInv count a [] := by
      subst hr0
      exact ⟨rfl, Or.inl ⟨rfl, rfl, rfl, rfl, rfl, rfl⟩⟩
    have h1 := readInv_run count hc' (ivs ++ [(iv, rx)]) a [] h0 hen
    obtain ⟨htx0, hph⟩ := h1
    rcases hph with ⟨hm, _⟩ | ⟨hm, _⟩ | ⟨hm, _⟩ | ⟨hm, _⟩ | ⟨_, _, _, hrx0, hidx, hst⟩
    · rw [hidle] at hm; cases hm
    · rw [hidle] at hm; cases hm
    · rw [hidle] at hm; cases hm
    · rw [hidle] at hm; cases hm
    · rw [List.nil_append] at hst
      obtain ⟨hl, hv⟩ := hst
      rw [hidx] at hl hv
      exact ⟨hrx0, htx0, hidx, hl, hv⟩
  refine ⟨?_, ?_, hidle, fun h => ⟨(hW h).2.2.1, (hW h).2.2.2⟩,
    fun h => ⟨(hR h).2.2.1, (hR h).2.2.2.1, (hR h).2.2.2.2⟩⟩
  · rcases ha with h | h
    · exact (hW h).1
    · exact (hR h).1
  · rcases ha with h | h
    · exact (hW h).2.1
    · exact (hR h).2.1

/-- Witness of C9: the two-byte write of `Write1` to register `0x60`; its fourth
TX-ready step is the one that wakes the caller. -/
theorem c9_wake_only_after_last_byte_witness :
    2 ≤ MAX_BUFFER_SIZE
    ∧ enabledRun (I2C_Master_WriteReg_arm State.init 0x36 0x60 Write1 2).1
        (Irq.ofB0 ([(.USCI_I2C_UCTXIFG0, 0), (.USCI_I2C_UCTXIFG0, 0), (.USCI_I2C_UCTXIFG0, 0)] ++
          [(.USCI_I2C_UCTXIFG0, 0)])) = true
    ∧ Ev.wake ∈ (USCI_B0_ISR .USCI_I2C_UCTXIFG0 0
        (run (I2C_Master_WriteReg_arm State.init 0x36 0x60 Write1 2).1
          (Irq.ofB0 [(.USCI_I2C_UCTXIFG0, 0), (.USCI_I2C_UCTXIFG0, 0),
            (.USCI_I2C_UCTXIFG0, 0)])).1).2
    ∧ (run (I2C_Master_WriteReg_arm State.init 0x36 0x60 Write1 2).1
        (Irq.ofB0 ([(.USCI_I2C_UCTXIFG0, 0), (.USCI_I2C_UCTXIFG0, 0), (.USCI_I2C_UCTXIFG0, 0)] ++
          [(.USCI_I2C_UCTXIFG0, 0)]))).1.TXByteCtr = 0 :=
  ⟨by decide, by decide, by decide,
   (c9_wake_only_after_last_byte State.init 0x36 0x60 Write1 2
      (I2C_Master_WriteReg_arm State.init 0x36 0x60 Write1 2).1
      [(.USCI_I2C_UCTXIFG0, 0), (.USCI_I2C_UCTXIFG0, 0), (.USCI_I2C_UCTXIFG0, 0)]
      .USCI_I2C_UCTXIFG0 0 (by decide) (Or.inl rfl) (by decide) (by decide)).2.1⟩


theorem lpm_wait_idle (irqs : List Irq) : ∀ (s : State) (q : State × List Ev),
    s.CPUOFF = true → Irq.timer0_a0 ∉ irqs → lpm_wait s irqs = some q →
    q.1.MasterMode = .IDLE_MODE ∧ q.1.CPUOFF = false := by
  induction irqs with
  | nil => intro s q _ _ h; simp [lpm_wait] at h
  | cons i rest ih =>
    intro s q hs hno h
    simp only [List.mem_cons, not_or] at hno
    by_cases hoff : (isr i s).1.CPUOFF = true
    · have h2 : lpm_wait s (i :: rest) =
          (lpm_wait (isr i s).1 rest).map (fun q => (q.1, (isr i s).2 ++ q.2)) := by
        simp [lpm_wait, hoff]
      rw [h2] at h
      cases hw : lpm_wait (isr i s).1 rest with
      | none => rw [hw] at h; simp at h
      | some q' =>
        rw [hw] at h
        simp only [Option.map_some', Option.some.injEq] at h
        subst h
        exact ih _ q' hoff hno.2 hw
    · have hoff' : (isr i s).1.CPUOFF = false := by simpa using hoff
      rw [lpm_wait_wake _ _ _ hoff'] at h
      simp only [Option.some.injEq] at h
      subst h
      have hwake : Ev.wake ∈ (isr i s).2 := by
        by_contra hn
        rw [isr_no_wake i s hn, hs] at hoff'
        cases hoff'
      refine ⟨?_, hoff'⟩
      cases i with
      | usci_b0 iv rx => exact (USCI_B0_ISR_wake iv rx s hwake).1
      | usci_a1 iv rx => exact (USCI_A1_ISR_wake iv rx s hwake).1
      | timer0_a0 => exact absurd rfl hno.1

/-- C10 fails on the code: `Timer_A` clears `CPUOFF` without touching
`MasterMode`.  Delivered to a caller that has just armed a two-byte read, it
wakes the caller with `MasterMode == TX_REG_ADDRESS_MODE`, and
`I2C_Master_ReadReg` returns `TX_REG_ADDRESS_MODE`, not `IDLE_MODE`. -/
theorem c10_timer_counterexample :
    Ev.wake ∈ (Timer_A (I2C_Master_ReadReg_arm State.init 0x36 0x05 2).1).2
    ∧ (Timer_A (I2C_Master_ReadReg_arm State.init 0x36 0x05 2).1).1.CPUOFF = false
    ∧ (Timer_A (I2C_Master_ReadReg_arm State.init 0x36 0x05 2).1).1.MasterMode =
        .TX_REG_ADDRESS_MODE
    ∧ (I2C_Master_ReadReg State.init 0x36 0x05 2 [Irq.timer0_a0]).map (fun r => r.1) =
        some .TX_REG_ADDRESS_MODE := by
  decide

/-- C10 as amended: every `USCI_B0_ISR` step and every `USCI_A1_ISR` step that
clears `CPUOFF` on exit leaves `MasterMode == IDLE_MODE`, whereas `Timer_A`
clears `CPUOFF` and leaves `MasterMode` as it was.  So a caller that sleeps
(inside `I2C_Master_ReadReg`, `I2C_Master_WriteReg` or `SPI_Master_WriteReg`)
and is resumed while no `Timer_A` interrupt arrives is resumed by the
completion of a transaction and returns `IDLE_MODE`. -/
theorem c10_woken_by_usci_returns_idle (s : State) (irqs : List Irq) (q : State × List Ev)
    (hs : s.CPUOFF = true) (hno : Irq.timer0_a0 ∉ irqs) (hq : lpm_wait s irqs = some q) :
    q.1.MasterMode = .IDLE_MODE
    ∧ q.1.CPUOFF = false
    ∧ (∀ (t : State) (iv : I2CVector) (rx : Nat), Ev.wake ∈ (USCI_B0_ISR iv rx t).2 →
        (USCI_B0_ISR iv rx t).1.MasterMode = .IDLE_MODE)
    ∧ (∀ (t : State) (iv : SPIVector) (rx : Nat), Ev.wake ∈ (USCI_A1_ISR iv rx t).2 →
        (USCI_A1_ISR iv rx t).1.MasterMode = .IDLE_MODE)
    ∧ (∀ t : State, (Timer_A t).2 = [Ev.wake] ∧ (Timer_A t).1.CPUOFF = false
        ∧ (Timer_A t).1.MasterMode = t.MasterMode) :=
  ⟨(lpm_wait_idle irqs s q hs hno hq).1, (lpm_wait_idle irqs s q hs hno hq).2,
   fun t iv rx h => (USCI_B0_ISR_wake iv rx t h).1,
   fun t iv rx h => (USCI_A1_ISR_wake iv rx t h).1, fun _ => ⟨rfl, rfl, rfl⟩⟩

/-- Witness of C10 as amended: the two-byte write of `Write1`, resumed by its
fourth TX-ready interrupt. -/
theorem c10_woken_by_usci_returns_idle_witness :
    (I2C_Master_WriteReg_arm State.init 0x36 0x60 Write1 2).1.CPUOFF = true
    ∧ Irq.timer0_a0 ∉ List.replicate 4 Irq.tx
    ∧ lpm_wait (I2C_Master_WriteReg_arm State.init 0x36 0x60 Write1 2).1
        (List.replicate 4 Irq.tx) =
        some (run (I2C_Master_WriteReg_arm State.init 0x36 0x60 Write1 2).1
          (List.replicate 4 Irq.tx))
    ∧ (run (I2C_Master_WriteReg_arm State.init 0x36 0x60 Write1 2).1
        (List.replicate 4 Irq.tx)).1.MasterMode = .IDLE_MODE :=
  ⟨by decide, by decide, rfl,
   (c10_woken_by_usci_returns_idle (I2C_Master_WriteReg_arm State.init 0x36 0x60 Write1 2).1
      (List.replicate 4 Irq.tx)
      (run (I2C_Master_WriteReg_arm State.init 0x36 0x60 Write1 2).1 (List.replicate 4 Irq.tx))
      (by decide) (by decide) rfl).1⟩


theorem sameEngine_step (cT : Nat) (hT : cT < 256) (iv : I2CVector) (rx : Nat)
    (s t : State) (h : SameEngine cT s t) :
    (USCI_B0_ISR iv rx s).2 = (USCI_B0_ISR iv rx t).2 ∧
      SameEngine cT (USCI_B0_ISR iv rx s).1 (USCI_B0_ISR iv rx t).1 := by
  obtain ⟨hm, hr, hrc, hri, htc, hti, hcpu, hbuf, hsum⟩ := h
  unfold SameEngine
  by_cases hrx : iv = .USCI_I2C_UCRXIFG0
  · subst hrx
    by_cases h0 : s.RXByteCtr = 0
    · rw [rx_idle _ _ h0, rx_idle _ _ (hrc ▸ h0)]
      exact ⟨rfl, rfl, hr, hrc, hri, htc, hti, rfl, hbuf, hsum⟩
    · rw [rx_store _ _ h0, rx_store _ _ (hrc ▸ h0), ← hrc, ← hri]
      split_ifs
      all_goals
        refine ⟨?_, ?_, ?_, ?_, ?_, ?_, ?_, ?_, ?_, ?_⟩ <;> simp only [] <;>
          first | rfl | assumption
  · by_cases htx : iv = .USCI_I2C_UCTXIFG0
    · subst htx
      by_cases hm1 : s.MasterMode = .TX_REG_ADDRESS_MODE
      · rw [tx_reg_addr _ _ hm1, tx_reg_addr _ _ (hm ▸ hm1), ← hrc, ← hr]
        refine ⟨?_, ?_, ?_, ?_, ?_, ?_, ?_, ?_, ?_, ?_⟩ <;> simp only [] <;>
          first | rfl | assumption
      · by_cases hm2 : s.MasterMode = .SWITCH_TO_RX_MODE
        · rw [tx_switch _ _ hm2, tx_switch _ _ (hm ▸ hm2), ← hrc]
          refine ⟨?_, ?_, ?_, ?_, ?_, ?_, ?_, ?_, ?_, ?_⟩ <;> simp only [] <;>
            first | rfl | assumption
        · by_cases hm3 : s.MasterMode = .TX_DATA_MODE
          · by_cases h0 : s.TXByteCtr = 0
            · rw [tx_data_done _ _ hm3 h0, tx_data_done _ _ (hm ▸ hm3) (htc ▸ h0)]
              exact ⟨rfl, rfl, hr, hrc, hri, htc, hti, rfl, hbuf, hsum⟩
            · have hlt : s.TransmitIndex < cT := by omega
              have e1 : (s.TransmitIndex + 1) % 256 = s.TransmitIndex + 1 :=
                Nat.mod_eq_of_lt (by omega)
              have e2 : (s.TXByteCtr + 255) % 256 = s.TXByteCtr - 1 := by omega
              rw [tx_data_send _ _ hm3 h0, tx_data_send _ _ (hm ▸ hm3) (htc ▸ h0),
                ← htc, ← hti, hbuf _ hlt, e1, e2]
              refine ⟨?_, ?_, ?_, ?_, ?_, ?_, ?_, ?_, ?_, ?_⟩ <;> simp only [] <;>
                first | rfl | assumption | omega
          · rw [tx_other _ _ hm1 hm2 hm3,
              tx_other _ _ (hm ▸ hm1) (hm ▸ hm2) (hm ▸ hm3)]
            exact ⟨rfl, hm, hr, hrc, hri, htc, hti, hcpu, hbuf, hsum⟩
    · rw [b0_other iv rx s hrx htx, b0_other iv rx t hrx htx]
      exact ⟨rfl, hm, hr, hrc, hri, htc, hti, hcpu, hbuf, hsum⟩

theorem sameEngine_run (cT : Nat) (hT : cT < 256) (ivs : List (I2CVector × Nat)) :
    ∀ s t : State, SameEngine cT s t →
      (run s (Irq.ofB0 ivs)).2 = (run t (Irq.ofB0 ivs)).2 ∧
      SameEngine cT (run s (Irq.ofB0 ivs)).1 (run t (Irq.ofB0 ivs)).1 := by
  induction ivs with
  | nil => intro s t h; exact ⟨rfl, h⟩
  | cons v rest ih =>
    intro s t h
    obtain ⟨he, hs⟩ := sameEngine_step cT hT v.1 v.2 s t h
    obtain ⟨he2, hs2⟩ := ih _ _ hs
    simp only [Irq.ofB0, List.map_cons, run_cons, isr] at he2 hs2 ⊢
    exact ⟨by rw [he, he2], hs2⟩

theorem sameEngine_wait (cT : Nat) (hT : cT < 256) (ivs : List (I2CVector × Nat)) :
    ∀ s t : State, SameEngine cT s t →
      (lpm_wait s (Irq.ofB0 ivs)).map (fun q => (q.1.MasterMode, q.2)) =
        (lpm_wait t (Irq.ofB0 ivs)).map (fun q => (q.1.MasterMode, q.2)) := by
  induction ivs with
  | nil => intro s t _; rfl
  | cons v rest ih =>
    intro s t h
    obtain ⟨he, hs⟩ := sameEngine_step cT hT v.1 v.2 s t h
    have hcpu : (USCI_B0_ISR v.1 v.2 s).1.CPUOFF = (USCI_B0_ISR v.1 v.2 t).1.CPUOFF := hs.2.2.2.2.2.2.1
    have hmode : (USCI_B0_ISR v.1 v.2 s).1.MasterMode = (USCI_B0_ISR v.1 v.2 t).1.MasterMode := hs.1
    have ih2 := ih _ _ hs
    simp only [Irq.ofB0, List.map_cons, lpm_wait, isr] at ih2 ⊢
    rw [← hcpu]
    by_cases hc : (USCI_B0_ISR v.1 v.2 s).1.CPUOFF = true
    · simp only [hc, if_true, Option.map_map]
      rw [← he]
      have := congrArg (Option.map (fun q : I2C_Mode × List Ev =>
        (q.1, (USCI_B0_ISR v.1 v.2 s).2 ++ q.2))) ih2
      simpa [Option.map_map, Function.comp_def] using this
    · simp [hc, hmode, he]

/-- A write is complete after `count + 2` TX-ready interrupts. -/
theorem run_write_complete (s : State) (dev_addr reg_addr : Nat) (reg_data : Nat → Nat)
    (count : Nat) (h : count < 256) :
    (run (I2C_Master_WriteReg_arm s dev_addr reg_addr reg_data count).1
      (List.replicate (count + 2) Irq.tx)).1.MasterMode = .IDLE_MODE := by
  have happ : List.replicate (count + 2) Irq.tx =
      List.replicate (count + 1) Irq.tx ++ [Irq.tx] := by
    rw [List.replicate_succ']
  rw [happ, run_append, run_write_frame s dev_addr reg_addr reg_data count h]
  simp [run_cons, run_nil, isr_tx, USCI_B0_ISR]

/-- A read of `count >= 1` bytes is complete after two TX-ready and `count` RX
interrupts. -/
theorem run_read_complete (s : State) (dev_addr reg_addr count : Nat) (bs : List Nat)
    (hlen : bs.length = count) (h1 : 1 ≤ count) (h : count < 256) :
    (run (I2C_Master_ReadReg_arm s dev_addr reg_addr count).1
      (Irq.tx :: Irq.tx :: bs.map Irq.rx)).1.MasterMode = .IDLE_MODE := by
  have hne : bs ≠ [] := by intro hh; simp [hh] at hlen; omega
  obtain ⟨s1, s2, hstep1, hstep2, _, hctr2, hidx2, _, _⟩ :=
    read_address_phase s dev_addr reg_addr count (by omega)
  rw [run_cons, hstep1]
  simp only []
  rw [run_cons, hstep2]
  simp only []
  rw [run_rx_data bs s2 hne (by omega) (by omega)]

/-- C11: arming the same I2C transaction (same `dev_addr`, `reg_addr`, data and
`count <= MAX_BUFFER_SIZE`) from any two engine states `s1` and `s2`, for
instance the start-up state and the state a completed transaction has left,
and delivering the same eUSCI_B0 interrupts produces the same events: the
same bytes written to `UCB0TXBUF`, the same start and stop requests, the same
buffer accesses and wake-up, in the same order.  The two runs are in the same
`MasterMode` afterwards, the two calls return the same status after the same
events, and the interrupts that complete the transaction leave
`MasterMode == IDLE_MODE` from either state. -/
theorem c11_idempotence (s1 s2 : State) (dev_addr reg_addr : Nat) (reg_data : Nat → Nat)
    (count : Nat) (ivs : List (I2CVector × Nat)) (h : count ≤ MAX_BUFFER_SIZE) :
    ((run (I2C_Master_WriteReg_arm s1 dev_addr reg_addr reg_data count).1 (Irq.ofB0 ivs)).2 =
        (run (I2C_Master_WriteReg_arm s2 dev_addr reg_addr reg_data count).1 (Irq.ofB0 ivs)).2
      ∧ (run (I2C_Master_WriteReg_arm s1 dev_addr reg_addr reg_data count).1
            (Irq.ofB0 ivs)).1.MasterMode =
          (run (I2C_Master_WriteReg_arm s2 dev_addr reg_addr reg_data count).1
            (Irq.ofB0 ivs)).1.MasterMode
      ∧ (I2C_Master_WriteReg s1 dev_addr reg_addr reg_data count (Irq.ofB0 ivs)).map
            (fun r => (r.1, r.2.2)) =
          (I2C_Master_WriteReg s2 dev_addr reg_addr reg_data count (Irq.ofB0 ivs)).map
            (fun r => (r.1, r.2.2)))
    ∧ ((run (I2C_Master_ReadReg_arm s1 dev_addr reg_addr count).1 (Irq.ofB0 ivs)).2 =
        (run (I2C_Master_ReadReg_arm s2 dev_addr reg_addr count).1 (Irq.ofB0 ivs)).2
      ∧ (run (I2C_Master_ReadReg_arm s1 dev_addr reg_addr count).1
            (Irq.ofB0 ivs)).1.MasterMode =
          (run (I2C_Master_ReadReg_arm s2 dev_addr reg_addr count).1
            (Irq.ofB0 ivs)).1.MasterMode
      ∧ (I2C_Master_ReadReg s1 dev_addr reg_addr count (Irq.ofB0 ivs)).map
            (fun r => (r.1, r.2.2)) =
          (I2C_Master_ReadReg s2 dev_addr reg_addr count (Irq.ofB0 ivs)).map
            (fun r => (r.1, r.2.2)))
    ∧ (run (I2C_Master_WriteReg_arm s1 dev_addr reg_addr reg_data count).1
          (List.replicate (count + 2) Irq.tx)).1.MasterMode = .IDLE_MODE
    ∧ (run (I2C_Master_WriteReg_arm s2 dev_addr reg_addr reg_data count).1
          (List.replicate (count + 2) Irq.tx)).1.MasterMode = .IDLE_MODE
    ∧ (∀ bs : List Nat, bs.length = count → 1 ≤ count →
        (run (I2C_Master_ReadReg_arm s1 dev_addr reg_addr count).1
          (Irq.tx :: Irq.tx :: bs.map Irq.rx)).1.MasterMode = .IDLE_MODE
        ∧ (run (I2C_Master_ReadReg_arm s2 dev_addr reg_addr count).1
          (Irq.tx :: Irq.tx :: bs.map Irq.rx)).1.MasterMode = .IDLE_MODE) := by
  have hc : count < 256 := by simp [MAX_BUFFER_SIZE] at h; omega
  have hW : SameEngine count (I2C_Master_WriteReg_arm s1 dev_addr reg_addr reg_data count).1
      (I2C_Master_WriteReg_arm s2 dev_addr reg_addr reg_data count).1 := by
    refine ⟨rfl, rfl, rfl, rfl, rfl, rfl, rfl, ?_, by simp [I2C_Master_WriteReg_arm]⟩
    intro i hi
    simp [I2C_Master_WriteReg_arm, CopyArray_get _ _ _ hc, hi]
  have hR : SameEngine 0 (I2C_Master_ReadReg_arm s1 dev_addr reg_addr count).1
      (I2C_Master_ReadReg_arm s2 dev_addr reg_addr count).1 := by
    refine ⟨rfl, rfl, rfl, rfl, rfl, rfl, rfl, ?_, rfl⟩
    intro i hi
    omega
  have hW1 := sameEngine_run count hc ivs _ _ hW
  have hW2 := sameEngine_wait count hc ivs _ _ hW
  have hR1 := sameEngine_run 0 (by omega) ivs _ _ hR
  have hR2 := sameEngine_wait 0 (by omega) ivs _ _ hR
  refine ⟨⟨hW1.1, hW1.2.1, ?_⟩, ⟨hR1.1, hR1.2.1, ?_⟩,
    run_write_complete s1 dev_addr reg_addr reg_data count hc,
    run_write_complete s2 dev_addr reg_addr reg_data count hc,
    fun bs hlen h1 => ⟨run_read_complete s1 dev_addr reg_addr count bs hlen h1 hc,
      run_read_complete s2 dev_addr reg_addr count bs hlen h1 hc⟩⟩
  · have := congrArg (Option.map (fun q : I2C_Mode × List Ev => (q.1, Ev.start :: q.2))) hW2
    simpa [I2C_Master_WriteReg, I2C_Master_WriteReg_arm, Option.map_map, Function.comp_def]
      using this
  · have := congrArg (Option.map (fun q : I2C_Mode × List Ev => (q.1, Ev.start :: q.2))) hR2
    simpa [I2C_Master_ReadReg, I2C_Master_ReadReg_arm, Option.map_map, Function.comp_def]
      using this

/-- Witness of C11: the two-byte write of `Write1`, armed from the start-up state
and from the state its own completion has left. -/
theorem c11_idempotence_witness :
    2 ≤ MAX_BUFFER_SIZE
    ∧ (run (I2C_Master_WriteReg_arm State.init 0x36 0x60 Write1 2).1
          (Irq.ofB0 (List.replicate 4 (.USCI_I2C_UCTXIFG0, 0)))).2 =
        (run (I2C_Master_WriteReg_arm
            (run (I2C_Master_WriteReg_arm State.init 0x36 0x60 Write1 2).1
              (List.replicate 4 Irq.tx)).1 0x36 0x60 Write1 2).1
          (Irq.ofB0 (List.replicate 4 (.USCI_I2C_UCTXIFG0, 0)))).2 :=
  ⟨by decide,
   (c11_idempotence State.init
      (run (I2C_Master_WriteReg_arm State.init 0x36 0x60 Write1 2).1
        (List.replicate 4 Irq.tx)).1 0x36 0x60 Write1 2
      (List.replicate 4 (.USCI_I2C_UCTXIFG0, 0)) (by decide)).1.1⟩


theorem trace_tx_data (k : Nat) : ∀ s : State,
    s.MasterMode = .TX_DATA_MODE → s.TXByteCtr = k → s.TransmitIndex + k < 256 →
    (trace s (List.replicate k Irq.tx)).map phaseOf =
      (List.range k).map (fun i => (I2C_Mode.TX_DATA_MODE, k - 1 - i, s.RXByteCtr)) := by
  induction k with
  | zero => intro s _ _ _; rfl
  | succ k ih =>
    intro s hm hc hi
    have h1 : (s.TransmitIndex + 1) % 256 = s.TransmitIndex + 1 := Nat.mod_eq_of_lt (by omega)
    have h2 : (k + 1 + 255) % 256 = k := by omega
    have hstep : isr Irq.tx s =
        ({ s with TransmitIndex := s.TransmitIndex + 1, TXByteCtr := k },
         [Ev.readTB s.TransmitIndex, Ev.txbuf (s.TransmitBuffer s.TransmitIndex)]) := by
      rw [isr_tx, tx_data_send _ _ hm (by omega), hc, h1, h2]
    rw [List.replicate_succ, trace_cons, hstep, List.range_succ_eq_map, List.map_cons,
      List.map_cons, List.map_map]
    simp only []
    rw [ih ({ s with TransmitIndex := s.TransmitIndex + 1, TXByteCtr := k }) hm rfl
      (by simp only []; omega)]
    congr 1
    · simp [phaseOf, hm]
    · apply List.map_congr_left
      intro i _
      simp only [Function.comp, Nat.succ_eq_add_one]
      congr 2
      omega

theorem trace_rx_phase (bs : List Nat) : ∀ s : State,
    s.RXByteCtr = bs.length → s.ReceiveIndex + bs.length < 256 →
    (trace s (bs.map Irq.rx)).map phaseOf =
      (List.range bs.length).map (fun i =>
        (if i + 1 = bs.length then I2C_Mode.IDLE_MODE else s.MasterMode,
          s.TXByteCtr, bs.length - 1 - i)) := by
  induction bs with
  | nil => intro s _ _; rfl
  | cons b rest ih =>
    intro s hc hi
    simp only [List.length_cons] at hc hi
    have hstep := rx_step b s rest.length hc (by omega)
    have h1 : (s.ReceiveIndex + 1) % 256 = s.ReceiveIndex + 1 := Nat.mod_eq_of_lt (by omega)
    rw [h1] at hstep
    have hs1 : (isr (Irq.rx b) s).1.RXByteCtr = rest.length := by
      rw [hstep]; split_ifs <;> rfl
    have hs2 : (isr (Irq.rx b) s).1.ReceiveIndex = s.ReceiveIndex + 1 := by
      rw [hstep]; split_ifs <;> rfl
    have hs3 : (isr (Irq.rx b) s).1.TXByteCtr = s.TXByteCtr := by
      rw [hstep]; split_ifs <;> rfl
    have hs4 : (isr (Irq.rx b) s).1.MasterMode =
        if rest.length = 0 then I2C_Mode.IDLE_MODE else s.MasterMode := by
      rw [hstep]
      by_cases hk1 : rest.length = 1
      · simp [hk1]
      · by_cases hk0 : rest.length = 0
        · simp [hk0]
        · simp [hk1, hk0]
    rw [List.map_cons, trace_cons, List.map_cons, ih _ hs1 (by rw [hs2]; omega),
      List.length_cons, List.range_succ_eq_map, List.map_cons, List.map_map]
    congr 1
    · simp [phaseOf, hs1, hs3, hs4]
    · apply List.map_congr_left
      intro i hi'
      have hil : i < rest.length := List.mem_range.mp hi'
      have hne : rest.length ≠ 0 := by omega
      simp only [Function.comp, Nat.succ_eq_add_one, hs3, hs4, if_neg hne]
      have e1 : (i + 1 + 1 = rest.length + 1) ↔ (i + 1 = rest.length) := by omega
      have e2 : rest.length + 1 - 1 - (i + 1) = rest.length - 1 - i := by omega
      simp only [e1, e2]

theorem trace_append (l1 l2 : List Irq) : ∀ s : State,
    trace s (l1 ++ l2) = trace s l1 ++ trace (run s l1).1 l2 := by
  induction l1 with
  | nil => intro s; simp [trace_nil, run_nil]
  | cons i l1 ih => intro s; simp [trace_cons, run_cons, ih]

/-- The phase and the counters after each step of a complete write. -/
theorem trace_write_phase (s : State) (dev_addr reg_addr : Nat) (reg_data : Nat → Nat)
    (count : Nat) (h : count < 256) :
    (trace (I2C_Master_WriteReg_arm s dev_addr reg_addr reg_data count).1
        (List.replicate (count + 2) Irq.tx)).map phaseOf =
      (I2C_Mode.TX_DATA_MODE, count, 0) ::
        ((List.range count).map (fun i => (I2C_Mode.TX_DATA_MODE, count - 1 - i, 0)) ++
          [(I2C_Mode.IDLE_MODE, 0, 0)]) := by
  have hstep : isr Irq.tx (I2C_Master_WriteReg_arm s dev_addr reg_addr reg_data count).1 =
      ({ (I2C_Master_WriteReg_arm s dev_addr reg_addr reg_data count).1 with
          MasterMode := .TX_DATA_MODE }, [Ev.txbuf reg_addr]) := by
    simp [isr_tx, USCI_B0_ISR, I2C_Master_WriteReg_arm]
  have happ : List.replicate (count + 2) Irq.tx =
      Irq.tx :: (List.replicate count Irq.tx ++ [Irq.tx]) := by
    rw [List.replicate_succ, List.replicate_succ']
  rw [happ, trace_cons, hstep]
  simp only []
  rw [trace_append, List.map_cons, List.map_append,
    trace_tx_data count _ rfl rfl (by simp [I2C_Master_WriteReg_arm]; omega),
    run_tx_data count _ rfl rfl (by simp [I2C_Master_WriteReg_arm]; omega)]
  simp [trace_cons, trace_nil, isr_tx, USCI_B0_ISR, phaseOf, I2C_Master_WriteReg_arm]

/-- The phase and the counters after each step of a complete read of
`count >= 1` bytes. -/
theorem trace_read_phase (s : State) (dev_addr reg_addr count : Nat) (bs : List Nat)
    (hlen : bs.length = count) (h1 : 1 ≤ count) (h : count < 256) :
    (trace (I2C_Master_ReadReg_arm s dev_addr reg_addr count).1
        (Irq.tx :: Irq.tx :: bs.map Irq.rx)).map phaseOf =
      (I2C_Mode.SWITCH_TO_RX_MODE, 0, count) :: (I2C_Mode.RX_DATA_MODE, 0, count) ::
        (List.range count).map (fun i =>
          (if i + 1 = count then I2C_Mode.IDLE_MODE else I2C_Mode.RX_DATA_MODE,
            0, count - 1 - i)) := by
  subst hlen
  have hz : bs.length ≠ 0 := by omega
  have hstep1 : isr Irq.tx (I2C_Master_ReadReg_arm s dev_addr reg_addr bs.length).1 =
      ({ (I2C_Master_ReadReg_arm s dev_addr reg_addr bs.length).1 with
          MasterMode := .SWITCH_TO_RX_MODE }, [Ev.txbuf reg_addr]) := by
    simp [isr_tx, USCI_B0_ISR, I2C_Master_ReadReg_arm, hz]
  have hstep2 : isr Irq.tx ({ (I2C_Master_ReadReg_arm s dev_addr reg_addr bs.length).1 with
          MasterMode := .SWITCH_TO_RX_MODE }) =
      ({ (I2C_Master_ReadReg_arm s dev_addr reg_addr bs.length).1 with
          MasterMode := .RX_DATA_MODE, UCRXIE := true, UCTXIE := false, UCTR := false },
        Ev.start :: (if bs.length = 1 then [Ev.stop] else [])) := by
    simp [isr_tx, USCI_B0_ISR, I2C_Master_ReadReg_arm]
  rw [trace_cons, hstep1]
  simp only []
  rw [trace_cons, hstep2]
  simp only []
  rw [List.map_cons, List.map_cons,
    trace_rx_phase bs _ rfl (by simp [I2C_Master_ReadReg_arm]; omega)]
  simp [phaseOf, I2C_Master_ReadReg_arm]

theorem getElem?_phase (T : List (State × List Ev)) (L : List (I2C_Mode × Nat × Nat))
    (h : T.map phaseOf = L) (j : Nat) (p : State × List Ev) (hp : T[j]? = some p) :
    L[j]? = some (p.1.MasterMode, p.1.TXByteCtr, p.1.RXByteCtr) := by
  rw [← h, List.getElem?_map, hp]
  rfl

/-- C12 fails on the code for a write: in the two-byte write of `Write1` the
third TX-ready step, which writes the last payload byte, leaves
`TXByteCtr == 0` while `MasterMode` is still `TX_DATA_MODE`; `IDLE_MODE` is set
one step later. -/
theorem c12_write_counterexample :
    (run (I2C_Master_WriteReg_arm State.init 0x36 0x60 Write1 2).1
        (List.replicate 3 Irq.tx)).1.TXByteCtr = 0
    ∧ (run (I2C_Master_WriteReg_arm State.init 0x36 0x60 Write1 2).1
        (List.replicate 3 Irq.tx)).1.MasterMode = .TX_DATA_MODE
    ∧ (run (I2C_Master_WriteReg_arm State.init 0x36 0x60 Write1 2).1
        (List.replicate 3 Irq.tx)).2 =
        [Ev.txbuf 0x60, Ev.readTB 0, Ev.txbuf 0x90, Ev.readTB 1, Ev.txbuf 0x00]
    ∧ (run (I2C_Master_WriteReg_arm State.init 0x36 0x60 Write1 2).1
        (List.replicate 4 Irq.tx)).1.MasterMode = .IDLE_MODE := by
  decide

/-- C12 as amended, for every transaction with `count <= MAX_BUFFER_SIZE`.
Read of `count >= 1` bytes: `RXByteCtr` is non-zero after every step but the
last one, and the step that makes it zero (step `count + 1`) is the step
that sets `IDLE_MODE`.  Write: `TXByteCtr` is `count - j` after step `j`, so it
becomes zero in step `count`, the TX-ready step that writes the last payload
byte while `MasterMode` stays `TX_DATA_MODE`, and `IDLE_MODE` is set by the next
TX-ready step, step `count + 1`, in which the counter is still zero. -/
theorem c12_counter_and_idle (s : State) (dev_addr reg_addr : Nat) (reg_data : Nat → Nat)
    (count : Nat) (h : count ≤ MAX_BUFFER_SIZE) :
    (trace (I2C_Master_WriteReg_arm s dev_addr reg_addr reg_data count).1
        (List.replicate (count + 2) Irq.tx)).map phaseOf =
      (I2C_Mode.TX_DATA_MODE, count, 0) ::
        ((List.range count).map (fun i => (I2C_Mode.TX_DATA_MODE, count - 1 - i, 0)) ++
          [(I2C_Mode.IDLE_MODE, 0, 0)])
    ∧ (∀ j p, (trace (I2C_Master_WriteReg_arm s dev_addr reg_addr reg_data count).1
        (List.replicate (count + 2) Irq.tx))[j]? = some p →
        p.1.TXByteCtr = count - j ∧ (p.1.TXByteCtr = 0 ↔ count ≤ j)
        ∧ (p.1.MasterMode = .IDLE_MODE ↔ j = count + 1)
        ∧ (j ≤ count → p.1.MasterMode = .TX_DATA_MODE))
    ∧ (∀ bs : List Nat, bs.length = count → 1 ≤ count →
        (trace (I2C_Master_ReadReg_arm s dev_addr reg_addr count).1
            (Irq.tx :: Irq.tx :: bs.map Irq.rx)).map phaseOf =
          (I2C_Mode.SWITCH_TO_RX_MODE, 0, count) :: (I2C_Mode.RX_DATA_MODE, 0, count) ::
            (List.range count).map (fun i =>
              (if i + 1 = count then I2C_Mode.IDLE_MODE else I2C_Mode.RX_DATA_MODE,
                0, count - 1 - i))
        ∧ ∀ j p, (trace (I2C_Master_ReadReg_arm s dev_addr reg_addr count).1
            (Irq.tx :: Irq.tx :: bs.map Irq.rx))[j]? = some p →
            (p.1.RXByteCtr = 0 ↔ j = count + 1)
            ∧ (p.1.MasterMode = .IDLE_MODE ↔ j = count + 1)) := by
  have hc : count < 256 := by simp [MAX_BUFFER_SIZE] at h; omega
  have hW := trace_write_phase s dev_addr reg_addr reg_data count hc
  refine ⟨hW, ?_, ?_⟩
  · intro j p hp
    have hL := getElem?_phase _ _ hW j p hp
    rcases j with _ | j
    · simp only [List.getElem?_cons_zero, Option.some.injEq, Prod.mk.injEq] at hL
      obtain ⟨hm, ht, _⟩ := hL
      rw [← hm, ← ht]
      simp
    · simp only [List.getElem?_cons_succ] at hL
      by_cases hj : j < count
      · rw [List.getElem?_append_left (by simpa using hj), List.getElem?_map,
          List.getElem?_range hj] at hL
        simp only [Option.map_some', Option.some.injEq, Prod.mk.injEq] at hL
        obtain ⟨hm, ht, _⟩ := hL
        rw [← hm, ← ht]
        refine ⟨by omega, by omega, ?_, fun _ => rfl⟩
        constructor
        · intro hh; cases hh
        · intro hh; omega
      · rw [List.getElem?_append_right (by simpa using hj)] at hL
        simp only [List.length_map, List.length_range] at hL
        have hj0 : j - count = 0 := by
          by_contra hne
          obtain ⟨m, hm⟩ : ∃ m, j - count = m + 1 := ⟨j - count - 1, by omega⟩
          rw [hm] at hL
          simp at hL
        rw [hj0] at hL
        simp only [List.getElem?_cons_zero, Option.some.injEq, Prod.mk.injEq] at hL
        obtain ⟨hm, ht, _⟩ := hL
        rw [← hm, ← ht]
        have : j = count := by omega
        subst this
        refine ⟨by omega, by simp, by simp, fun hh => by omega⟩
  · intro bs hlen h1
    have hR := trace_read_phase s dev_addr reg_addr count bs hlen h1 hc
    refine ⟨hR, ?_⟩
    intro j p hp
    have hL := getElem?_phase _ _ hR j p hp
    match j, hL with
    | 0, hL =>
      simp only [List.getElem?_cons_zero, Option.some.injEq, Prod.mk.injEq] at hL
      obtain ⟨hm, _, hr⟩ := hL
      rw [← hm, ← hr]
      constructor
      · constructor <;> intro hh <;> omega
      · constructor
        · intro hh; cases hh
        · intro hh; omega
    | 1, hL =>
      simp only [List.getElem?_cons_succ, List.getElem?_cons_zero, Option.some.injEq,
        Prod.mk.injEq] at hL
      obtain ⟨hm, _, hr⟩ := hL
      rw [← hm, ← hr]
      constructor
      · constructor <;> intro hh <;> omega
      · constructor
        · intro hh; cases hh
        · intro hh; omega
    | j + 2, hL =>
      simp only [List.getElem?_cons_succ] at hL
      have hj : j < count := by
        by_contra hne
        rw [List.getElem?_eq_none (by simpa using hne)] at hL
        cases hL
      rw [List.getElem?_map, List.getElem?_range hj] at hL
      simp only [Option.map_some', Option.some.injEq, Prod.mk.injEq] at hL
      obtain ⟨hm, _, hr⟩ := hL
      rw [← hm, ← hr]
      by_cases hlast : j + 1 = count
      · simp [hlast]
      · rw [if_neg hlast]
        constructor
        · constructor <;> intro hh <;> omega
        · constructor
          · intro hh; cases hh
          · intro hh; omega

/-- Witness of C12 as amended: the two-byte write of `Write1`. -/
theorem c12_counter_and_idle_witness :
    2 ≤ MAX_BUFFER_SIZE
    ∧ (trace (I2C_Master_WriteReg_arm State.init 0x36 0x60 Write1 2).1
        (List.replicate 4 Irq.tx)).map phaseOf =
      [(I2C_Mode.TX_DATA_MODE, 2, 0), (I2C_Mode.TX_DATA_MODE, 1, 0),
        (I2C_Mode.TX_DATA_MODE, 0, 0), (I2C_Mode.IDLE_MODE, 0, 0)] :=
  ⟨by decide, (c12_counter_and_idle State.init 0x36 0x60 Write1 2 (by decide)).1⟩


theorem isr_mode_assigned (i : Irq) (s : State) (h : s.MasterMode.assigned = true) :
    (isr i s).1.MasterMode.assigned = true := by
  cases i with
  | usci_b0 iv rx =>
    simp only [isr]
    by_cases hrx : iv = .USCI_I2C_UCRXIFG0
    · subst hrx
      by_cases h0 : s.RXByteCtr = 0
      · rw [rx_idle _ _ h0]; rfl
      · rw [rx_store _ _ h0]
        split_ifs
        · exact h
        · rfl
        · exact h
    · by_cases htx : iv = .USCI_I2C_UCTXIFG0
      · subst htx
        by_cases hm1 : s.MasterMode = .TX_REG_ADDRESS_MODE
        · rw [tx_reg_addr _ _ hm1]
          simp only []
          split_ifs <;> rfl
        · by_cases hm2 : s.MasterMode = .SWITCH_TO_RX_MODE
          · rw [tx_switch _ _ hm2]; rfl
          · by_cases hm3 : s.MasterMode = .TX_DATA_MODE
            · by_cases h0 : s.TXByteCtr = 0
              · rw [tx_data_done _ _ hm3 h0]; rfl
              · rw [tx_data_send _ _ hm3 h0]; exact h
            · rw [tx_other _ _ hm1 hm2 hm3]; exact h
      · rw [b0_other iv rx s hrx htx]; exact h
  | usci_a1 iv rx =>
    simp only [isr]
    cases iv
    case USCI_SPI_UCRXIFG =>
      cases hm : s.MasterMode
      case RX_DATA_MODE =>
        rw [a1_rx_data _ _ hm]
        split_ifs <;> first | rfl | (simp only []; rw [hm]; rfl)
      all_goals
        simp only [USCI_A1_ISR, hm]
        first
          | (split_ifs <;> rfl)
          | (rw [hm] at h; exact h)
    all_goals simpa [USCI_A1_ISR] using h
  | timer0_a0 => exact h

theorem trace_mode_assigned (irqs : List Irq) : ∀ s : State, s.MasterMode.assigned = true →
    ∀ p ∈ trace s irqs, p.1.MasterMode.assigned = true := by
  induction irqs with
  | nil => intro s _ p hp; simp [trace_nil] at hp
  | cons i rest ih =>
    intro s h p hp
    simp only [trace_cons, List.mem_cons] at hp
    rcases hp with hp | hp
    · subst hp; exact isr_mode_assigned i s h
    · exact ih _ (isr_mode_assigned i s h) p hp

theorem map_last_eq_replicate (n : Nat) (a z : I2C_Mode) :
    (List.range (n + 1)).map (fun i => if i + 1 = n + 1 then z else a) =
      List.replicate n a ++ [z] := by
  rw [List.range_succ, List.map_append]
  congr 1
  · apply List.ext_getElem
    · simp
    · intro i h1 h2
      simp only [List.length_map, List.length_range] at h1
      simp only [List.getElem_map, List.getElem_range, List.getElem_replicate]
      rw [if_neg (by omega)]
  · simp

/-- C16: for every I2C transaction with `count <= MAX_BUFFER_SIZE`, `MasterMode`
is `TX_REG_ADDRESS_MODE` when the transfer is armed.  In a write the steps
leave `TX_DATA_MODE` (`count + 1` times: after the register byte and after each
payload byte) and then `IDLE_MODE`.  In a read of `count >= 1` bytes they leave
`SWITCH_TO_RX_MODE`, then `RX_DATA_MODE` (`count` times), then `IDLE_MODE`.
Under any sequence of interrupts whatsoever `MasterMode` never takes the values
`NACK_MODE`, `RX_REG_ADDRESS_MODE`, `SWITHC_TO_TX_MODE` or `TIMEOUT_MODE`. -/
theorem c16_phase_order (s : State) (dev_addr reg_addr : Nat) (reg_data : Nat → Nat)
    (count : Nat) (irqs : List Irq) (h : count ≤ MAX_BUFFER_SIZE) :
    (I2C_Master_WriteReg_arm s dev_addr reg_addr reg_data count).1.MasterMode =
        .TX_REG_ADDRESS_MODE
    ∧ (trace (I2C_Master_WriteReg_arm s dev_addr reg_addr reg_data count).1
        (List.replicate (count + 2) Irq.tx)).map (fun p => p.1.MasterMode) =
        List.replicate (count + 1) I2C_Mode.TX_DATA_MODE ++ [I2C_Mode.IDLE_MODE]
    ∧ (I2C_Master_ReadReg_arm s dev_addr reg_addr count).1.MasterMode = .TX_REG_ADDRESS_MODE
    ∧ (∀ bs : List Nat, bs.length = count → 1 ≤ count →
        (trace (I2C_Master_ReadReg_arm s dev_addr reg_addr count).1
          (Irq.tx :: Irq.tx :: bs.map Irq.rx)).map (fun p => p.1.MasterMode) =
          I2C_Mode.SWITCH_TO_RX_MODE ::
            (List.replicate count I2C_Mode.RX_DATA_MODE ++ [I2C_Mode.IDLE_MODE]))
    ∧ (∀ p ∈ trace (I2C_Master_WriteReg_arm s dev_addr reg_addr reg_data count).1 irqs,
        p.1.MasterMode ≠ .NACK_MODE ∧ p.1.MasterMode ≠ .RX_REG_ADDRESS_MODE
        ∧ p.1.MasterMode ≠ .SWITHC_TO_TX_MODE ∧ p.1.MasterMode ≠ .TIMEOUT_MODE)
    ∧ (∀ p ∈ trace (I2C_Master_ReadReg_arm s dev_addr reg_addr count).1 irqs,
        p.1.MasterMode ≠ .NACK_MODE ∧ p.1.MasterMode ≠ .RX_REG_ADDRESS_MODE
        ∧ p.1.MasterMode ≠ .SWITHC_TO_TX_MODE ∧ p.1.MasterMode ≠ .TIMEOUT_MODE) := by
  have hc : count < 256 := by simp [MAX_BUFFER_SIZE] at h; omega
  have hfst : ∀ T : List (State × List Ev),
      T.map (fun p => p.1.MasterMode) = (T.map phaseOf).map (fun q => q.1) := by
    intro T
    simp [phaseOf, Function.comp_def]
  have hne : ∀ m : I2C_Mode, m.assigned = true →
      m ≠ .NACK_MODE ∧ m ≠ .RX_REG_ADDRESS_MODE ∧ m ≠ .SWITHC_TO_TX_MODE ∧
        m ≠ .TIMEOUT_MODE := by
    intro m hm
    cases m <;> simp_all [I2C_Mode.assigned]
  refine ⟨rfl, ?_, rfl, ?_, ?_, ?_⟩
  · rw [hfst, trace_write_phase s dev_addr reg_addr reg_data count hc]
    simp [List.replicate_succ, Function.comp_def]
  · intro bs hlen h1
    rw [hfst, trace_read_phase s dev_addr reg_addr count bs hlen h1 hc]
    obtain ⟨n, hn⟩ : ∃ n, count = n + 1 := ⟨count - 1, by omega⟩
    subst hn
    simp only [List.map_cons, List.map_map, Function.comp_def]
    rw [map_last_eq_replicate n, List.replicate_succ]
    rfl
  · intro p hp
    exact hne _ (trace_mode_assigned irqs
      (I2C_Master_WriteReg_arm s dev_addr reg_addr reg_data count).1 rfl p hp)
  · intro p hp
    exact hne _ (trace_mode_assigned irqs
      (I2C_Master_ReadReg_arm s dev_addr reg_addr count).1 rfl p hp)

/-- Witness of C16: a write and a read of two bytes. -/
theorem c16_phase_order_witness :
    2 ≤ MAX_BUFFER_SIZE
    ∧ (trace (I2C_Master_WriteReg_arm State.init 0x36 0x60 Write1 2).1
        (List.replicate 4 Irq.tx)).map (fun p => p.1.MasterMode) =
        [I2C_Mode.TX_DATA_MODE, I2C_Mode.TX_DATA_MODE, I2C_Mode.TX_DATA_MODE,
          I2C_Mode.IDLE_MODE]
    ∧ (∀ bs : List Nat, bs.length = 2 → 1 ≤ 2 →
        (trace (I2C_Master_ReadReg_arm State.init 0x36 0x05 2).1
          (Irq.tx :: Irq.tx :: bs.map Irq.rx)).map (fun p => p.1.MasterMode) =
          [I2C_Mode.SWITCH_TO_RX_MODE, I2C_Mode.RX_DATA_MODE, I2C_Mode.RX_DATA_MODE,
            I2C_Mode.IDLE_MODE]) :=
  ⟨by decide,
   (c16_phase_order State.init 0x36 0x60 Write1 2 [] (by decide)).2.1,
   (c16_phase_order State.init 0x36 0x05 Write1 2 [] (by decide)).2.2.2.1⟩

theorem isr_TransmitBuffer (i : Irq) (s : State) :
    (isr i s).1.TransmitBuffer = s.TransmitBuffer := by
  cases i with
  | usci_b0 iv rx =>
    simp only [isr]
    by_cases hrx : iv = .USCI_I2C_UCRXIFG0
    · subst hrx
      by_cases h0 : s.RXByteCtr = 0
      · rw [rx_idle _ _ h0]
      · rw [rx_store _ _ h0]
        split_ifs <;> rfl
    · by_cases htx : iv = .USCI_I2C_UCTXIFG0
      · subst htx
        by_cases hm1 : s.MasterMode = .TX_REG_ADDRESS_MODE
        · rw [tx_reg_addr _ _ hm1]
        · by_cases hm2 : s.MasterMode = .SWITCH_TO_RX_MODE
          · rw [tx_switch _ _ hm2]
          · by_cases hm3 : s.MasterMode = .TX_DATA_MODE
            · by_cases h0 : s.TXByteCtr = 0
              · rw [tx_data_done _ _ hm3 h0]
              · rw [tx_data_send _ _ hm3 h0]
            · rw [tx_other _ _ hm1 hm2 hm3]
      · rw [b0_other iv rx s hrx htx]
  | usci_a1 iv rx =>
    simp only [isr]
    cases iv
    case USCI_SPI_UCRXIFG =>
      cases hm : s.MasterMode
      case RX_DATA_MODE =>
        rw [a1_rx_data _ _ hm]
        split_ifs <;> rfl
      all_goals
        simp only [USCI_A1_ISR, hm]
        try (split_ifs <;> rfl)
    all_goals simp [USCI_A1_ISR]
  | timer0_a0 => rfl

theorem run_TransmitBuffer (irqs : List Irq) : ∀ s : State,
    (run s irqs).1.TransmitBuffer = s.TransmitBuffer := by
  induction irqs with
  | nil => intro s; rfl
  | cons i rest ih => intro s; rw [run_cons]; simp only []; rw [ih, isr_TransmitBuffer]

/-- C13: right after the initialisation part of `I2C_Master_WriteReg`, for every
data and `count <= MAX_BUFFER_SIZE`: `TransmitBuffer[i] == reg_data[i]` for
`i < count`, `TransmitBuffer[i]` is unchanged for `i >= count`, `ReceiveBuffer` is
unchanged, `TransmitRegAddr == reg_addr`, `TXByteCtr == count`, `RXByteCtr == 0`,
`TransmitIndex == ReceiveIndex == 0` and `MasterMode == TX_REG_ADDRESS_MODE`.
The engine works on this copy only: the caller's array enters as the argument
`reg_data`, which `CopyArray` reads and no handler receives, and no later
interrupt step of any handler changes `TransmitBuffer`, so the staged bytes stay
`reg_data[i]` whatever happens to the caller's array. -/
theorem c13_arming_stages_a_copy (s : State) (dev_addr reg_addr : Nat) (reg_data : Nat → Nat)
    (count : Nat) (irqs : List Irq) (h : count ≤ MAX_BUFFER_SIZE) :
    (∀ i, i < count →
      (I2C_Master_WriteReg_arm s dev_addr reg_addr reg_data count).1.TransmitBuffer i =
        reg_data i)
    ∧ (∀ i, count ≤ i →
      (I2C_Master_WriteReg_arm s dev_addr reg_addr reg_data count).1.TransmitBuffer i =
        s.TransmitBuffer i)
    ∧ (I2C_Master_WriteReg_arm s dev_addr reg_addr reg_data count).1.ReceiveBuffer =
        s.ReceiveBuffer
    ∧ (I2C_Master_WriteReg_arm s dev_addr reg_addr reg_data count).1.TransmitRegAddr = reg_addr
    ∧ (I2C_Master_WriteReg_arm s dev_addr reg_addr reg_data count).1.TXByteCtr = count
    ∧ (I2C_Master_WriteReg_arm s dev_addr reg_addr reg_data count).1.RXByteCtr = 0
    ∧ (I2C_Master_WriteReg_arm s dev_addr reg_addr reg_data count).1.TransmitIndex = 0
    ∧ (I2C_Master_WriteReg_arm s dev_addr reg_addr reg_data count).1.ReceiveIndex = 0
    ∧ (I2C_Master_WriteReg_arm s dev_addr reg_addr reg_data count).1.MasterMode =
        .TX_REG_ADDRESS_MODE
    ∧ (run (I2C_Master_WriteReg_arm s dev_addr reg_addr reg_data count).1 irqs).1.TransmitBuffer =
        (I2C_Master_WriteReg_arm s dev_addr reg_addr reg_data count).1.TransmitBuffer
    ∧ (∀ i, i < count →
      (run (I2C_Master_WriteReg_arm s dev_addr reg_addr reg_data count).1 irqs).1.TransmitBuffer i =
        reg_data i) := by
  have hc : count < 256 := by simp [MAX_BUFFER_SIZE] at h; omega
  have hget := CopyArray_get reg_data s.TransmitBuffer count hc
  have hrun := run_TransmitBuffer irqs (I2C_Master_WriteReg_arm s dev_addr reg_addr reg_data count).1
  refine ⟨?_, ?_, rfl, rfl, rfl, rfl, rfl, rfl, rfl, hrun, ?_⟩
  · intro i hi
    simp [I2C_Master_WriteReg_arm, hget, hi]
  · intro i hi
    have : ¬ i < count := by omega
    simp [I2C_Master_WriteReg_arm, hget, this]
  · intro i hi
    rw [hrun]
    simp [I2C_Master_WriteReg_arm, hget, hi]

/-- Witness of C13: arming the two-byte write of `Write1`. -/
theorem c13_arming_stages_a_copy_witness :
    2 ≤ MAX_BUFFER_SIZE
    ∧ (∀ i, i < 2 →
      (I2C_Master_WriteReg_arm State.init 0x36 0x60 Write1 2).1.TransmitBuffer i = Write1 i)
    ∧ (I2C_Master_WriteReg_arm State.init 0x36 0x60 Write1 2).1.TXByteCtr = 2 :=
  ⟨by decide,
   (c13_arming_stages_a_copy State.init 0x36 0x60 Write1 2 [] (by decide)).1,
   (c13_arming_stages_a_copy State.init 0x36 0x60 Write1 2 [] (by decide)).2.2.2.2.1⟩


theorem lpm_resume_wake (s : State) (i : Irq) (rest : List Irq)
    (h : (isr i s).1.CPUOFF = false) :
    lpm_resume s (i :: rest) = some ((isr i s).1, (isr i s).2, rest) := by
  simp [lpm_resume, h]

theorem lpm_resume_sleep (s : State) (i : Irq) (rest : List Irq)
    (h : (isr i s).1.CPUOFF = true) :
    lpm_resume s (i :: rest) =
      (lpm_resume (isr i s).1 rest).map (fun q => (q.1, (isr i s).2 ++ q.2.1, q.2.2)) := by
  simp [lpm_resume, h]

theorem lpm_resume_append (irqs rest : List Irq) : ∀ s : State,
    s.CPUOFF = true → Ev.wake ∉ (run s irqs).2 →
    lpm_resume s (irqs ++ rest) =
      (lpm_resume (run s irqs).1 rest).map
        (fun q => (q.1, (run s irqs).2 ++ q.2.1, q.2.2)) := by
  induction irqs with
  | nil => intro s _ _; simp [run_nil]
  | cons i irqs ih =>
    intro s hs hw
    rw [run_cons] at hw
    simp only [List.mem_append, not_or] at hw
    have h1 : (isr i s).1.CPUOFF = true := by rw [isr_no_wake i s hw.1, hs]
    rw [List.cons_append, lpm_resume_sleep _ _ _ h1, ih _ h1 hw.2, run_cons]
    simp [Option.map_map, Function.comp_def, List.append_assoc]

theorem lpm_resume_rx_data (bs : List Nat) (tail : List Irq) : ∀ s : State,
    bs ≠ [] → s.RXByteCtr = bs.length → bs.length < 256 → s.CPUOFF = true →
    lpm_resume s (bs.map Irq.rx ++ tail) =
      some ((run s (bs.map Irq.rx)).1, (run s (bs.map Irq.rx)).2, tail) := by
  induction bs with
  | nil => intro s h; exact absurd rfl h
  | cons b rest ih =>
    intro s _ hc hi hs
    simp only [List.length_cons] at hc hi
    have hstep := rx_step b s rest.length hc hi
    cases rest with
    | nil =>
      simp only [List.length_nil] at hstep
      rw [List.map_cons, List.map_nil, run_cons, run_nil, List.cons_append, List.nil_append,
        lpm_resume_wake _ _ _ (by rw [hstep]; simp)]
      simp
    | cons b2 rest2 =>
      have hz : (b2 :: rest2).length ≠ 0 := by simp
      have hoff : (isr (Irq.rx b) s).1.CPUOFF = true := by
        rw [hstep]
        by_cases hone : (b2 :: rest2).length = 1
        · rw [if_pos hone]; exact hs
        · rw [if_neg hone, if_neg hz]; exact hs
      have hctr : (isr (Irq.rx b) s).1.RXByteCtr = (b2 :: rest2).length := by
        rw [hstep]
        by_cases hone : (b2 :: rest2).length = 1
        · rw [if_pos hone]
        · rw [if_neg hone, if_neg hz]
      rw [List.map_cons, List.cons_append, lpm_resume_sleep _ _ _ hoff,
        ih _ (by simp) hctr (by omega) hoff, run_cons]
      rfl

/-- A read statement in a sequence: with the interrupts of a read of `bs` at
the head of the stream the call returns, is logged, leaves `bs` at the start
of `ReceiveBuffer` and hands the remaining interrupts on. -/
theorem prog_read (p : Prog) (dev_addr reg_addr count : Nat) (bs : List Nat)
    (rest : List Irq) (hirq : p.irqs = readIrqs bs ++ rest)
    (hlen : bs.length = count) (h1 : 1 ≤ count) (h2 : count < 256) :
    ∃ s1 : State,
      p.I2C_Master_ReadReg dev_addr reg_addr count =
        some { p with
          s := s1
          calls := p.calls ++ [Call.ReadReg dev_addr reg_addr count]
          irqs := rest }
      ∧ ∀ i, i < count → s1.ReceiveBuffer i = bs.getD i 0 := by
  subst hlen
  have hne : bs ≠ [] := by intro hh; simp [hh] at h1
  obtain ⟨sa, sb, hstep1, hstep2, _, hctr, hidx, hoff, _⟩ :=
    read_address_phase p.s dev_addr reg_addr bs.length (by omega)
  have ha : (isr Irq.tx (I2C_Master_ReadReg_arm p.s dev_addr reg_addr bs.length).1).1.CPUOFF =
      true := by
    rw [isr_no_wake _ _ (by rw [hstep1]; simp)]; rfl
  have hb : (isr Irq.tx sa).1.CPUOFF = true := by rw [hstep2]; exact hoff
  have hrun := run_rx_data bs sb hne hctr (by omega)
  refine ⟨(run sb (bs.map Irq.rx)).1, ?_, ?_⟩
  · simp only [Prog.I2C_Master_ReadReg, hirq, readIrqs, List.cons_append]
    rw [lpm_resume_sleep _ _ _ ha, hstep1]
    simp only []
    rw [lpm_resume_sleep _ _ _ hb, hstep2]
    simp only []
    rw [lpm_resume_rx_data bs rest sb hne hctr h2 hoff]
    rfl
  · intro i hi
    rw [hrun]
    simp only []
    rw [writeBytes_get, hidx]
    simp [hi]

/-- A write statement in a sequence: with `count + 2` TX-ready interrupts at the
head of the stream the call returns, is logged and hands the remaining
interrupts on. -/
theorem prog_write (p : Prog) (dev_addr reg_addr : Nat) (reg_data : Nat → Nat)
    (count : Nat) (rest : List Irq) (hirq : p.irqs = writeIrqs count ++ rest)
    (h : count < 256) :
    ∃ s1 : State,
      p.I2C_Master_WriteReg dev_addr reg_addr reg_data count =
        some { p with
          s := s1
          calls := p.calls ++
            [Call.WriteReg dev_addr reg_addr ((List.range count).map reg_data)]
          irqs := rest } := by
  have hrun := run_write_frame p.s dev_addr reg_addr reg_data count h
  have hnw : Ev.wake ∉ (run (I2C_Master_WriteReg_arm p.s dev_addr reg_addr reg_data count).1
      (List.replicate (count + 1) Irq.tx)).2 := by
    rw [hrun]
    simp only [List.mem_cons, not_or]
    refine ⟨by simp, ?_⟩
    intro hm
    obtain ⟨n, _, _, h3⟩ := dataEvents_mem _ _ _ _ hm
    rcases h3 with h3 | h3 <;> simp at h3
  have hsplit : writeIrqs count ++ rest =
      List.replicate (count + 1) Irq.tx ++ (Irq.tx :: rest) := by
    simp [writeIrqs, List.replicate_succ']
  have hdone := tx_data_done 0
    ({ (I2C_Master_WriteReg_arm p.s dev_addr reg_addr reg_data count).1 with
        MasterMode := .TX_DATA_MODE, TransmitIndex := count, TXByteCtr := 0 }) rfl rfl
  refine ⟨(isr Irq.tx
    ({ (I2C_Master_WriteReg_arm p.s dev_addr reg_addr reg_data count).1 with
        MasterMode := .TX_DATA_MODE, TransmitIndex := count, TXByteCtr := 0 })).1, ?_⟩
  simp only [Prog.I2C_Master_WriteReg, hirq]
  rw [hsplit, lpm_resume_append _ _ _ rfl hnw, hrun]
  simp only []
  rw [lpm_resume_wake _ _ _ (by rw [isr_tx, hdone])]
  rfl

theorem initializeConfig_FSTAT_skip (fuel : Nat) (p : Prog) (h : p.FSTAT 0 = 0) :
    initializeConfig_FSTAT (fuel + 1) p = some p := by
  simp [initializeConfig_FSTAT, h]

theorem initializeConfig_ModelCFG_skip (fuel : Nat) (p : Prog) (h : p.ModelCFG 1 = 0) :
    initializeConfig_ModelCFG (fuel + 1) p = some p := by
  simp [initializeConfig_ModelCFG, h]

/-- The first two statements of `initializeConfig`: the loop on `FSTAT` is
left at its first test. -/
theorem issued_FSTAT (p : Prog) (rest : List Irq) (hirq : p.irqs = rest) :
    ∃ q, (some { p with FSTAT := setByte p.FSTAT 0 0 }).bind
        (fun p => initializeConfig_FSTAT (p.irqs.length + 1) p) = some q ∧
      Issued p [] rest (p.HibCFG 0) (p.HibCFG 1) q := by
  refine ⟨{ p with FSTAT := setByte p.FSTAT 0 0 }, ?_, hirq, ?_, rfl, rfl⟩
  · rw [Option.some_bind]
    exact initializeConfig_FSTAT_skip _ _
      (show (setByte p.FSTAT 0 0) 0 = 0 from setByte_same _ _ _)
  · simp

/-- The statements `ModelCFG[1] = 0; while (ModelCFG[1] & 0x80) ...`: the loop
is left at its first test. -/
theorem issued_ModelCFG (A : Option Prog) (p : Prog) (cs : List Call) (rest : List Irq)
    (a b : Nat) (h : ∃ q, A = some q ∧ Issued p cs rest a b q) :
    ∃ q, (A.map (fun p => { p with ModelCFG := setByte p.ModelCFG 1 0 })).bind
        (fun p => initializeConfig_ModelCFG (p.irqs.length + 1) p) = some q ∧
      Issued p cs rest a b q := by
  obtain ⟨q, e, h1, h2, h3, h4⟩ := h
  refine ⟨{ q with ModelCFG := setByte q.ModelCFG 1 0 }, ?_, h1, h2, h3, h4⟩
  rw [e, Option.map_some', Option.some_bind]
  exact initializeConfig_ModelCFG_skip _ _
    (show (setByte q.ModelCFG 1 0) 1 = 0 from setByte_same _ _ _)

/-- A write statement of a fixed array. -/
theorem issued_write (A : Option Prog) (p : Prog) (cs : List Call) (rest : List Irq)
    (a b : Nat) (dev_addr reg_addr : Nat) (reg_data : Nat → Nat) (count : Nat)
    (h : ∃ q, A = some q ∧ Issued p cs (writeIrqs count ++ rest) a b q) (hc : count < 256) :
    ∃ q, A.bind (fun p => p.I2C_Master_WriteReg dev_addr reg_addr reg_data count) = some q ∧
      Issued p (cs ++ [Call.WriteReg dev_addr reg_addr ((List.range count).map reg_data)])
        rest a b q := by
  obtain ⟨q, e, h1, h2, h3, h4⟩ := h
  obtain ⟨s1, e1⟩ := prog_write q dev_addr reg_addr reg_data count rest h1 hc
  refine ⟨{ q with
      s := s1
      calls := q.calls ++ [Call.WriteReg dev_addr reg_addr ((List.range count).map reg_data)]
      irqs := rest }, ?_, rfl, ?_, h3, h4⟩
  · rw [e, Option.some_bind, e1]
  · simp only [h2, List.append_assoc]

/-- The write of `HibCFG`. -/
theorem issued_write_HibCFG (A : Option Prog) (p : Prog) (cs : List Call) (rest : List Irq)
    (a b : Nat) (dev_addr reg_addr : Nat)
    (h : ∃ q, A = some q ∧ Issued p cs (writeIrqs 2 ++ rest) a b q) :
    ∃ q, A.bind (fun p => p.I2C_Master_WriteReg dev_addr reg_addr p.HibCFG 2) = some q ∧
      Issued p (cs ++ [Call.WriteReg dev_addr reg_addr [a, b]]) rest a b q := by
  obtain ⟨q, e, h1, h2, h3, h4⟩ := h
  obtain ⟨s1, e1⟩ := prog_write q dev_addr reg_addr q.HibCFG 2 rest h1 (by omega)
  have hr2 : List.range 2 = [0, 1] := rfl
  refine ⟨{ q with
      s := s1
      calls := q.calls ++ [Call.WriteReg dev_addr reg_addr ((List.range 2).map q.HibCFG)]
      irqs := rest }, ?_, rfl, ?_, h3, h4⟩
  · rw [e, Option.some_bind, e1]
  · simp only [h2, List.append_assoc, hr2, List.map_cons, List.map_nil, h3, h4]

/-- The read that is copied to `HibCFG`. -/
theorem issued_read_HibCFG (A : Option Prog) (p : Prog) (cs : List Call) (rest : List Irq)
    (a b x y : Nat) (dev_addr reg_addr : Nat)
    (h : ∃ q, A = some q ∧ Issued p cs (readIrqs [x, y] ++ rest) a b q) :
    ∃ q, (A.bind (fun p => p.I2C_Master_ReadReg dev_addr reg_addr 2)).map
        (fun p => { p with HibCFG := CopyArray p.s.ReceiveBuffer p.HibCFG 2 }) = some q ∧
      Issued p (cs ++ [Call.ReadReg dev_addr reg_addr 2]) rest x y q := by
  obtain ⟨q, e, h1, h2, _, _⟩ := h
  obtain ⟨s1, e1, hb⟩ := prog_read q dev_addr reg_addr 2 [x, y] rest h1 rfl (by omega) (by omega)
  have e0 := hb 0 (by omega)
  have e2 := hb 1 (by omega)
  simp only [List.getD_cons_zero, List.getD_cons_succ] at e0 e2
  refine ⟨{ q with
      s := s1
      calls := q.calls ++ [Call.ReadReg dev_addr reg_addr 2]
      irqs := rest
      HibCFG := CopyArray s1.ReceiveBuffer q.HibCFG 2 }, ?_, rfl, ?_, ?_, ?_⟩
  · rw [e, Option.some_bind, e1, Option.map_some']
  · simp only [h2, List.append_assoc]
  · simp [CopyArray_get, e0]
  · simp [CopyArray_get, e2]

/-- The read that is copied to `Test`. -/
theorem issued_read_Test (A : Option Prog) (p : Prog) (cs : List Call) (rest : List Irq)
    (a b : Nat) (bs : List Nat) (dev_addr reg_addr : Nat) (hlen : bs.length = 2)
    (h : ∃ q, A = some q ∧ Issued p cs (readIrqs bs ++ rest) a b q) :
    ∃ q, (A.bind (fun p => p.I2C_Master_ReadReg dev_addr reg_addr 2)).map
        (fun p => { p with Test := CopyArray p.s.ReceiveBuffer p.Test 2 }) = some q ∧
      Issued p (cs ++ [Call.ReadReg dev_addr reg_addr 2]) rest a b q := by
  obtain ⟨q, e, h1, h2, h3, h4⟩ := h
  obtain ⟨s1, e1, _⟩ := prog_read q dev_addr reg_addr 2 bs rest h1 hlen (by omega) (by omega)
  refine ⟨{ q with
      s := s1
      calls := q.calls ++ [Call.ReadReg dev_addr reg_addr 2]
      irqs := rest
      Test := CopyArray s1.ReceiveBuffer q.Test 2 }, ?_, rfl, ?_, h3, h4⟩
  · rw [e, Option.some_bind, e1, Option.map_some']
  · simp only [h2, List.append_assoc]

/-- The read of `Status` with the two masks that follow it. -/
theorem issued_read_Status (A : Option Prog) (p : Prog) (cs : List Call) (rest : List Irq)
    (a b x y : Nat) (dev_addr reg_addr : Nat)
    (h : ∃ q, A = some q ∧ Issued p cs (readIrqs [x, y] ++ rest) a b q) :
    ∃ q, (((A.bind (fun p => p.I2C_Master_ReadReg dev_addr reg_addr 2)).map
        (fun p => { p with Status := CopyArray p.s.ReceiveBuffer p.Status 2 })).map
        (fun p => { p with Status := setByte p.Status 1 (p.Status 1 &&& 0xFF) })).map
        (fun p => { p with Status := setByte p.Status 0 (p.Status 0 &&& 0xFD) }) = some q ∧
      (Issued p (cs ++ [Call.ReadReg dev_addr reg_addr 2]) rest a b q ∧
        q.Status 0 = x &&& 0xFD ∧ q.Status 1 = y &&& 0xFF) := by
  obtain ⟨q, e, h1, h2, h3, h4⟩ := h
  obtain ⟨s1, e1, hb⟩ := prog_read q dev_addr reg_addr 2 [x, y] rest h1 rfl (by omega) (by omega)
  have e0 := hb 0 (by omega)
  have e2 := hb 1 (by omega)
  simp only [List.getD_cons_zero, List.getD_cons_succ] at e0 e2
  rw [e, Option.some_bind, e1, Option.map_some', Option.map_some', Option.map_some']
  refine ⟨_, rfl, ⟨rfl, ?_, h3, h4⟩, ?_, ?_⟩
  · simp only [h2, List.append_assoc]
  · simp [setByte, CopyArray_get, e0]
  · simp [setByte, CopyArray_get, e2]

/-- The write of `Status`. -/
theorem issued_write_Status (A : Option Prog) (p : Prog) (cs : List Call) (rest : List Irq)
    (a b x y : Nat) (dev_addr reg_addr : Nat)
    (h : ∃ q, A = some q ∧ (Issued p cs (writeIrqs 2 ++ rest) a b q ∧
      q.Status 0 = x ∧ q.Status 1 = y)) :
    ∃ q, A.bind (fun p => p.I2C_Master_WriteReg dev_addr reg_addr p.Status 2) = some q ∧
      Issued p (cs ++ [Call.WriteReg dev_addr reg_addr [x, y]]) rest a b q := by
  obtain ⟨q, e, ⟨h1, h2, h3, h4⟩, h5, h6⟩ := h
  obtain ⟨s1, e1⟩ := prog_write q dev_addr reg_addr q.Status 2 rest h1 (by omega)
  have hr2 : List.range 2 = [0, 1] := rfl
  refine ⟨{ q with
      s := s1
      calls := q.calls ++ [Call.WriteReg dev_addr reg_addr ((List.range 2).map q.Status)]
      irqs := rest }, ?_, rfl, ?_, h3, h4⟩
  · rw [e, Option.some_bind, e1]
  · simp only [h2, List.append_assoc, hr2, List.map_cons, List.map_nil, h5, h6]

/-- One pass of `initializeConfig`: with the interrupts of its thirteen
transactions it returns, and the calls it has issued are these thirteen, in
this order.  The first read returns `h0, h1`, the second `t0, t1`, the third
`st0, st1`. -/
theorem initializeConfig_calls (p : Prog) (h0 h1 t0 t1 st0 st1 : Nat) (rest : List Irq)
    (hirq : p.irqs = configIrqs [h0, h1] [t0, t1] [st0, st1] ++ rest) :
    ∃ q, initializeConfig p = some q ∧
      (q.irqs = rest ∧
       q.calls = p.calls ++
        [Call.ReadReg SLAVE_ADDR 0xDB 2,
         Call.WriteReg SLAVE_ADDR 0x60 [0x90, 0x00],
         Call.WriteReg SLAVE_ADDR 0xBA [0x00, 0x00],
         Call.WriteReg SLAVE_ADDR 0x60 [0x00, 0x00],
         Call.WriteReg SLAVE_ADDR 0x18 [0xB0, 0x04],
         Call.ReadReg SLAVE_ADDR 0x18 2,
         Call.WriteReg SLAVE_ADDR 0x1E [0x80, 0x00],
         Call.WriteReg SLAVE_ADDR 0x3A [0x00, 0x96],
         Call.WriteReg SLAVE_ADDR 0xDB [0x00, 0x80],
         Call.WriteReg SLAVE_ADDR 0xBA [h0, h1],
         Call.WriteReg SLAVE_ADDR 0xBA [0x07, 0x80],
         Call.ReadReg SLAVE_ADDR 0x00 2,
         Call.WriteReg SLAVE_ADDR 0x00 [st0 &&& 0xFD, st1 &&& 0xFF]]) := by
  have hirq2 : p.irqs = readIrqs [h0, h1] ++ (writeIrqs 2 ++ (writeIrqs 2 ++ (writeIrqs 2 ++
      (writeIrqs 2 ++ (readIrqs [t0, t1] ++ (writeIrqs 2 ++ (writeIrqs 2 ++ (writeIrqs 2 ++
        (writeIrqs 2 ++ (writeIrqs 2 ++ (readIrqs [st0, st1] ++ (writeIrqs 2 ++ rest)))))))))))) := by
    rw [hirq, configIrqs]
    simp only [List.append_assoc]
  have k0 := issued_FSTAT p _ hirq2
  have k1 := issued_read_HibCFG _ _ _ _ _ _ _ _ SLAVE_ADDR 0xDB k0
  have k2 := issued_write _ _ _ _ _ _ SLAVE_ADDR 0x60 Write1 2 k1 (by omega)
  have k3 := issued_write _ _ _ _ _ _ SLAVE_ADDR 0xBA Write2 2 k2 (by omega)
  have k4 := issued_write _ _ _ _ _ _ SLAVE_ADDR 0x60 Write2 2 k3 (by omega)
  have k5 := issued_write _ _ _ _ _ _ SLAVE_ADDR 0x18 DesignCap 2 k4 (by omega)
  have k6 := issued_read_Test _ _ _ _ _ _ [t0, t1] SLAVE_ADDR 0x18 rfl k5
  have k7 := issued_write _ _ _ _ _ _ SLAVE_ADDR 0x1E IchgTerm 2 k6 (by omega)
  have k8 := issued_write _ _ _ _ _ _ SLAVE_ADDR 0x3A VEmpty 2 k7 (by omega)
  have k9 := issued_write _ _ _ _ _ _ SLAVE_ADDR 0xDB Write3 2 k8 (by omega)
  have k10 := issued_ModelCFG _ _ _ _ _ _ k9
  have k11 := issued_write_HibCFG _ _ _ _ _ _ SLAVE_ADDR 0xBA k10
  have k12 := issued_write _ _ _ _ _ _ SLAVE_ADDR 0xBA EnHib 2 k11 (by omega)
  have k13 := issued_read_Status _ _ _ _ _ _ _ _ SLAVE_ADDR 0x00 k12
  have k14 := issued_write_Status _ _ _ _ _ _ _ _ SLAVE_ADDR 0x00 k13
  obtain ⟨q, e, e1, e2, _, _⟩ := k14
  refine ⟨q, e, e1, ?_⟩
  rw [e2]
  rfl

/-- C20 fails on the code.  For every start state and whatever bytes the
device returns, `initializeConfig` served with the interrupts of its
transactions returns after exactly thirteen calls.  None of them reads register
`0x3D`: the first call is the read of `0xDB`, and the write to `0x60` follows
it at once.  The only read of `0xDB` is that first call, and the write of the
saved bytes `h0, h1` to `0xBA` (call number 10) is issued whatever the high
byte `h1` was.  Both polling loops are dead: `FSTAT[0] = 0` and
`ModelCFG[1] = 0` are assigned right before the loop tests. -/
theorem c20_initializeConfig_does_not_wait (p : Prog) (h0 h1 t0 t1 st0 st1 : Nat)
    (rest : List Irq)
    (hirq : p.irqs = configIrqs [h0, h1] [t0, t1] [st0, st1] ++ rest) :
    ∃ q, initializeConfig p = some q
      ∧ q.irqs = rest
      ∧ (q.calls.drop p.calls.length).length = 13
      ∧ (∀ c, c ∈ q.calls.drop p.calls.length → ∀ n, c ≠ Call.ReadReg SLAVE_ADDR 0x3D n)
      ∧ (q.calls.drop p.calls.length).take 2 =
          [Call.ReadReg SLAVE_ADDR 0xDB 2, Call.WriteReg SLAVE_ADDR 0x60 [0x90, 0x00]]
      ∧ (q.calls.drop p.calls.length).filter
            (fun c => decide (c = Call.ReadReg SLAVE_ADDR 0xDB 2)) =
          [Call.ReadReg SLAVE_ADDR 0xDB 2]
      ∧ (∀ c, c ∈ q.calls.drop p.calls.length → ∀ n, n ≠ 2 →
          c ≠ Call.ReadReg SLAVE_ADDR 0xDB n)
      ∧ (q.calls.drop p.calls.length)[9]? = some (Call.WriteReg SLAVE_ADDR 0xBA [h0, h1]) := by
  obtain ⟨q, hq, hi, hc⟩ := initializeConfig_calls p h0 h1 t0 t1 st0 st1 rest hirq
  refine ⟨q, hq, hi, ?_⟩
  rw [hc, List.drop_left]
  refine ⟨rfl, ?_, rfl, ?_, ?_, rfl⟩
  · intro c hc2 n
    simp only [List.mem_cons, List.mem_singleton, List.not_mem_nil, or_false] at hc2
    rcases hc2 with h | h | h | h | h | h | h | h | h | h | h | h | h <;> subst h <;>
      simp [SLAVE_ADDR]
  · simp [List.filter, SLAVE_ADDR]
  · intro c hc2 n hn
    simp only [List.mem_cons, List.mem_singleton, List.not_mem_nil, or_false] at hc2
    rcases hc2 with h | h | h | h | h | h | h | h | h | h | h | h | h <;> subst h <;>
      (simp [SLAVE_ADDR]; try omega)

/-- Witness of C20: from the start-up state, with a device that answers every
byte of the first and the last read with `0xFF`. -/
theorem c20_initializeConfig_does_not_wait_witness :
    (Prog.init (configIrqs [0xFF, 0xFF] [0xB0, 0x04] [0xFF, 0xFF] ++ [])).irqs =
      configIrqs [0xFF, 0xFF] [0xB0, 0x04] [0xFF, 0xFF] ++ []
    ∧ ∃ q, initializeConfig (Prog.init (configIrqs [0xFF, 0xFF] [0xB0, 0x04] [0xFF, 0xFF] ++ []))
          = some q
      ∧ q.irqs = []
      ∧ (q.calls.drop (Prog.init
          (configIrqs [0xFF, 0xFF] [0xB0, 0x04] [0xFF, 0xFF] ++ [])).calls.length).length = 13
      ∧ (∀ c, c ∈ q.calls.drop (Prog.init
          (configIrqs [0xFF, 0xFF] [0xB0, 0x04] [0xFF, 0xFF] ++ [])).calls.length → ∀ n,
            c ≠ Call.ReadReg SLAVE_ADDR 0x3D n)
      ∧ (q.calls.drop (Prog.init
          (configIrqs [0xFF, 0xFF] [0xB0, 0x04] [0xFF, 0xFF] ++ [])).calls.length).take 2 =
          [Call.ReadReg SLAVE_ADDR 0xDB 2, Call.WriteReg SLAVE_ADDR 0x60 [0x90, 0x00]]
      ∧ (q.calls.drop (Prog.init
          (configIrqs [0xFF, 0xFF] [0xB0, 0x04] [0xFF, 0xFF] ++ [])).calls.length).filter
            (fun c => decide (c = Call.ReadReg SLAVE_ADDR 0xDB 2)) =
          [Call.ReadReg SLAVE_ADDR 0xDB 2]
      ∧ (∀ c, c ∈ q.calls.drop (Prog.init
          (configIrqs [0xFF, 0xFF] [0xB0, 0x04] [0xFF, 0xFF] ++ [])).calls.length → ∀ n, n ≠ 2 →
          c ≠ Call.ReadReg SLAVE_ADDR 0xDB n)
      ∧ (q.calls.drop (Prog.init
          (configIrqs [0xFF, 0xFF] [0xB0, 0x04] [0xFF, 0xFF] ++ [])).calls.length)[9]? =
          some (Call.WriteReg SLAVE_ADDR 0xBA [0xFF, 0xFF]) :=
  ⟨rfl, c20_initializeConfig_does_not_wait
    (Prog.init (configIrqs [0xFF, 0xFF] [0xB0, 0x04] [0xFF, 0xFF] ++ []))
    0xFF 0xFF 0xB0 0x04 0xFF 0xFF [] rfl⟩


theorem serve_config (d : Nat → Nat → Nat) (h0 h1 st0 st1 : Nat) :
    serve d
      [Call.ReadReg SLAVE_ADDR 0xDB 2,
       Call.WriteReg SLAVE_ADDR 0x60 [0x90, 0x00],
       Call.WriteReg SLAVE_ADDR 0xBA [0x00, 0x00],
       Call.WriteReg SLAVE_ADDR 0x60 [0x00, 0x00],
       Call.WriteReg SLAVE_ADDR 0x18 [0xB0, 0x04],
       Call.ReadReg SLAVE_ADDR 0x18 2,
       Call.WriteReg SLAVE_ADDR 0x1E [0x80, 0x00],
       Call.WriteReg SLAVE_ADDR 0x3A [0x00, 0x96],
       Call.WriteReg SLAVE_ADDR 0xDB [0x00, 0x80],
       Call.WriteReg SLAVE_ADDR 0xBA [h0, h1],
       Call.WriteReg SLAVE_ADDR 0xBA [0x07, 0x80],
       Call.ReadReg SLAVE_ADDR 0x00 2,
       Call.WriteReg SLAVE_ADDR 0x00 [st0, st1]] =
    configIrqs [d 0xDB 0, d 0xDB 1] [0xB0, 0x04] [d 0x00 0, d 0x00 1] ++ [] := by
  have hr2 : List.range 2 = [0, 1] := rfl
  simp [serve, configIrqs, Device.read, Device.write, hr2]

/-- C21 fails on the code.  For every register file `d` of the gauge and every
start state, `initializeConfig` served by `d` returns after the thirteen calls
`cs`.  The read whose result is copied to `HibCFG` is the first call and
addresses register `0xDB`; no call reads register `0xBA`; and the bytes written
to `0xBA` in the restore step (call number 10) are the bytes `d` held in `0xDB`
at the start.  They are the bytes of `0xBA` only if the two registers happened
to hold the same value. -/
theorem c21_restore_writes_content_of_0xDB (p : Prog) (d : Nat → Nat → Nat) :
    ∃ (cs : List Call) (q : Prog),
      initializeConfig { p with irqs := serve d cs } = some q
      ∧ q.irqs = []
      ∧ q.calls = p.calls ++ cs
      ∧ cs.length = 13
      ∧ cs[0]? = some (Call.ReadReg SLAVE_ADDR 0xDB 2)
      ∧ (∀ c, c ∈ cs → ∀ n, c ≠ Call.ReadReg SLAVE_ADDR 0xBA n)
      ∧ cs[9]? = some (Call.WriteReg SLAVE_ADDR 0xBA [d 0xDB 0, d 0xDB 1])
      ∧ (cs[9]? = some (Call.WriteReg SLAVE_ADDR 0xBA [d 0xBA 0, d 0xBA 1]) ↔
          (d 0xDB 0 = d 0xBA 0 ∧ d 0xDB 1 = d 0xBA 1)) := by
  have hs := serve_config d (d 0xDB 0) (d 0xDB 1) (d 0x00 0 &&& 0xFD) (d 0x00 1 &&& 0xFF)
  obtain ⟨q, hq, hi, hc⟩ := initializeConfig_calls
    ({ p with irqs := (serve d
      [Call.ReadReg SLAVE_ADDR 0xDB 2,
       Call.WriteReg SLAVE_ADDR 0x60 [0x90, 0x00],
       Call.WriteReg SLAVE_ADDR 0xBA [0x00, 0x00],
       Call.WriteReg SLAVE_ADDR 0x60 [0x00, 0x00],
       Call.WriteReg SLAVE_ADDR 0x18 [0xB0, 0x04],
       Call.ReadReg SLAVE_ADDR 0x18 2,
       Call.WriteReg SLAVE_ADDR 0x1E [0x80, 0x00],
       Call.WriteReg SLAVE_ADDR 0x3A [0x00, 0x96],
       Call.WriteReg SLAVE_ADDR 0xDB [0x00, 0x80],
       Call.WriteReg SLAVE_ADDR 0xBA [d 0xDB 0, d 0xDB 1],
       Call.WriteReg SLAVE_ADDR 0xBA [0x07, 0x80],
       Call.ReadReg SLAVE_ADDR 0x00 2,
       Call.WriteReg SLAVE_ADDR 0x00 [d 0x00 0 &&& 0xFD, d 0x00 1 &&& 0xFF]]) } : Prog)
    (d 0xDB 0) (d 0xDB 1) 0xB0 0x04 (d 0x00 0) (d 0x00 1) [] hs
  refine ⟨_, q, hq, hi, hc, rfl, rfl, ?_, rfl, ?_⟩
  · intro c hc2 n
    simp only [List.mem_cons, List.mem_singleton, List.not_mem_nil, or_false] at hc2
    rcases hc2 with h | h | h | h | h | h | h | h | h | h | h | h | h <;> subst h <;>
      simp [SLAVE_ADDR]
  · simp

/-- The mask `0xFD` clears bit 1 of a byte and keeps its other bits. -/
theorem status_mask_low (s0 : Nat) (hs0 : s0 < 256) (k : Nat) :
    (s0 &&& 0xFD).testBit k = (s0.testBit k && decide (k ≠ 1)) := by
  rw [Nat.testBit_and]
  by_cases hk : k < 8
  · have hc : (0xFD : Nat).testBit k = decide (k ≠ 1) := by interval_cases k <;> decide
    rw [hc]
  · have : s0.testBit k = false := by
      apply Nat.testBit_lt_two_pow
      calc s0 < 2 ^ 8 := hs0
        _ ≤ 2 ^ k := Nat.pow_le_pow_right (by omega) (by omega)
    simp [this]

/-- The two masked bytes are the 16-bit value masked with `0xFFFD`. -/
theorem status_mask_word (s0 s1 : Nat) (h0 : s0 < 256) (h1 : s1 < 256) :
    (s0 &&& 0xFD) + 256 * s1 = (s0 + 256 * s1) &&& 0xFFFD := by
  apply Nat.eq_of_testBit_eq
  intro k
  have ha : s0 &&& 0xFD < 2 ^ 8 := lt_of_le_of_lt Nat.and_le_left h0
  have e1 : (s0 &&& 0xFD) + 256 * s1 = 2 ^ 8 * s1 + (s0 &&& 0xFD) := by ring
  have e2 : s0 + 256 * s1 = 2 ^ 8 * s1 + s0 := by ring
  rw [Nat.testBit_and, e1, e2, Nat.testBit_mul_pow_two_add _ ha, Nat.testBit_mul_pow_two_add _ h0]
  by_cases hk : k < 8
  · simp only [hk, if_true, Nat.testBit_and]
    have hc : (0xFD : Nat).testBit k = (0xFFFD : Nat).testBit k := by
      interval_cases k <;> decide
    rw [hc]
  · simp only [hk, if_false]
    by_cases hk2 : k < 16
    · have : (0xFFFD : Nat).testBit k = true := by interval_cases k <;> decide
      simp [this]
    · have : s1.testBit (k - 8) = false := by
        apply Nat.testBit_lt_two_pow
        calc s1 < 2 ^ 8 := h1
          _ ≤ 2 ^ (k - 8) := Nat.pow_le_pow_right (by omega) (by omega)
      simp [this]

/-- C22: the write-back of `Status` clears only POR.  For every start state and
all bytes `s0, s1` returned by the final read of register `0x00` (call number
12 of `initializeConfig`), the last call writes to register `0x00` the two
bytes `s0 & 0xFD` and `s1`: bit 1 of the low byte is cleared, every other bit of
the low byte and the whole high byte are unchanged, and as a 16-bit value the
bytes written are `Status & 0xFFFD`. -/
theorem c22_status_write_back_clears_only_POR (p : Prog) (h0 h1 t0 t1 s0 s1 : Nat)
    (rest : List Irq)
    (hirq : p.irqs = configIrqs [h0, h1] [t0, t1] [s0, s1] ++ rest)
    (hs0 : s0 < 256) (hs1 : s1 < 256) :
    ∃ q, initializeConfig p = some q
      ∧ (q.calls.drop p.calls.length)[11]? = some (Call.ReadReg SLAVE_ADDR 0x00 2)
      ∧ (q.calls.drop p.calls.length)[12]? =
          some (Call.WriteReg SLAVE_ADDR 0x00 [s0 &&& 0xFD, s1])
      ∧ q.calls.getLast? = some (Call.WriteReg SLAVE_ADDR 0x00 [s0 &&& 0xFD, s1])
      ∧ (∀ k, (s0 &&& 0xFD).testBit k = (s0.testBit k && decide (k ≠ 1)))
      ∧ (s0 &&& 0xFD) + 256 * s1 = (s0 + 256 * s1) &&& 0xFFFD := by
  obtain ⟨q, hq, _, hc⟩ := initializeConfig_calls p h0 h1 t0 t1 s0 s1 rest hirq
  have hy : s1 &&& 0xFF = s1 := by
    have := Nat.and_pow_two_sub_one_eq_mod s1 8
    simpa [Nat.mod_eq_of_lt hs1] using this
  rw [hy] at hc
  refine ⟨q, hq, ?_, ?_, ?_, status_mask_low s0 hs0, status_mask_word s0 s1 hs0 hs1⟩
  · rw [hc, List.drop_left]; rfl
  · rw [hc, List.drop_left]; rfl
  · rw [hc, List.getLast?_append]
    rfl

/-- Witness of C22: the start-up state and a gauge that reports `Status = 0x8082`
(POR set). -/
theorem c22_status_write_back_clears_only_POR_witness :
    ((Prog.init (configIrqs [0x00, 0x80] [0xB0, 0x04] [0x82, 0x80] ++ [])).irqs =
        configIrqs [0x00, 0x80] [0xB0, 0x04] [0x82, 0x80] ++ []
      ∧ 0x82 < 256 ∧ 0x80 < 256)
    ∧ ∃ q, initializeConfig (Prog.init (configIrqs [0x00, 0x80] [0xB0, 0x04] [0x82, 0x80] ++ []))
          = some q
      ∧ (q.calls.drop (Prog.init
          (configIrqs [0x00, 0x80] [0xB0, 0x04] [0x82, 0x80] ++ [])).calls.length)[11]? =
          some (Call.ReadReg SLAVE_ADDR 0x00 2)
      ∧ (q.calls.drop (Prog.init
          (configIrqs [0x00, 0x80] [0xB0, 0x04] [0x82, 0x80] ++ [])).calls.length)[12]? =
          some (Call.WriteReg SLAVE_ADDR 0x00 [0x82 &&& 0xFD, 0x80])
      ∧ q.calls.getLast? = some (Call.WriteReg SLAVE_ADDR 0x00 [0x82 &&& 0xFD, 0x80])
      ∧ (∀ k, (0x82 &&& 0xFD).testBit k = (Nat.testBit 0x82 k && decide (k ≠ 1)))
      ∧ (0x82 &&& 0xFD) + 256 * 0x80 = (0x82 + 256 * 0x80) &&& 0xFFFD :=
  ⟨⟨rfl, by decide, by decide⟩,
   c22_status_write_back_clears_only_POR
     (Prog.init (configIrqs [0x00, 0x80] [0xB0, 0x04] [0x82, 0x80] ++ []))
     0x00 0x80 0xB0 0x04 0x82 0x80 [] rfl (by decide) (by decide)⟩

end Gauge

/-! ## Properties of the standard SPI master -/

namespace SpiStd

/-- C7 fails on the code.  After `SPI_Master_WriteReg(CMD_TYPE_0_MASTER,
MasterType0, 0)` has sent the register byte `3`, the first RX interrupt does
not finish the transfer: `USCI_A1_ISR` reads `TransmitBuffer[0]`, sends it as
a payload byte, moves to `TX_DATA_MODE` (not `IDLE_MODE`), leaves `CPUOFF`
set and wraps `TXByteCtr` from 0 to 255; the call has not returned after this
interrupt, the second RX interrupt sends `TransmitBuffer[1]`, and the 21st
reads index `MAX_BUFFER_SIZE`, behind the end of `TransmitBuffer`, with the
caller still asleep. -/
theorem c7_spi_zero_length_write_failing_input :
    (SPI_Master_WriteReg_arm State.init 3 MasterType0 0).2 = [Ev.uca1tx 3]
    ∧ (SPI_Master_WriteReg_arm State.init 3 MasterType0 0).1.TXByteCtr = 0
    ∧ (USCI_A1_ISR .USCI_SPI_UCRXIFG 0 (SPI_Master_WriteReg_arm State.init 3 MasterType0 0).1).2 =
        [Ev.readTB 0, Ev.uca1tx 0]
    ∧ (USCI_A1_ISR .USCI_SPI_UCRXIFG 0
        (SPI_Master_WriteReg_arm State.init 3 MasterType0 0).1).1.MasterMode = .TX_DATA_MODE
    ∧ (USCI_A1_ISR .USCI_SPI_UCRXIFG 0
        (SPI_Master_WriteReg_arm State.init 3 MasterType0 0).1).1.CPUOFF = true
    ∧ (USCI_A1_ISR .USCI_SPI_UCRXIFG 0
        (SPI_Master_WriteReg_arm State.init 3 MasterType0 0).1).1.TXByteCtr = 255
    ∧ (SPI_Master_WriteReg State.init 3 MasterType0 0 [(.USCI_SPI_UCRXIFG, 0)]).isNone = true
    ∧ (run (SPI_Master_WriteReg_arm State.init 3 MasterType0 0).1
        [(.USCI_SPI_UCRXIFG, 0), (.USCI_SPI_UCRXIFG, 0)]).2 =
        [Ev.readTB 0, Ev.uca1tx 0, Ev.readTB 1, Ev.uca1tx 0]
    ∧ Ev.readTB MAX_BUFFER_SIZE ∈ (run (SPI_Master_WriteReg_arm State.init 3 MasterType0 0).1
        (List.replicate 21 (.USCI_SPI_UCRXIFG, 0))).2
    ∧ (SPI_Master_WriteReg State.init 3 MasterType0 0
        (List.replicate 21 (.USCI_SPI_UCRXIFG, 0))).isNone = true := by
  decide


theorem spi_setByte_same (buf : Nat → Nat) (i v : Nat) : setByte buf i v i = v := by
  simp [setByte]

theorem spi_setByte_other (buf : Nat → Nat) (i v j : Nat) (h : j ≠ i) :
    setByte buf i v j = buf j := by
  simp [setByte, h]

theorem spi_CopyArray_loop_get (source : Nat → Nat) (count : Nat) (hc : count < 256) :
    ∀ (fuel copyIndex : Nat) (dest : Nat → Nat) (j : Nat),
      copyIndex ≤ count → count ≤ copyIndex + fuel →
      CopyArray_loop source count fuel copyIndex dest j =
        if copyIndex ≤ j ∧ j < count then source j else dest j := by
  intro fuel
  induction fuel with
  | zero =>
    intro copyIndex dest j h1 h2
    have : ¬ (copyIndex ≤ j ∧ j < count) := by omega
    simp [CopyArray_loop, this]
  | succ fuel ih =>
    intro copyIndex dest j h1 h2
    unfold CopyArray_loop
    by_cases hlt : copyIndex < count
    · have hmod : (copyIndex + 1) % 256 = copyIndex + 1 := Nat.mod_eq_of_lt (by omega)
      rw [if_pos hlt, hmod, ih (copyIndex + 1) _ j (by omega) (by omega)]
      by_cases hj : j = copyIndex
      · subst hj
        have : ¬ (j + 1 ≤ j ∧ j < count) := by omega
        simp [this, hlt, spi_setByte_same]
      · rw [spi_setByte_other _ _ _ _ hj]
        by_cases h3 : copyIndex ≤ j ∧ j < count
        · have : copyIndex + 1 ≤ j ∧ j < count := by omega
          simp [this, h3]
        · have : ¬ (copyIndex + 1 ≤ j ∧ j < count) := by omega
          simp [this, h3]
    · have : ¬ (copyIndex ≤ j ∧ j < count) := by omega
      simp [hlt, this]

theorem spi_CopyArray_get (source dest : Nat → Nat) (count : Nat) (hc : count < 256) (j : Nat) :
    CopyArray source dest count j = if j < count then source j else dest j := by
  unfold CopyArray
  rw [spi_CopyArray_loop_get source count hc 256 0 dest j (by omega) (by omega)]
  simp

theorem spi_a1_addr_tx (rx : Nat) (s : State) (hm : s.MasterMode = .TX_REG_ADDRESS_MODE)
    (h : s.RXByteCtr = 0) :
    USCI_A1_ISR .USCI_SPI_UCRXIFG rx s =
      ({ s with
          MasterMode := .TX_DATA_MODE
          TransmitIndex := (s.TransmitIndex + 1) % 256
          TXByteCtr := (s.TXByteCtr + 255) % 256 },
       [Ev.readTB s.TransmitIndex, Ev.uca1tx (s.TransmitBuffer s.TransmitIndex)]) := by
  simp [USCI_A1_ISR, hm, h]

theorem spi_a1_addr_rx (rx : Nat) (s : State) (hm : s.MasterMode = .TX_REG_ADDRESS_MODE)
    (h : s.RXByteCtr ≠ 0) :
    USCI_A1_ISR .USCI_SPI_UCRXIFG rx s =
      ({ s with MasterMode := .RX_DATA_MODE }, [Ev.uca1tx DUMMY]) := by
  simp [USCI_A1_ISR, hm, h]

theorem spi_a1_tx_send (rx : Nat) (s : State) (hm : s.MasterMode = .TX_DATA_MODE)
    (h : s.TXByteCtr ≠ 0) :
    USCI_A1_ISR .USCI_SPI_UCRXIFG rx s =
      ({ s with
          TransmitIndex := (s.TransmitIndex + 1) % 256
          TXByteCtr := (s.TXByteCtr + 255) % 256 },
       [Ev.readTB s.TransmitIndex, Ev.uca1tx (s.TransmitBuffer s.TransmitIndex)]) := by
  simp [USCI_A1_ISR, hm, h]

theorem spi_a1_tx_done (rx : Nat) (s : State) (hm : s.MasterMode = .TX_DATA_MODE)
    (h : s.TXByteCtr = 0) :
    USCI_A1_ISR .USCI_SPI_UCRXIFG rx s =
      ({ s with MasterMode := .IDLE_MODE, CPUOFF := false }, [Ev.wake]) := by
  simp [USCI_A1_ISR, hm, h]

theorem spi_a1_rx_store (b : Nat) (s : State) (hm : s.MasterMode = .RX_DATA_MODE)
    (h : s.RXByteCtr ≠ 0) :
    USCI_A1_ISR .USCI_SPI_UCRXIFG b s =
      (if (s.RXByteCtr + 255) % 256 = 0 then
        ({ s with
            ReceiveBuffer := setByte s.ReceiveBuffer s.ReceiveIndex b
            ReceiveIndex := (s.ReceiveIndex + 1) % 256
            RXByteCtr := (s.RXByteCtr + 255) % 256
            MasterMode := .IDLE_MODE
            CPUOFF := false },
         [Ev.writeRB s.ReceiveIndex b, Ev.wake])
      else
        ({ s with
            ReceiveBuffer := setByte s.ReceiveBuffer s.ReceiveIndex b
            ReceiveIndex := (s.ReceiveIndex + 1) % 256
            RXByteCtr := (s.RXByteCtr + 255) % 256 },
         [Ev.writeRB s.ReceiveIndex b, Ev.uca1tx DUMMY])) := by
  simp only [USCI_A1_ISR, hm]
  by_cases h1 : (s.RXByteCtr + 255) % 256 = 0
  · simp [h, h1]
  · simp [h, h1]

theorem spi_run_nil (s : State) : run s [] = (s, []) := rfl

theorem spi_run_cons (s : State) (i : SPIVector × Nat) (rest : List (SPIVector × Nat)) :
    run s (i :: rest) =
      ((run (USCI_A1_ISR i.1 i.2 s).1 rest).1,
       (USCI_A1_ISR i.1 i.2 s).2 ++ (run (USCI_A1_ISR i.1 i.2 s).1 rest).2) := rfl

theorem spi_run_append (irqs rest : List (SPIVector × Nat)) : ∀ s : State,
    run s (irqs ++ rest) =
      ((run (run s irqs).1 rest).1, (run s irqs).2 ++ (run (run s irqs).1 rest).2) := by
  induction irqs with
  | nil => intro s; simp [spi_run_nil]
  | cons i irqs ih => intro s; simp [spi_run_cons, ih, List.append_assoc]

theorem spi_txBytes_append (l1 l2 : List Ev) : txBytes (l1 ++ l2) = txBytes l1 ++ txBytes l2 := by
  induction l1 with
  | nil => rfl
  | cons e l1 ih => cases e <;> simp [txBytes, ih]

theorem spi_txBytes_dataEvents (buf : Nat → Nat) (k : Nat) : ∀ i : Nat,
    txBytes (dataEvents buf i k) = (List.range k).map (fun n => buf (i + n)) := by
  induction k with
  | zero => intro i; rfl
  | succ k ih =>
    intro i
    rw [List.range_succ_eq_map]
    simp [dataEvents, txBytes, ih, Function.comp_def, Nat.add_assoc, Nat.add_comm 1]

theorem spi_wake_not_mem_dataEvents (buf : Nat → Nat) (k : Nat) : ∀ i : Nat,
    Ev.wake ∉ dataEvents buf i k := by
  induction k with
  | zero => intro i; simp [dataEvents]
  | succ k ih => intro i; simp [dataEvents, ih]

/-- The payload steps of a write: `vs.length` RX interrupts in `TX_DATA_MODE`
with as many bytes left. -/
theorem spi_run_tx_loop (vs : List Nat) : ∀ s : State,
    s.MasterMode = .TX_DATA_MODE → s.TXByteCtr = vs.length →
    s.TransmitIndex + vs.length < 256 →
    run s (rxIrqs vs) =
      ({ s with TransmitIndex := s.TransmitIndex + vs.length, TXByteCtr := 0 },
       dataEvents s.TransmitBuffer s.TransmitIndex vs.length) := by
  induction vs with
  | nil =>
    intro s _ hc _
    cases s
    simp_all [rxIrqs, spi_run_nil, dataEvents]
  | cons v rest ih =>
    intro s hm hc hi
    simp only [List.length_cons] at hc hi
    have h1 : (s.TransmitIndex + 1) % 256 = s.TransmitIndex + 1 := Nat.mod_eq_of_lt (by omega)
    have h2 : (s.TXByteCtr + 255) % 256 = rest.length := by omega
    have hstep := spi_a1_tx_send v s hm (by omega)
    rw [h1, h2] at hstep
    simp only [rxIrqs, List.map_cons, spi_run_cons, hstep]
    have := ih ({ s with TransmitIndex := s.TransmitIndex + 1, TXByteCtr := rest.length }) hm rfl
      (by simp only []; omega)
    simp only [rxIrqs] at this
    rw [this]
    simp [dataEvents, Nat.add_assoc, Nat.add_comm 1]

theorem spi_lpm_wait_wake (s : State) (i : SPIVector × Nat) (rest : List (SPIVector × Nat))
    (h : (USCI_A1_ISR i.1 i.2 s).1.CPUOFF = false) :
    lpm_wait s (i :: rest) = some (USCI_A1_ISR i.1 i.2 s) := by
  simp [lpm_wait, h]

theorem spi_lpm_wait_sleep (s : State) (i : SPIVector × Nat) (rest : List (SPIVector × Nat))
    (h : (USCI_A1_ISR i.1 i.2 s).1.CPUOFF = true) :
    lpm_wait s (i :: rest) =
      (lpm_wait (USCI_A1_ISR i.1 i.2 s).1 rest).map
        (fun q => (q.1, (USCI_A1_ISR i.1 i.2 s).2 ++ q.2)) := by
  simp [lpm_wait, h]

/-- The payload steps of a write do not wake the caller: the call returns only
with what follows them. -/
theorem spi_lpm_wait_tx_loop (vs : List Nat) (rest : List (SPIVector × Nat)) : ∀ s : State,
    s.MasterMode = .TX_DATA_MODE → s.TXByteCtr = vs.length →
    s.TransmitIndex + vs.length < 256 → s.CPUOFF = true →
    lpm_wait s (rxIrqs vs ++ rest) =
      (lpm_wait (run s (rxIrqs vs)).1 rest).map
        (fun q => (q.1, (run s (rxIrqs vs)).2 ++ q.2)) := by
  induction vs with
  | nil => intro s _ _ _ _; simp [rxIrqs, spi_run_nil]
  | cons v vs ih =>
    intro s hm hc hi hs
    simp only [List.length_cons] at hc hi
    have h1 : (s.TransmitIndex + 1) % 256 = s.TransmitIndex + 1 := Nat.mod_eq_of_lt (by omega)
    have h2 : (s.TXByteCtr + 255) % 256 = vs.length := by omega
    have hstep := spi_a1_tx_send v s hm (by omega)
    rw [h1, h2] at hstep
    have hoff : (USCI_A1_ISR SPIVector.USCI_SPI_UCRXIFG v s).1.CPUOFF = true := by
      rw [hstep]; exact hs
    have hcons : rxIrqs (v :: vs) ++ rest =
        (SPIVector.USCI_SPI_UCRXIFG, v) :: (rxIrqs vs ++ rest) := rfl
    have hcons2 : rxIrqs (v :: vs) = (SPIVector.USCI_SPI_UCRXIFG, v) :: rxIrqs vs := rfl
    rw [hcons, spi_lpm_wait_sleep _ _ _ hoff, hcons2, spi_run_cons]
    simp only []
    rw [hstep]
    simp only []
    rw [ih ({ s with TransmitIndex := s.TransmitIndex + 1, TXByteCtr := vs.length }) hm rfl
      (by simp only []; omega) hs]
    simp [Option.map_map, Function.comp_def, List.append_assoc]

theorem spi_lpm_wait_nil (s : State) : lpm_wait s [] = none := rfl

/-- C14: standard SPI master write, for every `reg_addr`, data and
`1 <= count <= MAX_BUFFER_SIZE`.  Arming drives chip select low and sends
`reg_addr`.  The first `count` RX interrupts send `reg_data[0..count-1]` in
order, leave `TX_DATA_MODE` with the caller asleep, and the call has not
returned; the RX interrupt number `count + 1` sets `IDLE_MODE` and wakes the
caller, and the call returns `IDLE_MODE` with chip select high, having written
to `UCA1TXBUF` exactly `reg_addr, reg_data[0], ..., reg_data[count-1]`. -/
theorem c14_spi_standard_write (s : State) (reg_addr : Nat) (reg_data : Nat → Nat)
    (count : Nat) (vs : List Nat) (v : Nat) (hlen : vs.length = count)
    (h1 : 1 ≤ count) (h2 : count ≤ MAX_BUFFER_SIZE) :
    (SPI_Master_WriteReg_arm s reg_addr reg_data count).1.SLAVE_CS = false
    ∧ (SPI_Master_WriteReg_arm s reg_addr reg_data count).2 = [Ev.uca1tx reg_addr]
    ∧ txBytes (run (SPI_Master_WriteReg_arm s reg_addr reg_data count).1 (rxIrqs vs)).2 =
        (List.range count).map reg_data
    ∧ Ev.wake ∉ (run (SPI_Master_WriteReg_arm s reg_addr reg_data count).1 (rxIrqs vs)).2
    ∧ (run (SPI_Master_WriteReg_arm s reg_addr reg_data count).1 (rxIrqs vs)).1.MasterMode =
        .TX_DATA_MODE
    ∧ SPI_Master_WriteReg s reg_addr reg_data count (rxIrqs vs) = none
    ∧ (USCI_A1_ISR .USCI_SPI_UCRXIFG v
        (run (SPI_Master_WriteReg_arm s reg_addr reg_data count).1 (rxIrqs vs)).1).2 = [Ev.wake]
    ∧ (SPI_Master_WriteReg s reg_addr reg_data count (rxIrqs (vs ++ [v]))).map
        (fun r => (r.1, r.2.1.MasterMode, r.2.1.CPUOFF, r.2.1.SLAVE_CS, txBytes r.2.2)) =
        some (.IDLE_MODE, .IDLE_MODE, false, true,
          reg_addr :: (List.range count).map reg_data) := by
  have hc : count < 256 := by simp [MAX_BUFFER_SIZE] at h2; omega
  obtain ⟨v0, vt, hvs⟩ : ∃ v0 vt, vs = v0 :: vt := by
    cases vs with
    | nil => simp at hlen; omega
    | cons a b => exact ⟨a, b, rfl⟩
  subst hvs
  simp only [List.length_cons] at hlen
  have e2 : (count + 255) % 256 = vt.length := by omega
  have hstep1 : USCI_A1_ISR .USCI_SPI_UCRXIFG v0
      (SPI_Master_WriteReg_arm s reg_addr reg_data count).1 =
      ({ (SPI_Master_WriteReg_arm s reg_addr reg_data count).1 with
          MasterMode := .TX_DATA_MODE, TransmitIndex := 1, TXByteCtr := vt.length },
       [Ev.readTB 0, Ev.uca1tx (CopyArray reg_data s.TransmitBuffer count 0)]) := by
    rw [spi_a1_addr_tx _ _ rfl rfl]
    simp [SPI_Master_WriteReg_arm, e2]
  have hloop := spi_run_tx_loop vt
    ({ (SPI_Master_WriteReg_arm s reg_addr reg_data count).1 with
          MasterMode := .TX_DATA_MODE, TransmitIndex := 1, TXByteCtr := vt.length })
    rfl rfl (by simp only []; omega)
  have hrun : run (SPI_Master_WriteReg_arm s reg_addr reg_data count).1 (rxIrqs (v0 :: vt)) =
      ({ (SPI_Master_WriteReg_arm s reg_addr reg_data count).1 with
          MasterMode := .TX_DATA_MODE, TransmitIndex := 1 + vt.length, TXByteCtr := 0 },
       dataEvents (CopyArray reg_data s.TransmitBuffer count) 0 (vt.length + 1)) := by
    have hcons2 : rxIrqs (v0 :: vt) = (SPIVector.USCI_SPI_UCRXIFG, v0) :: rxIrqs vt := rfl
    rw [hcons2, spi_run_cons]
    simp only []
    rw [hstep1]
    simp only []
    rw [hloop]
    simp [dataEvents, SPI_Master_WriteReg_arm]
  have hd : txBytes (dataEvents (CopyArray reg_data s.TransmitBuffer count) 0 (vt.length + 1)) =
      (List.range count).map reg_data := by
    rw [spi_txBytes_dataEvents, hlen]
    apply List.map_congr_left
    intro n hn
    have hn' : n < count := List.mem_range.mp hn
    simp [spi_CopyArray_get _ _ _ hc, hn']
  have hlast : USCI_A1_ISR .USCI_SPI_UCRXIFG v
      (run (SPI_Master_WriteReg_arm s reg_addr reg_data count).1 (rxIrqs (v0 :: vt))).1 =
      ({ (SPI_Master_WriteReg_arm s reg_addr reg_data count).1 with
          MasterMode := .IDLE_MODE, TransmitIndex := 1 + vt.length, TXByteCtr := 0,
          CPUOFF := false }, [Ev.wake]) := by
    rw [hrun, spi_a1_tx_done _ _ rfl rfl]
  have hoff1 : (USCI_A1_ISR SPIVector.USCI_SPI_UCRXIFG v0
      (SPI_Master_WriteReg_arm s reg_addr reg_data count).1).1.CPUOFF = true := by
    rw [hstep1]; rfl
  have hwait : ∀ rest : List (SPIVector × Nat),
      lpm_wait (SPI_Master_WriteReg_arm s reg_addr reg_data count).1
        (rxIrqs (v0 :: vt) ++ rest) =
      (lpm_wait (run (SPI_Master_WriteReg_arm s reg_addr reg_data count).1
          (rxIrqs (v0 :: vt))).1 rest).map
        (fun q => (q.1, (run (SPI_Master_WriteReg_arm s reg_addr reg_data count).1
          (rxIrqs (v0 :: vt))).2 ++ q.2)) := by
    intro rest
    have hcons : rxIrqs (v0 :: vt) ++ rest =
        (SPIVector.USCI_SPI_UCRXIFG, v0) :: (rxIrqs vt ++ rest) := rfl
    have hcons2 : rxIrqs (v0 :: vt) = (SPIVector.USCI_SPI_UCRXIFG, v0) :: rxIrqs vt := rfl
    rw [hcons, spi_lpm_wait_sleep _ _ _ hoff1, hcons2, spi_run_cons]
    simp only []
    rw [hstep1]
    simp only []
    rw [spi_lpm_wait_tx_loop vt rest
      ({ (SPI_Master_WriteReg_arm s reg_addr reg_data count).1 with
          MasterMode := .TX_DATA_MODE, TransmitIndex := 1, TXByteCtr := vt.length })
      rfl rfl (by simp only []; omega) rfl]
    simp [Option.map_map, Function.comp_def, List.append_assoc]
  refine ⟨rfl, rfl, ?_, ?_, ?_, ?_, ?_, ?_⟩
  · rw [hrun]; exact hd
  · rw [hrun]; exact spi_wake_not_mem_dataEvents _ _ _
  · rw [hrun]
  · have := hwait []
    rw [List.append_nil] at this
    simp only [SPI_Master_WriteReg]
    rw [this, spi_lpm_wait_nil]
    rfl
  · rw [hlast]
  · have happ : rxIrqs ((v0 :: vt) ++ [v]) =
        rxIrqs (v0 :: vt) ++ [(SPIVector.USCI_SPI_UCRXIFG, v)] := by
      simp [rxIrqs]
    simp only [SPI_Master_WriteReg]
    rw [happ, hwait, spi_lpm_wait_wake _ _ _ (by rw [hlast]), hlast, hrun]
    simp only [Option.map_some', SPI_Master_WriteReg_arm, spi_txBytes_append, hd]
    simp [txBytes]

/-- Witness of C14: the demo's write of `MasterType0` (one byte) to
`CMD_TYPE_0_MASTER`. -/
theorem c14_spi_standard_write_witness :
    ([0].length = 1 ∧ 1 ≤ 1 ∧ 1 ≤ MAX_BUFFER_SIZE)
    ∧ (SPI_Master_WriteReg State.init 3 MasterType0 1 (rxIrqs ([0] ++ [0]))).map
        (fun r => (r.1, r.2.1.MasterMode, r.2.1.CPUOFF, r.2.1.SLAVE_CS, txBytes r.2.2)) =
        some (.IDLE_MODE, .IDLE_MODE, false, true, [3, 0x11]) :=
  ⟨⟨rfl, by decide, by decide⟩,
   (c14_spi_standard_write State.init 3 MasterType0 1 [0] 0 rfl (by decide)
      (by decide)).2.2.2.2.2.2.2⟩

theorem spi_writeBytes_get (bs : List Nat) : ∀ (buf : Nat → Nat) (i j : Nat),
    writeBytes buf i bs j = if i ≤ j ∧ j < i + bs.length then bs.getD (j - i) 0 else buf j := by
  induction bs with
  | nil =>
    intro buf i j
    have : ¬ (i ≤ j ∧ j < i + ([] : List Nat).length) := by simp
    rw [if_neg this]; rfl
  | cons b rest ih =>
    intro buf i j
    rw [writeBytes, ih]
    by_cases hj : j = i
    · subst hj
      have : ¬ (j + 1 ≤ j ∧ j < j + 1 + rest.length) := by omega
      simp [this, spi_setByte_same]
    · rw [spi_setByte_other _ _ _ _ hj]
      by_cases h3 : i + 1 ≤ j ∧ j < i + 1 + rest.length
      · have h4 : i ≤ j ∧ j < i + (b :: rest).length := by simp; omega
        have h5 : j - i = (j - (i + 1)) + 1 := by omega
        rw [if_pos h3, if_pos h4, h5, List.getD_cons_succ]
      · have h4 : ¬ (i ≤ j ∧ j < i + (b :: rest).length) := by simp; omega
        rw [if_neg h3, if_neg h4]

theorem spi_rx_step (b : Nat) (s : State) (k : Nat) (hm : s.MasterMode = .RX_DATA_MODE)
    (h : s.RXByteCtr = k + 1) (hk : k + 1 < 256) :
    USCI_A1_ISR .USCI_SPI_UCRXIFG b s =
      (if k = 0 then
        ({ s with
            ReceiveBuffer := setByte s.ReceiveBuffer s.ReceiveIndex b
            ReceiveIndex := (s.ReceiveIndex + 1) % 256
            RXByteCtr := k
            MasterMode := .IDLE_MODE
            CPUOFF := false },
         [Ev.writeRB s.ReceiveIndex b, Ev.wake])
      else
        ({ s with
            ReceiveBuffer := setByte s.ReceiveBuffer s.ReceiveIndex b
            ReceiveIndex := (s.ReceiveIndex + 1) % 256
            RXByteCtr := k },
         [Ev.writeRB s.ReceiveIndex b, Ev.uca1tx DUMMY])) := by
  have h2 : (k + 1 + 255) % 256 = k := by omega
  rw [spi_a1_rx_store _ _ hm (by omega), h, h2]

/-- The receive steps of a read: `rs.length` RX interrupts in `RX_DATA_MODE` with
as many bytes left store `rs` and end the transfer. -/
theorem spi_run_rx_loop (rs : List Nat) : ∀ s : State,
    rs ≠ [] → s.MasterMode = .RX_DATA_MODE → s.RXByteCtr = rs.length →
    s.ReceiveIndex + rs.length < 256 →
    run s (rxIrqs rs) =
      ({ s with
          ReceiveBuffer := writeBytes s.ReceiveBuffer s.ReceiveIndex rs
          ReceiveIndex := s.ReceiveIndex + rs.length
          RXByteCtr := 0
          MasterMode := .IDLE_MODE
          CPUOFF := false },
       rxEvents s.ReceiveIndex rs) := by
  induction rs with
  | nil => intro s h; exact absurd rfl h
  | cons b rest ih =>
    intro s _ hm hc hi
    simp only [List.length_cons] at hc hi
    have h1 : (s.ReceiveIndex + 1) % 256 = s.ReceiveIndex + 1 := Nat.mod_eq_of_lt (by omega)
    have hstep := spi_rx_step b s rest.length hm hc (by omega)
    rw [h1] at hstep
    have hcons2 : rxIrqs (b :: rest) = (SPIVector.USCI_SPI_UCRXIFG, b) :: rxIrqs rest := rfl
    rw [hcons2, spi_run_cons]
    simp only []
    rw [hstep]
    cases rest with
    | nil => simp [rxIrqs, spi_run_nil, writeBytes, rxEvents]
    | cons b2 rest2 =>
      have hz : (b2 :: rest2).length ≠ 0 := by simp
      rw [if_neg hz]
      simp only []
      rw [ih ({ s with
            ReceiveBuffer := setByte s.ReceiveBuffer s.ReceiveIndex b
            ReceiveIndex := s.ReceiveIndex + 1
            RXByteCtr := (b2 :: rest2).length }) (by simp) hm rfl
        (by simp only [List.length_cons] at hi ⊢; omega)]
      simp [writeBytes, rxEvents, Nat.add_assoc, Nat.add_comm 1]

theorem spi_lpm_wait_rx_loop (rs : List Nat) : ∀ s : State,
    rs ≠ [] → s.MasterMode = .RX_DATA_MODE → s.RXByteCtr = rs.length →
    s.ReceiveIndex + rs.length < 256 → s.CPUOFF = true →
    lpm_wait s (rxIrqs rs) = some (run s (rxIrqs rs)) := by
  induction rs with
  | nil => intro s h; exact absurd rfl h
  | cons b rest ih =>
    intro s _ hm hc hi hs
    simp only [List.length_cons] at hc hi
    have h1 : (s.ReceiveIndex + 1) % 256 = s.ReceiveIndex + 1 := Nat.mod_eq_of_lt (by omega)
    have hstep := spi_rx_step b s rest.length hm hc (by omega)
    rw [h1] at hstep
    have hcons2 : rxIrqs (b :: rest) = (SPIVector.USCI_SPI_UCRXIFG, b) :: rxIrqs rest := rfl
    cases rest with
    | nil =>
      simp only [List.length_nil, if_true] at hstep
      rw [hcons2, spi_lpm_wait_wake _ _ _ (by rw [hstep]), spi_run_cons]
      simp [rxIrqs, spi_run_nil]
    | cons b2 rest2 =>
      have hz : (b2 :: rest2).length ≠ 0 := by simp
      rw [if_neg hz] at hstep
      have hoff : (USCI_A1_ISR SPIVector.USCI_SPI_UCRXIFG b s).1.CPUOFF = true := by
        rw [hstep]; exact hs
      rw [hcons2, spi_lpm_wait_sleep _ _ _ hoff, spi_run_cons]
      simp only []
      rw [hstep]
      simp only []
      rw [ih ({ s with
            ReceiveBuffer := setByte s.ReceiveBuffer s.ReceiveIndex b
            ReceiveIndex := s.ReceiveIndex + 1
            RXByteCtr := (b2 :: rest2).length }) (by simp) hm rfl
        (by simp only [List.length_cons] at hi ⊢; omega) hs]
      rfl

theorem spi_txBytes_rxEvents (rs : List Nat) : ∀ i : Nat,
    txBytes (rxEvents i rs) = List.replicate (rs.length - 1) DUMMY := by
  induction rs with
  | nil => intro i; rfl
  | cons b rest ih =>
    intro i
    simp only [rxEvents, txBytes, spi_txBytes_append, ih, List.length_cons]
    cases rest with
    | nil => rfl
    | cons b2 rest2 => simp [txBytes, List.replicate_succ]

theorem spi_getLast_rxEvents (rs : List Nat) (hne : rs ≠ []) : ∀ (i : Nat) (pre : List Ev),
    (pre ++ rxEvents i rs).getLast? = some Ev.wake := by
  induction rs with
  | nil => exact absurd rfl hne
  | cons b rest ih =>
    intro i pre
    cases rest with
    | nil => simp [rxEvents]
    | cons b2 rest2 =>
      have := ih (by simp) (i + 1) (pre ++ [Ev.writeRB i b, Ev.uca1tx DUMMY])
      simpa [rxEvents, List.append_assoc] using this

/-- C15: standard SPI master read, for every `reg_addr` and
`1 <= count <= MAX_BUFFER_SIZE`.  With one RX interrupt for the register byte
(value `r0`) followed by `count` RX interrupts carrying `rs`, the call returns
`IDLE_MODE` with `CPUOFF` clear and chip select high, having written to
`UCA1TXBUF` exactly `reg_addr` followed by `count` times `DUMMY`; `r0` is stored
nowhere, `ReceiveBuffer[i] == rs[i]` for `i < count`, the rest of the buffer is as
it was, `ReceiveIndex == count` and `RXByteCtr == 0`. -/
theorem c15_spi_standard_read (s : State) (reg_addr count : Nat) (rs : List Nat) (r0 : Nat)
    (hlen : rs.length = count) (h1 : 1 ≤ count) (h2 : count ≤ MAX_BUFFER_SIZE) :
    ∃ (st : State) (evs : List Ev),
      SPI_Master_ReadReg s reg_addr count ((SPIVector.USCI_SPI_UCRXIFG, r0) :: rxIrqs rs) =
        some (.IDLE_MODE, st, evs)
      ∧ txBytes evs = reg_addr :: List.replicate count DUMMY
      ∧ (∀ i, i < count → st.ReceiveBuffer i = rs.getD i 0)
      ∧ (∀ i, count ≤ i → st.ReceiveBuffer i = s.ReceiveBuffer i)
      ∧ st.ReceiveIndex = count ∧ st.RXByteCtr = 0 ∧ st.MasterMode = .IDLE_MODE
      ∧ st.CPUOFF = false ∧ st.SLAVE_CS = true ∧ evs.getLast? = some Ev.wake := by
  subst hlen
  have hc : rs.length < 256 := by unfold MAX_BUFFER_SIZE at h2; omega
  have hne : rs ≠ [] := by intro hh; simp [hh] at h1
  have hstep1 : USCI_A1_ISR .USCI_SPI_UCRXIFG r0 (SPI_Master_ReadReg_arm s reg_addr rs.length).1 =
      ({ (SPI_Master_ReadReg_arm s reg_addr rs.length).1 with MasterMode := .RX_DATA_MODE },
       [Ev.uca1tx DUMMY]) := by
    rw [spi_a1_addr_rx _ _ rfl (by show rs.length ≠ 0; omega)]
  have hrun := spi_run_rx_loop rs
    ({ (SPI_Master_ReadReg_arm s reg_addr rs.length).1 with MasterMode := .RX_DATA_MODE })
    hne rfl rfl (by simp [SPI_Master_ReadReg_arm]; omega)
  have hwait := spi_lpm_wait_rx_loop rs
    ({ (SPI_Master_ReadReg_arm s reg_addr rs.length).1 with MasterMode := .RX_DATA_MODE })
    hne rfl rfl (by simp [SPI_Master_ReadReg_arm]; omega) rfl
  have hoff : (USCI_A1_ISR SPIVector.USCI_SPI_UCRXIFG r0
      (SPI_Master_ReadReg_arm s reg_addr rs.length).1).1.CPUOFF = true := by
    rw [hstep1]; rfl
  have hcall : SPI_Master_ReadReg s reg_addr rs.length
      ((SPIVector.USCI_SPI_UCRXIFG, r0) :: rxIrqs rs) =
      some (.IDLE_MODE,
        { (SPI_Master_ReadReg_arm s reg_addr rs.length).1 with
          ReceiveBuffer := writeBytes s.ReceiveBuffer 0 rs
          ReceiveIndex := rs.length
          RXByteCtr := 0
          MasterMode := .IDLE_MODE
          CPUOFF := false
          SLAVE_CS := true },
        Ev.uca1tx reg_addr :: Ev.uca1tx DUMMY :: rxEvents 0 rs) := by
    simp only [SPI_Master_ReadReg]
    rw [spi_lpm_wait_sleep _ _ _ hoff]
    simp only []
    rw [hstep1]
    simp only []
    rw [hwait, hrun]
    simp [SPI_Master_ReadReg_arm]
  refine ⟨_, _, hcall, ?_, ?_, ?_, rfl, rfl, rfl, rfl, rfl, ?_⟩
  · simp only [txBytes, spi_txBytes_rxEvents]
    obtain ⟨n, hn⟩ : ∃ n, rs.length = n + 1 := ⟨rs.length - 1, by omega⟩
    rw [hn]
    simp [List.replicate_succ]
  · intro i hi
    simp [spi_writeBytes_get, hi]
  · intro i hi
    have : ¬ i < rs.length := by omega
    simp [spi_writeBytes_get, this]
  · exact spi_getLast_rxEvents rs hne 0 [Ev.uca1tx reg_addr, Ev.uca1tx DUMMY]

/-- Witness of C15: the demo's reads of length 6, 2 and 1
(`CMD_TYPE_2_SLAVE`, `CMD_TYPE_1_SLAVE`, `CMD_TYPE_0_SLAVE`). -/
theorem c15_spi_standard_read_witness :
    ([0x41, 0x42, 0x43, 0x44, 0x45, 0x46].length = 6 ∧ 1 ≤ 6 ∧ 6 ≤ MAX_BUFFER_SIZE)
    ∧ (∃ (st : State) (evs : List Ev),
      SPI_Master_ReadReg State.init 2 6
          ((SPIVector.USCI_SPI_UCRXIFG, 0) :: rxIrqs [0x41, 0x42, 0x43, 0x44, 0x45, 0x46]) =
        some (.IDLE_MODE, st, evs)
      ∧ txBytes evs = 2 :: List.replicate 6 DUMMY
      ∧ (∀ i, i < 6 → st.ReceiveBuffer i = [0x41, 0x42, 0x43, 0x44, 0x45, 0x46].getD i 0)
      ∧ (∀ i, 6 ≤ i → st.ReceiveBuffer i = State.init.ReceiveBuffer i)
      ∧ st.ReceiveIndex = 6 ∧ st.RXByteCtr = 0 ∧ st.MasterMode = .IDLE_MODE
      ∧ st.CPUOFF = false ∧ st.SLAVE_CS = true ∧ evs.getLast? = some Ev.wake)
    ∧ (∃ (st : State) (evs : List Ev),
      SPI_Master_ReadReg State.init 1 2
          ((SPIVector.USCI_SPI_UCRXIFG, 0) :: rxIrqs [0x0A, 0x0B]) =
        some (.IDLE_MODE, st, evs)
      ∧ txBytes evs = 1 :: List.replicate 2 DUMMY
      ∧ (∀ i, i < 2 → st.ReceiveBuffer i = [0x0A, 0x0B].getD i 0)
      ∧ (∀ i, 2 ≤ i → st.ReceiveBuffer i = State.init.ReceiveBuffer i)
      ∧ st.ReceiveIndex = 2 ∧ st.RXByteCtr = 0 ∧ st.MasterMode = .IDLE_MODE
      ∧ st.CPUOFF = false ∧ st.SLAVE_CS = true ∧ evs.getLast? = some Ev.wake)
    ∧ (∃ (st : State) (evs : List Ev),
      SPI_Master_ReadReg State.init 0 1
          ((SPIVector.USCI_SPI_UCRXIFG, 0) :: rxIrqs [0x12]) =
        some (.IDLE_MODE, st, evs)
      ∧ txBytes evs = 0 :: List.replicate 1 DUMMY
      ∧ (∀ i, i < 1 → st.ReceiveBuffer i = [0x12].getD i 0)
      ∧ (∀ i, 1 ≤ i → st.ReceiveBuffer i = State.init.ReceiveBuffer i)
      ∧ st.ReceiveIndex = 1 ∧ st.RXByteCtr = 0 ∧ st.MasterMode = .IDLE_MODE
      ∧ st.CPUOFF = false ∧ st.SLAVE_CS = true ∧ evs.getLast? = some Ev.wake) :=
  ⟨⟨rfl, by decide, by decide⟩,
   c15_spi_standard_read State.init 2 6 [0x41, 0x42, 0x43, 0x44, 0x45, 0x46] 0 rfl
     (by decide) (by decide),
   c15_spi_standard_read State.init 1 2 [0x0A, 0x0B] 0 rfl (by decide) (by decide),
   c15_spi_standard_read State.init 0 1 [0x12] 0 rfl (by decide) (by decide)⟩

end SpiStd

/-! ## Properties of the display driver -/

namespace Display

theorem disp_setByte_same (buf : Nat → Nat) (i v : Nat) : setByte buf i v i = v := by
  simp [setByte]

theorem disp_setByte_other (buf : Nat → Nat) (i v j : Nat) (h : j ≠ i) :
    setByte buf i v j = buf j := by
  simp [setByte, h]

theorem disp_CopyArray_loop_get (source : Nat → Nat) (count : Nat) (hc : count < 256) :
    ∀ (fuel copyIndex : Nat) (dest : Nat → Nat) (j : Nat),
      copyIndex ≤ count → count ≤ copyIndex + fuel →
      CopyArray_loop source count fuel copyIndex dest j =
        if copyIndex ≤ j ∧ j < count then source j else dest j := by
  intro fuel
  induction fuel with
  | zero =>
    intro copyIndex dest j h1 h2
    have : ¬ (copyIndex ≤ j ∧ j < count) := by omega
    simp [CopyArray_loop, this]
  | succ fuel ih =>
    intro copyIndex dest j h1 h2
    unfold CopyArray_loop
    by_cases hlt : copyIndex < count
    · have hmod : (copyIndex + 1) % 256 = copyIndex + 1 := Nat.mod_eq_of_lt (by omega)
      rw [if_pos hlt, hmod, ih (copyIndex + 1) _ j (by omega) (by omega)]
      by_cases hj : j = copyIndex
      · subst hj
        have : ¬ (j + 1 ≤ j ∧ j < count) := by omega
        simp [this, hlt, disp_setByte_same]
      · rw [disp_setByte_other _ _ _ _ hj]
        by_cases h3 : copyIndex ≤ j ∧ j < count
        · have : copyIndex + 1 ≤ j ∧ j < count := by omega
          simp [this, h3]
        · have : ¬ (copyIndex + 1 ≤ j ∧ j < count) := by omega
          simp [this, h3]
    · have : ¬ (copyIndex ≤ j ∧ j < count) := by omega
      simp [hlt, this]

theorem disp_CopyArray_get (source dest : Nat → Nat) (count : Nat) (hc : count < 256) (j : Nat) :
    CopyArray source dest count j = if j < count then source j else dest j := by
  unfold CopyArray
  rw [disp_CopyArray_loop_get source count hc 256 0 dest j (by omega) (by omega)]
  simp

theorem disp_a1_tx_send (rx : Nat) (s : State) (hm : s.MasterMode = .TX_DATA_MODE)
    (h : s.TXByteCtr ≠ 0) :
    USCI_A1_ISR .USCI_SPI_UCRXIFG rx s =
      ({ s with
          TransmitIndex := (s.TransmitIndex + 1) % 256
          TXByteCtr := (s.TXByteCtr + 255) % 256 },
       [Ev.readTB s.TransmitIndex, Ev.uca1tx (s.TransmitBuffer s.TransmitIndex)]) := by
  simp [USCI_A1_ISR, hm, h]

theorem disp_a1_tx_done (rx : Nat) (s : State) (hm : s.MasterMode = .TX_DATA_MODE)
    (h : s.TXByteCtr = 0) :
    USCI_A1_ISR .USCI_SPI_UCRXIFG rx s =
      ({ s with MasterMode := .IDLE_MODE, CPUOFF := false }, [Ev.wake]) := by
  simp [USCI_A1_ISR, hm, h]

theorem disp_run_nil (s : State) : run s [] = (s, []) := rfl

theorem disp_run_cons (s : State) (i : SPIVector × Nat) (rest : List (SPIVector × Nat)) :
    run s (i :: rest) =
      ((run (USCI_A1_ISR i.1 i.2 s).1 rest).1,
       (USCI_A1_ISR i.1 i.2 s).2 ++ (run (USCI_A1_ISR i.1 i.2 s).1 rest).2) := rfl

theorem disp_run_append (irqs rest : List (SPIVector × Nat)) : ∀ s : State,
    run s (irqs ++ rest) =
      ((run (run s irqs).1 rest).1, (run s irqs).2 ++ (run (run s irqs).1 rest).2) := by
  induction irqs with
  | nil => intro s; simp [disp_run_nil]
  | cons i irqs ih => intro s; simp [disp_run_cons, ih, List.append_assoc]

theorem disp_txBytes_append (l1 l2 : List Ev) : txBytes (l1 ++ l2) = txBytes l1 ++ txBytes l2 := by
  induction l1 with
  | nil => rfl
  | cons e l1 ih => cases e <;> simp [txBytes, ih]

theorem disp_txBytes_dataEvents (buf : Nat → Nat) (k : Nat) : ∀ i : Nat,
    txBytes (dataEvents buf i k) = (List.range k).map (fun n => buf (i + n)) := by
  induction k with
  | zero => intro i; rfl
  | succ k ih =>
    intro i
    rw [List.range_succ_eq_map]
    simp [dataEvents, txBytes, ih, Function.comp_def, Nat.add_assoc, Nat.add_comm 1]

theorem disp_wake_not_mem_dataEvents (buf : Nat → Nat) (k : Nat) : ∀ i : Nat,
    Ev.wake ∉ dataEvents buf i k := by
  induction k with
  | zero => intro i; simp [dataEvents]
  | succ k ih => intro i; simp [dataEvents, ih]

/-- The payload steps of a write: `vs.length` RX interrupts in `TX_DATA_MODE`
with as many bytes left. -/
theorem disp_run_tx_loop (vs : List Nat) : ∀ s : State,
    s.MasterMode = .TX_DATA_MODE → s.TXByteCtr = vs.length →
    s.TransmitIndex + vs.length < 256 →
    run s (rxIrqs vs) =
      ({ s with TransmitIndex := s.TransmitIndex + vs.length, TXByteCtr := 0 },
       dataEvents s.TransmitBuffer s.TransmitIndex vs.length) := by
  induction vs with
  | nil =>
    intro s _ hc _
    cases s
    simp_all [rxIrqs, disp_run_nil, dataEvents]
  | cons v rest ih =>
    intro s hm hc hi
    simp only [List.length_cons] at hc hi
    have h1 : (s.TransmitIndex + 1) % 256 = s.TransmitIndex + 1 := Nat.mod_eq_of_lt (by omega)
    have h2 : (s.TXByteCtr + 255) % 256 = rest.length := by omega
    have hstep := disp_a1_tx_send v s hm (by omega)
    rw [h1, h2] at hstep
    simp only [rxIrqs, List.map_cons, disp_run_cons, hstep]
    have := ih ({ s with TransmitIndex := s.TransmitIndex + 1, TXByteCtr := rest.length }) hm rfl
      (by simp only []; omega)
    simp only [rxIrqs] at this
    rw [this]
    simp [dataEvents, Nat.add_assoc, Nat.add_comm 1]

theorem disp_lpm_wait_wake (s : State) (i : SPIVector × Nat) (rest : List (SPIVector × Nat))
    (h : (USCI_A1_ISR i.1 i.2 s).1.CPUOFF = false) :
    lpm_wait s (i :: rest) =
      some ((USCI_A1_ISR i.1 i.2 s).1, (USCI_A1_ISR i.1 i.2 s).2, rest) := by
  simp [lpm_wait, h]

theorem disp_lpm_wait_sleep (s : State) (i : SPIVector × Nat) (rest : List (SPIVector × Nat))
    (h : (USCI_A1_ISR i.1 i.2 s).1.CPUOFF = true) :
    lpm_wait s (i :: rest) =
      (lpm_wait (USCI_A1_ISR i.1 i.2 s).1 rest).map
        (fun q => (q.1, (USCI_A1_ISR i.1 i.2 s).2 ++ q.2.1, q.2.2)) := by
  simp [lpm_wait, h]

/-- The payload steps of a write do not wake the caller: the call returns only
with what follows them. -/
theorem disp_lpm_wait_tx_loop (vs : List Nat) (rest : List (SPIVector × Nat)) : ∀ s : State,
    s.MasterMode = .TX_DATA_MODE → s.TXByteCtr = vs.length →
    s.TransmitIndex + vs.length < 256 → s.CPUOFF = true →
    lpm_wait s (rxIrqs vs ++ rest) =
      (lpm_wait (run s (rxIrqs vs)).1 rest).map
        (fun q => (q.1, (run s (rxIrqs vs)).2 ++ q.2.1, q.2.2)) := by
  induction vs with
  | nil => intro s _ _ _ _; simp [rxIrqs, disp_run_nil]
  | cons v vs ih =>
    intro s hm hc hi hs
    simp only [List.length_cons] at hc hi
    have h1 : (s.TransmitIndex + 1) % 256 = s.TransmitIndex + 1 := Nat.mod_eq_of_lt (by omega)
    have h2 : (s.TXByteCtr + 255) % 256 = vs.length := by omega
    have hstep := disp_a1_tx_send v s hm (by omega)
    rw [h1, h2] at hstep
    have hoff : (USCI_A1_ISR SPIVector.USCI_SPI_UCRXIFG v s).1.CPUOFF = true := by
      rw [hstep]; exact hs
    have hcons : rxIrqs (v :: vs) ++ rest =
        (SPIVector.USCI_SPI_UCRXIFG, v) :: (rxIrqs vs ++ rest) := rfl
    have hcons2 : rxIrqs (v :: vs) = (SPIVector.USCI_SPI_UCRXIFG, v) :: rxIrqs vs := rfl
    rw [hcons, disp_lpm_wait_sleep _ _ _ hoff, hcons2, disp_run_cons]
    simp only []
    rw [hstep]
    simp only []
    rw [ih ({ s with TransmitIndex := s.TransmitIndex + 1, TXByteCtr := vs.length }) hm rfl
      (by simp only []; omega) hs]
    simp [Option.map_map, Function.comp_def, List.append_assoc]

theorem disp_rxIrqs_append (l1 l2 : List Nat) : rxIrqs (l1 ++ l2) = rxIrqs l1 ++ rxIrqs l2 := by
  simp [rxIrqs]

/-- The state the armed caller is in after `vt.length = count - 1` RX
interrupts: all `count` bytes are out, the cursor is `count`, the caller
sleeps. -/
theorem disp_run_armed (s : State) (reg_addr : Nat) (reg_data : Nat → Nat) (count : Nat)
    (vt : List Nat) (hlen : vt.length + 1 = count) (h2 : count < 256) :
    run (SPI_Master_WriteReg_arm s reg_addr reg_data count).1 (rxIrqs vt) =
      ({ (SPI_Master_WriteReg_arm s reg_addr reg_data count).1 with
          TransmitIndex := count, TXByteCtr := 0 },
       dataEvents (CopyArray reg_data s.TransmitBuffer count) 1 vt.length) := by
  have e1 : (count + 255) % 256 = vt.length := by omega
  rw [disp_run_tx_loop vt _ rfl (by simp [SPI_Master_WriteReg_arm, e1])
    (by simp [SPI_Master_WriteReg_arm]; omega)]
  have e3 : 1 + vt.length = count := by omega
  simp [SPI_Master_WriteReg_arm, e3]

/-- A complete write of the display driver: `count` RX interrupts, of which the
first `count - 1` send the bytes after the first and the last one ends the
transfer.  The caller resumes with the interrupts that follow. -/
theorem disp_write_call (s : State) (reg_addr : Nat) (reg_data : Nat → Nat) (count : Nat)
    (vs : List Nat) (rest : List (SPIVector × Nat))
    (hlen : vs.length = count) (h1 : 1 ≤ count) (h2 : count < 256) :
    SPI_Master_WriteReg s reg_addr reg_data count (rxIrqs vs ++ rest) =
      some (.IDLE_MODE,
        { s with
            MasterMode := .IDLE_MODE
            TransmitRegAddr := reg_addr
            TransmitBuffer := CopyArray reg_data s.TransmitBuffer count
            TXByteCtr := 0
            RXByteCtr := 0
            ReceiveIndex := 0
            TransmitIndex := count
            CPUOFF := false
            GIE := true },
        dataEvents (CopyArray reg_data s.TransmitBuffer count) 0 count ++ [Ev.wake],
        rest) := by
  have hne : vs ≠ [] := by intro hh; subst hh; simp at hlen; omega
  obtain ⟨vt, v, rfl⟩ : ∃ vt v, vs = vt ++ [v] :=
    ⟨vs.dropLast, vs.getLast hne, (List.dropLast_append_getLast hne).symm⟩
  have hl : vt.length + 1 = count := by simpa using hlen
  have hrun := disp_run_armed s reg_addr reg_data count vt hl h2
  have e1 : (count + 255) % 256 = vt.length := by omega
  have hw := disp_lpm_wait_tx_loop vt ((SPIVector.USCI_SPI_UCRXIFG, v) :: rest)
    (SPI_Master_WriteReg_arm s reg_addr reg_data count).1 rfl
    (by simp [SPI_Master_WriteReg_arm, e1]) (by simp [SPI_Master_WriteReg_arm]; omega) rfl
  have hdone := disp_a1_tx_done v
    ({ (SPI_Master_WriteReg_arm s reg_addr reg_data count).1 with
        TransmitIndex := count, TXByteCtr := 0 }) rfl rfl
  have hsplit : rxIrqs (vt ++ [v]) ++ rest =
      rxIrqs vt ++ ((SPIVector.USCI_SPI_UCRXIFG, v) :: rest) := by
    simp [rxIrqs]
  have hd : dataEvents (CopyArray reg_data s.TransmitBuffer count) 0 count =
      Ev.readTB 0 :: Ev.uca1tx (CopyArray reg_data s.TransmitBuffer count 0) ::
        dataEvents (CopyArray reg_data s.TransmitBuffer count) 1 vt.length := by
    rw [← hl]; rfl
  simp only [SPI_Master_WriteReg]
  rw [hsplit, hw, hrun]
  simp only []
  rw [disp_lpm_wait_wake _ _ _ (by rw [hdone])]
  simp only []
  rw [hdone, hd]
  simp [SPI_Master_WriteReg_arm]

theorem disp_lpm_wait_nil (s : State) : lpm_wait s [] = none := rfl

/-- C17: the write of the display driver sends the payload only, for every
`reg_addr`, data and `1 <= count <= MAX_BUFFER_SIZE`.  Arming enters
`TX_DATA_MODE` and sends `reg_data[0]`; after `count - 1` RX interrupts the
bytes written to `UCA1TXBUF` are `reg_data[0..count-1]` in order, the mode is
still `TX_DATA_MODE` and the call has not returned; the RX interrupt number
`count` sends nothing, sets `IDLE_MODE` and wakes the caller, so that the call
returns `IDLE_MODE` having sent exactly these `count` bytes.  The events of the
call are the same for every other register address `r`. -/
theorem c17_display_write_payload_only (s : State) (reg_addr : Nat) (reg_data : Nat → Nat)
    (count : Nat) (vt : List Nat) (v r : Nat)
    (hlen : vt.length + 1 = count) (h2 : count ≤ MAX_BUFFER_SIZE) :
    (SPI_Master_WriteReg_arm s reg_addr reg_data count).1.MasterMode = .TX_DATA_MODE
    ∧ (SPI_Master_WriteReg_arm s reg_addr reg_data count).2 = [Ev.readTB 0, Ev.uca1tx (reg_data 0)]
    ∧ txBytes ((SPI_Master_WriteReg_arm s reg_addr reg_data count).2 ++
        (run (SPI_Master_WriteReg_arm s reg_addr reg_data count).1 (rxIrqs vt)).2) =
        (List.range count).map reg_data
    ∧ (run (SPI_Master_WriteReg_arm s reg_addr reg_data count).1 (rxIrqs vt)).1.MasterMode =
        .TX_DATA_MODE
    ∧ SPI_Master_WriteReg s reg_addr reg_data count (rxIrqs vt) = none
    ∧ USCI_A1_ISR .USCI_SPI_UCRXIFG v
        (run (SPI_Master_WriteReg_arm s reg_addr reg_data count).1 (rxIrqs vt)).1 =
        ({ (run (SPI_Master_WriteReg_arm s reg_addr reg_data count).1 (rxIrqs vt)).1 with
            MasterMode := .IDLE_MODE, CPUOFF := false }, [Ev.wake])
    ∧ (SPI_Master_WriteReg s reg_addr reg_data count (rxIrqs (vt ++ [v]))).map
        (fun q => (q.1, q.2.1.MasterMode, q.2.1.CPUOFF, txBytes q.2.2.1, q.2.2.2)) =
        some (.IDLE_MODE, .IDLE_MODE, false, (List.range count).map reg_data, [])
    ∧ (SPI_Master_WriteReg s r reg_data count (rxIrqs (vt ++ [v]))).map (fun q => q.2.2.1) =
        (SPI_Master_WriteReg s reg_addr reg_data count (rxIrqs (vt ++ [v]))).map
          (fun q => q.2.2.1) := by
  have hc : count < 256 := by unfold MAX_BUFFER_SIZE at h2; omega
  have hrun := disp_run_armed s reg_addr reg_data count vt hlen hc
  have e1 : (count + 255) % 256 = vt.length := by omega
  have hw := disp_lpm_wait_tx_loop vt []
    (SPI_Master_WriteReg_arm s reg_addr reg_data count).1 rfl
    (by simp [SPI_Master_WriteReg_arm, e1]) (by simp [SPI_Master_WriteReg_arm]; omega) rfl
  have hcall := fun a => disp_write_call s a reg_data count (vt ++ [v]) []
    (by simp; omega) (by omega) hc
  simp only [List.append_nil] at hcall hw
  have hbytes : txBytes (dataEvents (CopyArray reg_data s.TransmitBuffer count) 0 count) =
      (List.range count).map reg_data := by
    rw [disp_txBytes_dataEvents]
    apply List.map_congr_left
    intro n hn
    have hn2 : n < count := List.mem_range.mp hn
    simp [disp_CopyArray_get _ _ _ hc, hn2]
  have h0 : CopyArray reg_data s.TransmitBuffer count 0 = reg_data 0 := by
    simp [disp_CopyArray_get _ _ _ hc]; omega
  have hd : dataEvents (CopyArray reg_data s.TransmitBuffer count) 0 count =
      Ev.readTB 0 :: Ev.uca1tx (CopyArray reg_data s.TransmitBuffer count 0) ::
        dataEvents (CopyArray reg_data s.TransmitBuffer count) 1 vt.length := by
    rw [← hlen]; rfl
  refine ⟨rfl, ?_, ?_, ?_, ?_, ?_, ?_, ?_⟩
  · simp [SPI_Master_WriteReg_arm, h0]
  · rw [hrun, ← hbytes, hd]
    simp [SPI_Master_WriteReg_arm]
  · rw [hrun]; rfl
  · simp only [SPI_Master_WriteReg]
    rw [hw, disp_lpm_wait_nil]
    rfl
  · rw [hrun]
    exact disp_a1_tx_done v _ rfl rfl
  · rw [hcall reg_addr]
    simp [disp_txBytes_append, hbytes, txBytes]
  · rw [hcall reg_addr, hcall r]
    rfl

/-- Witness of C17: the 18-byte line transfer of `display_update` for line 0 of
an all-zero image. -/
theorem c17_display_write_payload_only_witness :
    ((List.replicate 17 0).length + 1 = 18 ∧ 18 ≤ MAX_BUFFER_SIZE)
    ∧ (SPI_Master_WriteReg State.init 0 (display_line (fun _ => 0) 0) 18
        (rxIrqs (List.replicate 17 0 ++ [0]))).map
        (fun q => (q.1, q.2.1.MasterMode, q.2.1.CPUOFF, txBytes q.2.2.1, q.2.2.2)) =
        some (.IDLE_MODE, .IDLE_MODE, false,
          (List.range 18).map (display_line (fun _ => 0) 0), []) :=
  ⟨⟨rfl, by decide⟩,
   (c17_display_write_payload_only State.init 0 (display_line (fun _ => 0) 0) 18
      (List.replicate 17 0) 0 0 rfl (by decide)).2.2.2.2.2.2.1⟩


set_option maxRecDepth 100000 in
/-- The loop over `k` reverses the eight bits of a byte. -/
theorem disp_swap_bits_reverses :
    ∀ c, c < 256 → swap_bits c < 256 ∧ ∀ k, k < 8 → (swap_bits c).testBit (7 - k) = c.testBit k := by
  decide

set_option maxRecDepth 100000 in
/-- The address bytes of the 128 lines are pairwise distinct. -/
theorem disp_swap_bits_nodup :
    ((List.range 128).map (fun i => swap_bits (i + 1))).Nodup := by
  decide

/-- The bytes a completed write has sent are the first `count` bytes of the
caller's array. -/
theorem disp_txBytes_call (reg_data tb : Nat → Nat) (count : Nat) (hc : count < 256) :
    txBytes (dataEvents (CopyArray reg_data tb count) 0 count ++ [Ev.wake]) =
      (List.range count).map reg_data := by
  rw [disp_txBytes_append, disp_txBytes_dataEvents]
  simp only [txBytes, List.append_nil]
  apply List.map_congr_left
  intro n hn
  have hn2 : n < count := List.mem_range.mp hn
  simp [disp_CopyArray_get _ _ _ hc, hn2]

/-- The eighteen bytes of the array `line` in iteration `i`. -/
theorem disp_line_bytes (image_binary : Nat → Nat) (i : Nat) (hi : i < 128) :
    (List.range 18).map (display_line image_binary i) =
      swap_bits (i + 1) ::
        ((List.range 16).map (fun j => image_binary (16 * i + j)) ++ [0x00]) := by
  have h18 : List.range 18 = [0, 1, 2, 3, 4, 5, 6, 7, 8, 9, 10, 11, 12, 13, 14, 15, 16, 17] := by
    decide
  have h16 : List.range 16 = [0, 1, 2, 3, 4, 5, 6, 7, 8, 9, 10, 11, 12, 13, 14, 15] := by
    decide
  have hm : (i + 1) % 256 = i + 1 := Nat.mod_eq_of_lt (by omega)
  rw [h18, h16]
  simp [display_line, setByte, memcpy, hm, Nat.mul_comm i 16]

/-- The line loop of `display_update`: from line `i` on, with eighteen RX
interrupts per remaining line, it returns after `128 - i` calls that send the
lines `i .. 127` in order. -/
theorem disp_update_loop (image_binary : Nat → Nat) :
    ∀ (n i : Nat) (s : State) (vs : List Nat) (rest : List (SPIVector × Nat)),
      i + n = 128 → vs.length = 18 * n →
      ∃ (st : State) (calls : List (List Ev)),
        display_update_loop image_binary (n + 1) i s (rxIrqs vs ++ rest) = some (st, calls, rest)
        ∧ calls.map txBytes =
            (List.range n).map (fun l => (List.range 18).map (display_line image_binary (i + l)))
        ∧ st.display_com = s.display_com ∧ st.display_com_mask = s.display_com_mask
        ∧ st.SLAVE_CS = s.SLAVE_CS := by
  intro n
  induction n with
  | zero =>
    intro i s vs rest hi hl
    have hv : vs = [] := List.length_eq_zero.mp (by omega)
    subst hv
    refine ⟨s, [], ?_, rfl, rfl, rfl, rfl⟩
    have : ¬ i < 128 := by omega
    simp [display_update_loop, this, rxIrqs]
  | succ n ih =>
    intro i s vs rest hi hl
    have hlt : i < 128 := by omega
    have hsplit : rxIrqs vs ++ rest =
        rxIrqs (vs.take 18) ++ (rxIrqs (vs.drop 18) ++ rest) := by
      rw [← List.append_assoc, ← disp_rxIrqs_append, List.take_append_drop]
    have hcall := disp_write_call s 0 (display_line image_binary i) 18 (vs.take 18)
      (rxIrqs (vs.drop 18) ++ rest) (by rw [List.length_take]; omega) (by omega) (by omega)
    have hm : (i + 1) % 65536 = i + 1 := Nat.mod_eq_of_lt (by omega)
    obtain ⟨st, calls, h1, h2, h3, h4, h5⟩ := ih (i + 1)
      ({ s with
          MasterMode := .IDLE_MODE
          TransmitRegAddr := 0
          TransmitBuffer := CopyArray (display_line image_binary i) s.TransmitBuffer 18
          TXByteCtr := 0
          RXByteCtr := 0
          ReceiveIndex := 0
          TransmitIndex := 18
          CPUOFF := false
          GIE := true })
      (vs.drop 18) rest (by omega) (by rw [List.length_drop]; omega)
    refine ⟨st, (dataEvents (CopyArray (display_line image_binary i) s.TransmitBuffer 18) 0 18 ++
      [Ev.wake]) :: calls, ?_, ?_, h3, h4, h5⟩
    · rw [display_update_loop, if_pos hlt, hsplit]
      have e : (16 + 2 : Nat) = 18 := rfl
      rw [e, hcall]
      simp only []
      rw [hm, h1]
      rfl
    · rw [List.map_cons, h2, disp_txBytes_call _ _ _ (by omega), List.range_succ_eq_map n,
        List.map_cons, List.map_map]
      refine congrArg₂ List.cons rfl ?_
      apply List.map_congr_left
      intro l _
      simp only [Function.comp, Nat.succ_eq_add_one]
      rw [show i + (l + 1) = i + 1 + l by omega]

/-- The transfers of `display_update`: with the 2306 RX interrupts of its 130
calls it returns, having sent the command byte, the 128 lines in order and
then once more element 0 of `NVM_READ_CMD`. -/
theorem disp_display_update (s : State) (image_binary : Nat → Nat) (vs : List Nat)
    (hlen : vs.length = 2306) :
    ∃ (st : State) (calls : List (List Ev)),
      display_update s image_binary (rxIrqs vs) = some (st, calls, [])
      ∧ calls.map txBytes =
          [(0x80 ||| s.display_com) % 256] ::
            ((List.range 128).map (fun l => (List.range 18).map (display_line image_binary l)) ++
              [[(0x80 ||| s.display_com) % 256]])
      ∧ st.display_com = (s.display_com ^^^ s.display_com_mask) % 256
      ∧ st.SLAVE_CS = false := by
  have hsplit : rxIrqs vs =
      rxIrqs (vs.take 1) ++ (rxIrqs ((vs.drop 1).take 2304) ++
        (rxIrqs ((vs.drop 1).drop 2304) ++ [])) := by
    rw [List.append_nil, ← disp_rxIrqs_append, ← disp_rxIrqs_append, List.take_append_drop,
      List.take_append_drop]
  have hc1 := disp_write_call ({ s with SLAVE_CS := true }) 0
    (setByte (fun _ => 0) 0 ((0x80 ||| s.display_com) % 256)) 1 (vs.take 1)
    (rxIrqs ((vs.drop 1).take 2304) ++ (rxIrqs ((vs.drop 1).drop 2304) ++ []))
    (by rw [List.length_take]; omega) (by omega) (by omega)
  obtain ⟨s3, calls, h1, h2, h3, h4, h5⟩ := disp_update_loop image_binary 128 0
    ({ s with
        SLAVE_CS := true
        MasterMode := .IDLE_MODE
        TransmitRegAddr := 0
        TransmitBuffer :=
          CopyArray (setByte (fun _ => 0) 0 ((0x80 ||| s.display_com) % 256)) s.TransmitBuffer 1
        TXByteCtr := 0
        RXByteCtr := 0
        ReceiveIndex := 0
        TransmitIndex := 1
        CPUOFF := false
        GIE := true
        display_com := (s.display_com ^^^ s.display_com_mask) % 256 })
    ((vs.drop 1).take 2304) (rxIrqs ((vs.drop 1).drop 2304) ++ []) (by omega)
    (by rw [List.length_take, List.length_drop]; omega)
  have hc2 := disp_write_call s3 0
    (setByte (setByte (fun _ => 0) 0 ((0x80 ||| s.display_com) % 256)) 1 0x00) 1
    ((vs.drop 1).drop 2304) []
    (by rw [List.length_drop, List.length_drop]; omega) (by omega) (by omega)
  refine ⟨{ ({ s3 with
        MasterMode := .IDLE_MODE
        TransmitRegAddr := 0
        TransmitBuffer := CopyArray
          (setByte (setByte (fun _ => 0) 0 ((0x80 ||| s.display_com) % 256)) 1 0x00)
          s3.TransmitBuffer 1
        TXByteCtr := 0
        RXByteCtr := 0
        ReceiveIndex := 0
        TransmitIndex := 1
        CPUOFF := false
        GIE := true } : State) with SLAVE_CS := false },
    (dataEvents (CopyArray (setByte (fun _ => 0) 0 ((0x80 ||| s.display_com) % 256))
        s.TransmitBuffer 1) 0 1 ++ [Ev.wake]) :: calls ++
      [dataEvents (CopyArray
        (setByte (setByte (fun _ => 0) 0 ((0x80 ||| s.display_com) % 256)) 1 0x00)
        s3.TransmitBuffer 1) 0 1 ++ [Ev.wake]], ?_, ?_, ?_, ?_⟩
  · rw [display_update, hsplit]
    simp only []
    rw [hc1]
    simp only []
    rw [h1]
    simp only []
    rw [hc2]
  · simp only [List.map_append, List.map_cons, List.map_nil, List.cons_append, h2]
    rw [disp_txBytes_call _ _ _ (by omega), disp_txBytes_call _ _ _ (by omega)]
    have h1r : List.range 1 = [0] := rfl
    simp only [h1r, List.map_cons, List.map_nil, setByte]
    simp
  · simp only []
    exact h3
  · rfl

theorem disp_cmd_byte (c : Nat) (hc : c < 256) :
    (0x80 ||| c) % 256 = 0x80 ||| c ∧ (0x80 ||| c) ≠ 0x00 := by
  constructor
  · apply Nat.mod_eq_of_lt
    exact Nat.or_lt_two_pow (n := 8) (by decide) hc
  · intro h
    have h7 : (0x80 ||| c).testBit 7 = true := by
      rw [Nat.testBit_or]; simp; left; decide
    rw [h] at h7
    simp at h7

/-- C18: line framing of `display_update`, for every image and every value of
`display_com`.  With the RX interrupts of its transfers `display_update`
returns; its first transfer is the single byte `0x80 | display_com`, and the
next 128 transfers are, for `i = 0 .. 127` in increasing order, the eighteen
bytes `swap_bits (i + 1)`, `image_binary[16*i .. 16*i+15]`, `0x00`.
`swap_bits (i + 1)` is the bit reversal of `i + 1` (bit `k` of `i + 1` is bit
`7 - k` of it), and the 128 address bytes are pairwise distinct. -/
theorem c18_display_update_framing (s : State) (image_binary : Nat → Nat) (vs : List Nat)
    (hcom : s.display_com < 256) (hlen : vs.length = 2306) :
    ∃ (st : State) (calls : List (List Ev)),
      display_update s image_binary (rxIrqs vs) = some (st, calls, [])
      ∧ (calls.map txBytes).take 129 =
          [0x80 ||| s.display_com] ::
            (List.range 128).map (fun i =>
              swap_bits (i + 1) ::
                ((List.range 16).map (fun j => image_binary (16 * i + j)) ++ [0x00]))
      ∧ (∀ i, i < 128 → swap_bits (i + 1) < 256 ∧
          ∀ k, k < 8 → (swap_bits (i + 1)).testBit (7 - k) = (i + 1).testBit k)
      ∧ ((List.range 128).map (fun i => swap_bits (i + 1))).Nodup := by
  obtain ⟨st, calls, h1, h2, _, _⟩ := disp_display_update s image_binary vs hlen
  refine ⟨st, calls, h1, ?_, ?_, disp_swap_bits_nodup⟩
  · rw [h2, (disp_cmd_byte _ hcom).1]
    have hl : ((List.range 128).map
        (fun l => (List.range 18).map (display_line image_binary l))).length = 128 := by simp
    rw [show (129 : Nat) = 128 + 1 from rfl, List.take_succ_cons, List.take_left' hl]
    refine congrArg₂ List.cons rfl ?_
    apply List.map_congr_left
    intro l hl2
    exact disp_line_bytes image_binary l (List.mem_range.mp hl2)
  · intro i hi
    exact disp_swap_bits_reverses (i + 1) (by omega)

/-- Witness of C18: an all-zero image from the start-up state. -/
theorem c18_display_update_framing_witness :
    (State.init.display_com < 256 ∧ (List.replicate 2306 0).length = 2306)
    ∧ ∃ (st : State) (calls : List (List Ev)),
      display_update State.init (fun _ => 0) (rxIrqs (List.replicate 2306 0)) =
        some (st, calls, [])
      ∧ (calls.map txBytes).take 129 =
          [0x80 ||| State.init.display_com] ::
            (List.range 128).map (fun i =>
              swap_bits (i + 1) ::
                ((List.range 16).map (fun j => (fun _ => 0) (16 * i + j)) ++ [0x00]))
      ∧ (∀ i, i < 128 → swap_bits (i + 1) < 256 ∧
          ∀ k, k < 8 → (swap_bits (i + 1)).testBit (7 - k) = (i + 1).testBit k)
      ∧ ((List.range 128).map (fun i => swap_bits (i + 1))).Nodup :=
  ⟨⟨by decide, List.length_replicate 2306 0⟩,
   c18_display_update_framing State.init (fun _ => 0) (List.replicate 2306 0)
     (by decide) (List.length_replicate 2306 0)⟩

/-- C19 fails on the code: the last transfer of `display_update` is one byte,
and for every image and every `display_com` that byte is `0x80 | display_com`,
the command byte of the first transfer, never `0x00`.  The assignment
`NVM_READ_CMD[1] = 0x00` before the call stores behind the one-element array,
and the call sends element 0. -/
theorem c19_trailing_byte_is_command (s : State) (image_binary : Nat → Nat) (vs : List Nat)
    (hcom : s.display_com < 256) (hlen : vs.length = 2306) :
    ∃ (st : State) (calls : List (List Ev)),
      display_update s image_binary (rxIrqs vs) = some (st, calls, [])
      ∧ calls.length = 130
      ∧ (calls.map txBytes).head? = some [0x80 ||| s.display_com]
      ∧ (calls.map txBytes).getLast? = some [0x80 ||| s.display_com]
      ∧ (calls.map txBytes).getLast? ≠ some [0x00] := by
  obtain ⟨st, calls, h1, h2, _, _⟩ := disp_display_update s image_binary vs hlen
  have hlast : (calls.map txBytes).getLast? = some [0x80 ||| s.display_com] := by
    rw [h2, (disp_cmd_byte _ hcom).1, ← List.cons_append, List.getLast?_append]
    rfl
  refine ⟨st, calls, h1, ?_, ?_, hlast, ?_⟩
  · have := congrArg List.length h2
    simpa using this
  · rw [h2, (disp_cmd_byte _ hcom).1]; rfl
  · rw [hlast]
    intro h
    have h3 : (0x80 ||| s.display_com) = 0x00 := by simpa using h
    exact (disp_cmd_byte _ hcom).2 h3

/-- Witness of C19: from the start-up state (`display_com == 0`) the last
transfer sends `0x80`. -/
theorem c19_trailing_byte_is_command_witness :
    (State.init.display_com < 256 ∧ (List.replicate 2306 0).length = 2306)
    ∧ ∃ (st : State) (calls : List (List Ev)),
      display_update State.init (fun _ => 0) (rxIrqs (List.replicate 2306 0)) =
        some (st, calls, [])
      ∧ calls.length = 130
      ∧ (calls.map txBytes).head? = some [0x80 ||| State.init.display_com]
      ∧ (calls.map txBytes).getLast? = some [0x80 ||| State.init.display_com]
      ∧ (calls.map txBytes).getLast? ≠ some [0x00] :=
  ⟨⟨by decide, List.length_replicate 2306 0⟩,
   c19_trailing_byte_is_command State.init (fun _ => 0) (List.replicate 2306 0)
     (by decide) (List.length_replicate 2306 0)⟩

end Display

/-! ## Properties of the smart start-up loop -/

namespace SmartStartUp

theorem gauge_measurement_frame (s : State) (a : Answers) :
    (main_gauge_measurement s a).MainMode = s.MainMode
    ∧ (main_gauge_measurement s a).P3OUT = s.P3OUT := by
  unfold main_gauge_measurement
  simp only []
  split_ifs <;> exact ⟨rfl, rfl⟩

theorem switch_resultCAP (s : State) : (main_switch s).resultCAP = s.resultCAP := by
  unfold main_switch
  cases hm : s.MainMode <;> simp only [] <;> split_ifs <;> rfl

theorem switch_charging (s : State) (hm : s.MainMode = .CHARGING) :
    main_switch s =
      if s.resultCAP > thresholdCAP then
        { s with MainMode := .BOOTING, P3OUT := (s.P3OUT ||| 0x04) % 256 }
      else { s with TA1CCIE := true, TA1CCR0 := 65535 } := by
  unfold main_switch
  rw [hm]

theorem switch_booting (s : State) (hm : s.MainMode = .BOOTING) :
    main_switch s =
      if s.resultCAP < thresholdCAP_hysteresis then
        { s with MainMode := .CHARGING, P3OUT := (s.P3OUT &&& 0xFB) % 256 }
      else { s with TA0CCIE := true, TA0CCR0 := 32678 } := by
  unfold main_switch
  rw [hm]

theorem testBit_set_0x04 (x : Nat) : ((x ||| 0x04) % 256).testBit 2 = true := by
  have h : (256 : Nat) = 2 ^ 8 := rfl
  rw [h, Nat.testBit_mod_two_pow, Nat.testBit_or]
  have : (0x04 : Nat).testBit 2 = true := by decide
  simp [this]

theorem testBit_clear_0x04 (x : Nat) : ((x &&& 0xFB) % 256).testBit 2 = false := by
  have h : (256 : Nat) = 2 ^ 8 := rfl
  rw [h, Nat.testBit_mod_two_pow, Nat.testBit_and]
  have : (0xFB : Nat).testBit 2 = false := by decide
  simp [this]

/-- The switch keeps bit `0x04` of `P3OUT` in step with `MainMode`. -/
theorem switch_inv (s : State)
    (h : s.P3OUT.testBit 2 = true ↔ s.MainMode = .BOOTING) :
    (main_switch s).P3OUT.testBit 2 = true ↔ (main_switch s).MainMode = .BOOTING := by
  cases hm : s.MainMode with
  | CHARGING =>
    rw [switch_charging s hm]
    split_ifs
    · simp [testBit_set_0x04]
    · simpa [hm] using h
  | BOOTING =>
    rw [switch_booting s hm]
    split_ifs
    · simp [testBit_clear_0x04]
    · simpa [hm] using h

theorem loop_body_inv (s : State) (a : Answers)
    (h : s.P3OUT.testBit 2 = true ↔ s.MainMode = .BOOTING) :
    (main_loop_body s a).P3OUT.testBit 2 = true ↔ (main_loop_body s a).MainMode = .BOOTING := by
  unfold main_loop_body
  apply switch_inv
  rw [(gauge_measurement_frame s a).1, (gauge_measurement_frame s a).2]
  exact h

theorem loop_inv (as : List Answers) : ∀ s : State,
    (s.P3OUT.testBit 2 = true ↔ s.MainMode = .BOOTING) →
    ((main_loop s as).P3OUT.testBit 2 = true ↔ (main_loop s as).MainMode = .BOOTING) := by
  induction as with
  | nil => intro s h; exact h
  | cons a rest ih =>
    intro s h
    exact ih (main_loop_body s a) (loop_body_inv s a h)

/-- C23: hysteresis of the smart start-up.  In one iteration of the loop of
`main`, with `resultCAP` the value the switch tests (the value the gauge
measurement of this iteration has left), `MainMode` goes from `CHARGING` to
`BOOTING` exactly when `resultCAP > 1000`, and then bit `0x04` of `P3OUT` is
set; it goes from `BOOTING` to `CHARGING` exactly when `resultCAP < 900`, and
then that bit is cleared; for `900 <= resultCAP <= 1000` `MainMode` is
unchanged; and whenever `MainMode` is unchanged so is `P3OUT`.  Starting from
the state `initGPIO` leaves (`P3OUT == 0`, `MainMode == CHARGING`), after every
number of iterations bit `0x04` of `P3OUT` is set exactly when
`MainMode == BOOTING`. -/
theorem c23_smart_startup_hysteresis (s : State) (a : Answers) (as : List Answers) :
    (main_loop_body s a).resultCAP = (main_gauge_measurement s a).resultCAP
    ∧ (s.MainMode = .CHARGING →
        ((main_loop_body s a).MainMode = .BOOTING ↔ (main_loop_body s a).resultCAP > 1000))
    ∧ (s.MainMode = .CHARGING → (main_loop_body s a).resultCAP > 1000 →
        (main_loop_body s a).P3OUT = (s.P3OUT ||| 0x04) % 256
        ∧ (main_loop_body s a).P3OUT.testBit 2 = true)
    ∧ (s.MainMode = .BOOTING →
        ((main_loop_body s a).MainMode = .CHARGING ↔ (main_loop_body s a).resultCAP < 900))
    ∧ (s.MainMode = .BOOTING → (main_loop_body s a).resultCAP < 900 →
        (main_loop_body s a).P3OUT = (s.P3OUT &&& 0xFB) % 256
        ∧ (main_loop_body s a).P3OUT.testBit 2 = false)
    ∧ (900 ≤ (main_loop_body s a).resultCAP → (main_loop_body s a).resultCAP ≤ 1000 →
        (main_loop_body s a).MainMode = s.MainMode)
    ∧ ((main_loop_body s a).MainMode = s.MainMode → (main_loop_body s a).P3OUT = s.P3OUT)
    ∧ (State.init.P3OUT = 0 ∧ State.init.MainMode = .CHARGING)
    ∧ ((main_loop State.init as).P3OUT.testBit 2 = true ↔
        (main_loop State.init as).MainMode = .BOOTING) := by
  have hf := gauge_measurement_frame s a
  have hr : (main_loop_body s a).resultCAP = (main_gauge_measurement s a).resultCAP :=
    switch_resultCAP _
  refine ⟨hr, ?_, ?_, ?_, ?_, ?_, ?_, ⟨rfl, rfl⟩, ?_⟩
  · intro hm
    rw [hr]
    unfold main_loop_body
    rw [switch_charging _ (hf.1.trans hm)]
    unfold thresholdCAP
    split_ifs with h <;> simp [h, hf.1, hm]
  · intro hm hgt
    rw [hr] at hgt
    unfold main_loop_body
    rw [switch_charging _ (hf.1.trans hm)]
    unfold thresholdCAP
    rw [if_pos hgt]
    exact ⟨by simp [hf.2], testBit_set_0x04 _⟩
  · intro hm
    rw [hr]
    unfold main_loop_body
    rw [switch_booting _ (hf.1.trans hm)]
    unfold thresholdCAP_hysteresis
    split_ifs with h <;> simp [h, hf.1, hm]
  · intro hm hlt
    rw [hr] at hlt
    unfold main_loop_body
    rw [switch_booting _ (hf.1.trans hm)]
    unfold thresholdCAP_hysteresis
    rw [if_pos hlt]
    exact ⟨by simp [hf.2], testBit_clear_0x04 _⟩
  · intro h1 h2
    rw [hr] at h1 h2
    unfold main_loop_body
    cases hm : s.MainMode with
    | CHARGING =>
      rw [switch_charging _ (hf.1.trans hm)]
      unfold thresholdCAP
      rw [if_neg (by omega)]
      exact hf.1.trans hm
    | BOOTING =>
      rw [switch_booting _ (hf.1.trans hm)]
      unfold thresholdCAP_hysteresis
      rw [if_neg (by omega)]
      exact hf.1.trans hm
  · unfold main_loop_body
    cases hm : s.MainMode with
    | CHARGING =>
      rw [switch_charging _ (hf.1.trans hm)]
      split_ifs with h
      · intro hc; simp at hc
      · intro _; exact hf.2
    | BOOTING =>
      rw [switch_booting _ (hf.1.trans hm)]
      split_ifs with h
      · intro hc; simp at hc
      · intro _; exact hf.2
  · exact loop_inv as State.init (by decide)

end SmartStartUp
